import Mathlib

/-!
Flickr witness-rewriting plugin: a shallow embedding of `main.go`.

The Go functions of `main.go` are embedded as pure Lean functions.

Modelling conventions.

* A Go `map[string]T` is an association list `List (String × T)`.  `range` over the
  map enumerates the list from head to tail; Go leaves the enumeration order
  unspecified, so a statement quantified over every association list speaks about
  every enumeration order.  `delete(m, k)` drops every pair stored under `k`,
  `m[k] = v` on an absent key appends the pair.  A nil map and an empty map are
  both `[]`.
* A function that mutates the witness through a pointer returns the witness it
  leaves behind together with its Go result (state passing).  An `error` result
  is `Option String`: `none` is `nil`, `some msg` is an error with that message.
* The protobuf messages of `akita-ir/go/api_spec` are declared outside the
  repository; they are modelled by the fields and getters the code uses.  The
  `oneof` groups (`Data.value`, `Primitive.value`, `DataMeta.meta`,
  `HTTPMeta.location`, `MethodMeta.meta`) are inductive types with one
  constructor per alternative and one for "not set".
* `int32` response codes are integers; the code only compares and copies them.
* `printer.Debugf` calls have no effect on the witness and are left out.
-/

namespace PluginFlickr

/-! ## The witness data model (protobuf messages of `api_spec`) -/

/-- Modelled from the spec: the message `pb.String` of `api_spec` (declared outside the
repository), a string value with its declared string type; the code reads `Value`. -/
structure PbString where
  type : Nat
  value : String
  deriving DecidableEq, Repr

/-- Modelled from the spec: the `oneof value` of `pb.Primitive` (string, number, bool);
payloads of the non-string alternatives are kept as numbers. -/
inductive PrimitiveValue where
  | unset
  | bool_value (b : Bool)
  | bytes_value (bs : List Nat)
  | string_value (s : PbString)
  | int32_value (i : Int)
  | int64_value (i : Int)
  | uint32_value (n : Nat)
  | uint64_value (n : Nat)
  | double_value (bits : Nat)
  | float_value (bits : Nat)
  deriving DecidableEq, Repr

/-- Modelled from the spec: the message `pb.Primitive`, a leaf value with its mutable
`FormatKind` tag and its map of named boolean format flags `Formats`. -/
structure Primitive where
  value : PrimitiveValue
  type_hint : String
  formats : List (String × Bool)
  format_kind : String
  deriving DecidableEq, Repr

/-- Modelled from the spec: the enum `pb.HTTPAuth_HTTPAuthType`; the code uses `BEARER`. -/
inductive HTTPAuthType where
  | UNKNOWN
  | BASIC
  | BEARER
  | PROPRIETARY_HEADER
  deriving DecidableEq, Repr

/-- Modelled from the spec: the per-fragment location discriminator, the `oneof location` of
`pb.HTTPMeta`.  The code reads it through the getter `GetMultipart()`, the type assertion
`Location.(*pb.HTTPMeta_Body)` and `spec_util.HTTPQueryFromData`, and writes
`pb.HTTPMeta_Auth`. -/
inductive HTTPLocation where
  | unset
  | path (key : String)
  | query (key : String)
  | header (key : String)
  | cookie (key : String)
  | body (content_type : Nat) (other_type : String)
  | empty
  | auth (type : HTTPAuthType)
  | multipart (type : String)
  deriving DecidableEq, Repr

/-- Modelled from the spec: the message `pb.HTTPMeta`, where a fragment sits in the HTTP
exchange, and its denormalized response code. -/
structure HTTPMeta where
  location : HTTPLocation
  response_code : Int
  deriving DecidableEq, Repr

/-- Modelled from the spec: the `oneof meta` of `pb.DataMeta` (a `DataMeta_Http` wrapper
always holds a message). -/
inductive DataMeta where
  | unset
  | grpc
  | http (http : HTTPMeta)
  deriving DecidableEq, Repr

/-- Modelled from the spec: the tagged union `Value`, the message `pb.Data` with its
`oneof value` (one constructor per alternative) and its `Meta` field.  `pb.Struct` is its
`Fields` map, `pb.List` its `Elems`, `pb.OneOf` its `Options` map, and `pb.Optional` is
`some d` for `Optional_Data` and `none` otherwise. -/
inductive Data where
  | unset (dmeta : Option DataMeta)
  | primitive (p : Primitive) (dmeta : Option DataMeta)
  | struct (fields : List (String × Data)) (dmeta : Option DataMeta)
  | list (elems : List Data) (dmeta : Option DataMeta)
  | optional (value : Option Data) (dmeta : Option DataMeta)
  | oneof (options : List (String × Data)) (dmeta : Option DataMeta)

/-- Modelled from the spec: the protocol classification, the enum `pb.ApiType`. -/
inductive ApiType where
  | UNKNOWN_API_TYPE
  | HTTP_REST
  | GRPC
  deriving DecidableEq, Repr

/-- Modelled from the spec: the message `pb.MethodID`, the `Id` of a witness. -/
structure MethodID where
  name : String
  api_type : ApiType
  deriving DecidableEq, Repr

/-- Modelled from the spec: the message `pb.HTTPMethodMeta` (host and path template). -/
structure HTTPMethodMeta where
  method : String
  path_template : String
  host : String
  deriving DecidableEq, Repr

/-- Modelled from the spec: the `oneof meta` of `pb.MethodMeta`. -/
inductive MethodMeta where
  | unset
  | grpc
  | http (http : HTTPMethodMeta)
  deriving DecidableEq, Repr

/-- Modelled from the spec: the message `pb.Method`, one captured call (the witness) with its
`Id`, `Args`, `Responses` and method metadata. -/
structure Method where
  id : Option MethodID
  args : List (String × Data)
  responses : List (String × Data)
  mmeta : Option MethodMeta

/-! ## Go maps as association lists -/

/-- The lookup `v, present := m[k]`. -/
def mapLookup {α : Type} (k : String) : List (String × α) → Option α
  | [] => none
  | (k1, v) :: rest => if k1 = k then some v else mapLookup k rest

/-- The statement `delete(m, k)`. -/
def mapDelete {α : Type} (m : List (String × α)) (k : String) : List (String × α) :=
  m.filter (fun kv => decide (kv.1 ≠ k))

/-- The statement `m[k] = v`: overwrite in place when `k` is present, append otherwise. -/
def mapSet {α : Type} (k : String) (v : α) : List (String × α) → List (String × α)
  | [] => [(k, v)]
  | (k1, v1) :: rest => if k1 = k then (k, v) :: rest else (k1, v1) :: mapSet k v rest

/-! ## Generated getters and `spec_util` accessors -/

/-- The getter `data.GetMeta()`. -/
def Data.GetMeta : Data → Option DataMeta
  | .unset m => m
  | .primitive _ m => m
  | .struct _ m => m
  | .list _ m => m
  | .optional _ m => m
  | .oneof _ m => m

/-- The getter `data.GetPrimitive()`. -/
def Data.GetPrimitive : Data → Option Primitive
  | .primitive p _ => some p
  | _ => none

/-- The getter `data.GetStruct()`, as the `Fields` map of the struct. -/
def Data.GetStruct : Data → Option (List (String × Data))
  | .struct fields _ => some fields
  | _ => none

/-- The type assertion `data.GetMeta().GetMeta().(*pb.DataMeta_Http)`, giving `m.Http`. -/
def Data.httpMeta (data : Data) : Option HTTPMeta :=
  match data.GetMeta with
  | some (.http h) => some h
  | _ => none

/-- The getter `prim.GetStringValue()`. -/
def Primitive.GetStringValue (prim : Primitive) : Option PbString :=
  match prim.value with
  | .string_value s => some s
  | _ => none

/-- Modelled from the spec: the witness accessor `spec_util.HTTPQueryFromData` of akita-libs,
giving the declared key of the query location, if the fragment has one. -/
def HTTPQueryFromData (data : Data) : Option String :=
  match data.httpMeta with
  | some h => (match h.location with
    | .query key => some key
    | _ => none)
  | none => none

/-- Modelled from the spec: the witness accessor `spec_util.HTTPBodyFromData` of akita-libs
compared with nil ("this fragment is the body"). -/
def HTTPBodyFromData (data : Data) : Bool :=
  match data.httpMeta with
  | some h => (match h.location with
    | .body _ _ => true
    | _ => false)
  | none => false

/-- The getter `m.Http.GetMultipart()` compared with nil. -/
def HTTPMeta.isMultipart (h : HTTPMeta) : Bool :=
  match h.location with
  | .multipart _ => true
  | _ => false

/-- The type assertion `m.Http.Location.(*pb.HTTPMeta_Body)`. -/
def HTTPMeta.isBody (h : HTTPMeta) : Bool :=
  match h.location with
  | .body _ _ => true
  | _ => false

/-- Modelled from the spec: the witness accessor `spec_util.HTTPMetaFromMethod` of akita-libs,
the HTTP metadata of the method if it has any. -/
def HTTPMetaFromMethod (method : Method) : Option HTTPMethodMeta :=
  match method.mmeta with
  | some (.http h) => some h
  | _ => none

/-- The chain `method.GetId().GetApiType()`. -/
def Method.GetApiType (method : Method) : ApiType :=
  match method.id with
  | some i => i.api_type
  | none => .UNKNOWN_API_TYPE

/-- The assignment `meta.PathTemplate = p` through the pointer returned by `HTTPMetaFromMethod`. -/
def Method.setPathTemplate (method : Method) (p : String) : Method :=
  match method.mmeta with
  | some (.http h) => { method with mmeta := some (.http { h with path_template := p }) }
  | _ => method

/-- Replace the `Fields` map of a struct fragment (a write through `data.GetStruct()`). -/
def Data.setFields (data : Data) (fields : List (String × Data)) : Data :=
  match data with
  | .struct _ m => .struct fields m
  | d => d

/-- The assignment `m.Http.ResponseCode = code` on a fragment that carries HTTP metadata. -/
def Data.setResponseCode (data : Data) (code : Int) : Data :=
  match data.GetMeta with
  | some (.http h) =>
    let m := some (DataMeta.http { h with response_code := code })
    (match data with
    | .unset _ => .unset m
    | .primitive p _ => .primitive p m
    | .struct fields _ => .struct fields m
    | .list elems _ => .list elems m
    | .optional value _ => .optional value m
    | .oneof options _ => .oneof options m)
  | _ => data

/-! ## `main.go` -/

/-- The function `DataToString`. -/
def DataToString (data : Data) : Option PbString :=
  match data.GetPrimitive with
  | some prim => prim.GetStringValue
  | none => none

/-- One iteration of the first loop of `PopQueryStringParamByName`; the state is `(keysToDelete, qsp)`. -/
def PopQueryStringParamByName.step (name : String) (st : List String × Option PbString)
    (kd : String × Data) : List String × Option PbString :=
  match HTTPQueryFromData kd.2 with
  | none => st
  | some key =>
    if key ≠ name then st
    else
      (st.1 ++ [kd.1],
        match DataToString kd.2, st.2 with
        | some tmpQsp, none => some tmpQsp
        | _, qsp => qsp)

/-- The function `PopQueryStringParamByName`. -/
def PopQueryStringParamByName (method : Method) (name : String) : Method × Option PbString :=
  let st := method.args.foldl (PopQueryStringParamByName.step name) ([], none)
  ({ method with args := st.1.foldl mapDelete method.args }, st.2)

/-- The function `PopMultipartElementByName` on `data.GetStruct()`; it returns the struct it leaves. -/
def PopMultipartElementByName (s : Option (List (String × Data))) (name : String) :
    Option (List (String × Data)) × Option PbString :=
  match s with
  | none => (none, none)
  | some fields =>
    match mapLookup name fields with
    | none => (some fields, none)
    | some data =>
      match DataToString data with
      | some qsp => (some (mapDelete fields name), some qsp)
      | none => (some fields, none)

/-- The loop of `PopBodyElementByName` over the remaining `Args`, with its early returns. -/
def PopBodyElementByName.scan (name : String) :
    List (String × Data) → List (String × Data) × Option PbString
  | [] => ([], none)
  | (k, data) :: rest =>
    let continue_ := ((k, data) :: (PopBodyElementByName.scan name rest).1,
      (PopBodyElementByName.scan name rest).2)
    match data.httpMeta with
    | none => continue_
    | some m =>
      if m.isMultipart then
        let r := PopMultipartElementByName data.GetStruct name
        (match r.1 with
        | some fields => ((k, data.setFields fields) :: rest, r.2)
        | none => ((k, data) :: rest, r.2))
      else if !m.isBody then continue_
      else
        match data.GetStruct with
        | none => continue_
        | some body =>
          match mapLookup name body with
          | none => continue_
          | some field =>
            match DataToString field with
            | some qsp => ((k, data.setFields (mapDelete body name)) :: rest, some qsp)
            | none => continue_

/-- The function `PopBodyElementByName`. -/
def PopBodyElementByName (method : Method) (name : String) : Method × Option PbString :=
  let r := PopBodyElementByName.scan name method.args
  ({ method with args := r.1 }, r.2)

/-- The class `[0-9]` of the pattern. -/
def nsid_digit : RegularExpression Char :=
  .char '0' + .char '1' + .char '2' + .char '3' + .char '4' + .char '5' + .char '6' +
    .char '7' + .char '8' + .char '9'

/-- The pattern `^[0-9]+@N[0-9]+$`; the anchors make it a match of the whole string. -/
def nsid_re : RegularExpression Char :=
  (nsid_digit * .star nsid_digit) * .char '@' * .char 'N' * (nsid_digit * .star nsid_digit)

/-- The call `nsid_re.MatchString(s)`. -/
def nsid_re_MatchString (s : String) : Bool :=
  nsid_re.rmatch s.toList

/-- The primitive branch of `detectNSIDsData`: the writes to `prim.FormatKind` and `prim.Formats`. -/
def detectNSIDsPrimitive (prim : Primitive) : Primitive :=
  match prim.GetStringValue with
  | none => prim
  | some strPrim =>
    if nsid_re_MatchString strPrim.value then
      { prim with format_kind := "flickr_data", formats := mapSet "flickr_nsid" true prim.formats }
    else prim

mutual
/-- The function `detectNSIDsData`. -/
def detectNSIDsData : Data → Data
  | .unset m => .unset m
  | .primitive prim m => .primitive (detectNSIDsPrimitive prim) m
  | .struct fields m => .struct (detectNSIDsData.fields fields) m
  | .list elems m => .list (detectNSIDsData.elems elems) m
  | .optional none m => .optional none m
  | .optional (some d) m => .optional (some (detectNSIDsData d)) m
  | .oneof options m => .oneof (detectNSIDsData.fields options) m
/-- The loops `for _, d := range structure.Fields` and `for _, d := range oneof.Options`. -/
def detectNSIDsData.fields : List (String × Data) → List (String × Data)
  | [] => []
  | (k, d) :: rest => (k, detectNSIDsData d) :: detectNSIDsData.fields rest
/-- The loop `for _, d := range list.Elems`. -/
def detectNSIDsData.elems : List Data → List Data
  | [] => []
  | d :: rest => detectNSIDsData d :: detectNSIDsData.elems rest
end

/-- The function `DetectNSIDs`. -/
def DetectNSIDs (method : Method) : Method :=
  { method with
    args := detectNSIDsData.fields method.args
    responses := detectNSIDsData.fields method.responses }

/-- The function `CreateAuthHeader`; `obfuscate v` stands for
`spec_util.CategorizeString(v).Obfuscate().ToProto()`. -/
def CreateAuthHeader (obfuscate : String → Primitive) (param : PbString) : Data :=
  .primitive (obfuscate param.value)
    (some (.http { location := .auth .BEARER, response_code := 0 }))

/-- The two lookups that open `FixHTTPAuthorization` (query string, then body): the witness
they leave and the value of `flApiKey`. -/
def FixHTTPAuthorization.popApiKey (method : Method) : Method × Option PbString :=
  let r1 := PopQueryStringParamByName method "api_key"
  let r2 := PopBodyElementByName r1.1 "api_key"
  (r2.1,
    match r2.2 with
    | some flApiKeyBody => some flApiKeyBody
    | none => r1.2)

/-- The function `FixHTTPAuthorization`; `hash` stands for `ir_hash.HashDataToString`. -/
def FixHTTPAuthorization (hash : Data → String) (obfuscate : String → Primitive)
    (method : Method) : Method × Option String :=
  let r := FixHTTPAuthorization.popApiKey method
  match r.2 with
  | none => (r.1, none)
  | some flApiKey =>
    let authData := CreateAuthHeader obfuscate flApiKey
    let k := hash authData
    match mapLookup k r.1.args with
    | some _ => (r.1, some "detected collision in data map key during plugin Transform")
    | none => ({ r.1 with args := mapSet k authData r.1.args }, none)

/-- The local variables of the scan loop of `FixHTTPResponseCode`. -/
structure FixHTTPResponseCode.State where
  replaceCodes : Bool
  respCode : Int
  maxCode : Int
  deriving DecidableEq, Repr

/-- The loop `for k, v := range st.Fields` of `FixHTTPResponseCode`. -/
def FixHTTPResponseCode.statLoop (st : FixHTTPResponseCode.State) :
    List (String × Data) → FixHTTPResponseCode.State
  | [] => st
  | (k, v) :: rest =>
    if k ≠ "stat" then FixHTTPResponseCode.statLoop st rest
    else
      match DataToString v with
      | some s =>
        if s.value = "fail" then
          FixHTTPResponseCode.statLoop { st with replaceCodes := true, respCode := 400 } rest
        else FixHTTPResponseCode.statLoop st rest
      | none => FixHTTPResponseCode.statLoop st rest

/-- One iteration of the loop `for _, data := range responses` of `FixHTTPResponseCode`. -/
def FixHTTPResponseCode.step (st : FixHTTPResponseCode.State) (kd : String × Data) :
    FixHTTPResponseCode.State :=
  match kd.2.httpMeta with
  | none => st
  | some m =>
    let st1 : FixHTTPResponseCode.State :=
      if m.response_code > st.maxCode then { st with maxCode := m.response_code } else st
    if !HTTPBodyFromData kd.2 then st1
    else
      let st2 : FixHTTPResponseCode.State := { st1 with respCode := m.response_code }
      match kd.2.GetStruct with
      | none => st2
      | some fields => FixHTTPResponseCode.statLoop st2 fields

/-- The function `FixHTTPResponseCode`; `metas` holds exactly the fragments with HTTP metadata,
so the final loop rewrites the code of each of them. -/
def FixHTTPResponseCode (method : Method) : Method × Option String :=
  let st := method.responses.foldl FixHTTPResponseCode.step
    { replaceCodes := false, respCode := 0, maxCode := 0 }
  if st.respCode = 0 then
    (method, some "Throwing away request/response with 0 status\n")
  else if st.replaceCodes then
    ({ method with
        responses := method.responses.map (fun kd => (kd.1, kd.2.setResponseCode st.respCode)) },
      none)
  else (method, none)

/-- The call `strings.Contains(s, sub)`. -/
def stringsContains (s sub : String) : Bool :=
  s.toList.tails.any (fun t => sub.toList.isPrefixOf t)

/-- The method `IsFlickrAPICall`. -/
def IsFlickrAPICall (hmeta : HTTPMethodMeta) : Bool :=
  stringsContains hmeta.host "api.flickr.com"

/-- The two lookups of `Transform` that rewrite the path template (query string, then body). -/
def Transform.extractPath (method : Method) : Method :=
  let r1 := PopQueryStringParamByName method "method"
  let m1 :=
    match r1.2 with
    | some flMethod => r1.1.setPathTemplate ("/services/awesome/" ++ flMethod.value)
    | none => r1.1
  let r2 := PopBodyElementByName m1 "method"
  match r2.2 with
  | some flMethod => r2.1.setPathTemplate ("/services/awesome/" ++ flMethod.value)
  | none => r2.1

/-- The method `Transform`. -/
def Transform (hash : Data → String) (obfuscate : String → Primitive) (method : Method) :
    Method × Option String :=
  if method.GetApiType ≠ .HTTP_REST then (method, none)
  else
    match HTTPMetaFromMethod method with
    | none => (method, none)
    | some hmeta =>
      if !IsFlickrAPICall hmeta then
        (method, some ("Discarding request not to Flickr API: " ++ hmeta.host ++ "\n"))
      else
        let m1 := Transform.extractPath method
        let r2 := FixHTTPResponseCode m1
        match r2.2 with
        | some err => (r2.1, some err)
        | none =>
          let r3 := FixHTTPAuthorization hash obfuscate r2.1
          match r3.2 with
          | some err => (r3.1, some err)
          | none => (DetectNSIDs r3.1, none)

/-! ## Predicates used to state the properties -/

/-- Whether the fragment is a query-string parameter whose declared key is `name`. -/
def isQueryParam (name : String) (data : Data) : Bool :=
  decide (HTTPQueryFromData data = some name)

/-- Whether the fragment carries HTTP metadata located in the request body (plain or multipart). -/
def isRequestBody (data : Data) : Bool :=
  match data.httpMeta with
  | some m => m.isMultipart || m.isBody
  | none => false

/-- Whether the fragment is a request-body struct with a string-valued field `name`. -/
def hasBodyStringField (name : String) (data : Data) : Bool :=
  isRequestBody data &&
    (match data.GetStruct with
    | some fields =>
      (match mapLookup name fields with
      | some field => (DataToString field).isSome
      | none => false)
    | none => false)

/-- The path template of the witness, when it has HTTP method metadata. -/
def pathTemplate (method : Method) : Option String :=
  (HTTPMetaFromMethod method).map (fun h => h.path_template)

/-! ## Sample witnesses -/

/-- A string primitive without format annotations. -/
def sampleString (v : String) : Primitive :=
  { value := .string_value { type := 0, value := v }, type_hint := "", formats := [],
    format_kind := "" }

/-- A query-string parameter `key=v`. -/
def sampleQuery (key v : String) : Data :=
  .primitive (sampleString v) (some (.http { location := .query key, response_code := 0 }))

/-- A plain body struct with the given fields and response code. -/
def sampleBody (fields : List (String × Data)) (code : Int) : Data :=
  .struct fields (some (.http { location := .body 0 "", response_code := code }))

/-- A multipart body struct with the given parts. -/
def sampleMultipart (fields : List (String × Data)) : Data :=
  .struct fields (some (.http { location := .multipart "form-data", response_code := 0 }))

/-- A response header fragment with the given response code. -/
def sampleHeader (key v : String) (code : Int) : Data :=
  .primitive (sampleString v) (some (.http { location := .header key, response_code := code }))

/-- A string field of a body struct. -/
def sampleField (v : String) : Data :=
  .primitive (sampleString v) none

/-- A REST witness addressed to `api.flickr.com` with the given arguments and responses. -/
def sampleMethod (args responses : List (String × Data)) : Method :=
  { id := some { name := "call", api_type := .HTTP_REST },
    args := args,
    responses := responses,
    mmeta := some
      (.http { method := "GET", path_template := "/services/rest", host := "api.flickr.com" }) }

/-- A stand-in for `ir_hash.HashDataToString` in concrete evaluations. -/
def sampleHash (_data : Data) : String := "auth-key"

/-- A stand-in for the categorise-and-obfuscate transform in concrete evaluations. -/
def sampleObfuscate (_v : String) : Primitive := sampleString "REDACTED"

/-- Query `method=X` together with a body field `method=Y`. -/
def sampleQueryAndBody : Method :=
  sampleMethod
    [("q", sampleQuery "method" "X"), ("b", sampleBody [("method", sampleField "Y")] 0)]
    [("r", sampleBody [] 200)]

/-- Query `method=flickr.test.echo` and nothing else in the request. -/
def sampleQueryOnly : Method :=
  sampleMethod [("q", sampleQuery "method" "flickr.test.echo")] [("r", sampleBody [] 200)]

/-- Whether the fragment is a request-body struct with a field `name` (of any type). -/
def hasBodyField (name : String) (data : Data) : Bool :=
  isRequestBody data &&
    (match data.GetStruct with
    | some fields => (mapLookup name fields).isSome
    | none => false)

/-- Neither a query-string parameter `name` nor a request-body struct with a field `name`. -/
def carriesNo (name : String) (data : Data) : Bool :=
  !isQueryParam name data && !hasBodyField name data

/-- Query `method=X` together with a multipart body part `method=Y`, and an `api_key`. -/
def sampleQueryAndMultipart : Method :=
  sampleMethod
    [("q", sampleQuery "method" "X"), ("k", sampleQuery "api_key" "secret"),
      ("b", sampleMultipart [("method", sampleField "Y"), ("title", sampleField "12@N3")])]
    [("h", sampleHeader "Content-Type" "text/xml" 200), ("r", sampleBody [] 200)]

/-- Whether a field is named `stat` and holds the string `fail`. -/
def isStatFail (k : String) (v : Data) : Bool :=
  decide (k = "stat") &&
    (match DataToString v with
    | some s => decide (s.value = "fail")
    | none => false)

/-- Whether a `Fields` map has a top-level field `stat` holding the string `fail`. -/
def hasStatFail (fields : List (String × Data)) : Bool :=
  fields.any (fun kv => isStatFail kv.1 kv.2)

/-- Whether the fragment is an HTTP body struct whose field `stat` holds the string `fail`. -/
def isFailBody (data : Data) : Bool :=
  HTTPBodyFromData data &&
    (match data.GetStruct with
    | some fields => hasStatFail fields
    | none => false)

/-- The response code of a fragment that carries HTTP metadata. -/
def responseCode (data : Data) : Option Int :=
  data.httpMeta.map (fun h => h.response_code)

/-- The error message of the zero-status discard in `FixHTTPResponseCode`. -/
def zeroStatusError : String := "Throwing away request/response with 0 status\n"

/-- The error message of the key collision in `FixHTTPAuthorization`. -/
def collisionError : String := "detected collision in data map key during plugin Transform"

/-- The string held by field `name` of a request-body struct (plain or multipart), if any. -/
def bodyStringField (name : String) (data : Data) : Option PbString :=
  if isRequestBody data then
    (match data.GetStruct with
    | some fields =>
      (match mapLookup name fields with
      | some field => DataToString field
      | none => none)
    | none => none)
  else none

/-- The witness carries the string `v` under `name`, as a query-string parameter or as a
string field of a request-body struct. -/
def carriesStringParam (name : String) (args : List (String × Data)) (v : PbString) : Prop :=
  (∃ kd ∈ args, isQueryParam name kd.2 = true ∧ DataToString kd.2 = some v) ∨
  (∃ kd ∈ args, bodyStringField name kd.2 = some v)

/-- The multipart witness of the test `TestTransformPath`: a part `method=my_method`. -/
def sampleMultipartOnly : Method :=
  sampleMethod
    [("b", sampleMultipart [("method", sampleField "my_method"), ("photo", sampleField "raw")])]
    [("h", sampleHeader "Content-Type" "text/xml" 200), ("r", sampleBody [] 200)]

/-- A multipart witness that carries an `api_key` part and already holds the bearer entry the
plugin would synthesize for it, under that entry's hash key. -/
def sampleMultipartCollision : Method :=
  sampleMethod
    [("b", sampleMultipart [("method", sampleField "my_method"), ("api_key", sampleField "k1")]),
      (sampleHash (CreateAuthHeader sampleObfuscate { type := 0, value := "k1" }),
        CreateAuthHeader sampleObfuscate { type := 0, value := "k1" })]
    [("r", sampleBody [] 200)]

/-- Two response bodies, the first with `stat = fail`, both observed with code 200, and a
header fragment. -/
def sampleFailThenOk : Method :=
  sampleMethod []
    [("a", sampleBody [("stat", sampleField "fail")] 200),
      ("b", sampleBody [("stat", sampleField "ok")] 200),
      ("h", sampleHeader "Content-Type" "text/xml" 200)]

/-- The fragments of `sampleFailThenOk` enumerated with the `stat = fail` body last. -/
def sampleOkThenFail : Method :=
  sampleMethod []
    [("b", sampleBody [("stat", sampleField "ok")] 200),
      ("h", sampleHeader "Content-Type" "text/xml" 200),
      ("a", sampleBody [("stat", sampleField "fail")] 200)]

/-- A response body with `stat = fail` observed with code 0, and a header with code 0. -/
def sampleZeroFail : Method :=
  sampleMethod [("q", sampleQuery "method" "flickr.test.echo")]
    [("r", sampleBody [("stat", sampleField "fail")] 0),
      ("h", sampleHeader "Content-Type" "text/xml" 0)]

/-- A capture whose response fragments all report code 0, with an `api_key` and an NSID. -/
def sampleZero : Method :=
  sampleMethod
    [("q", sampleQuery "method" "flickr.test.echo"), ("k", sampleQuery "api_key" "secret"),
      ("u", sampleQuery "user_id" "12345678@N01")]
    [("r", sampleBody [("stat", sampleField "ok")] 0),
      ("h", sampleHeader "Content-Type" "text/xml" 0)]

/-- An `api_key` in the query string only, next to two other parameters. -/
def sampleApiKeyQuery : Method :=
  sampleMethod
    [("u", sampleQuery "user_id" "12345678@N01"), ("k", sampleQuery "api_key" "secret"),
      ("b", sampleBody [("title", sampleField "hello")] 0)]
    [("r", sampleBody [] 200)]

/-- An `api_key` in the query string while Args already hold an entry under the key that
`sampleHash` gives the synthesized auth node. -/
def sampleApiKeyCollision : Method :=
  sampleMethod
    [("k", sampleQuery "api_key" "secret"), ("auth-key", sampleHeader "X-Trace" "abc" 0)]
    [("r", sampleBody [] 200)]

/-- The values directly below a node: Struct fields, List elements, the present Optional
value, Oneof options. -/
def Data.children : Data → List Data
  | .struct fields _ => fields.map Prod.snd
  | .list elems _ => elems
  | .optional (some d) _ => [d]
  | .oneof options _ => options.map Prod.snd
  | _ => []

/-- The node reached from `d` by following child positions. -/
def Data.descend : Data → List Nat → Option Data
  | d, [] => some d
  | d, i :: rest =>
    match d.children[i]? with
    | some c => c.descend rest
    | none => none

/-- The node reached from entry number `i` of Args (or of Responses when `inResponses`) by
following child positions. -/
def Method.reach (method : Method) (inResponses : Bool) (i : Nat) (path : List Nat) :
    Option Data :=
  match (if inResponses then method.responses else method.args)[i]? with
  | some kd => kd.2.descend path
  | none => none

/-- The NSID shape: one or more ASCII digits, then `@N`, then one or more ASCII digits, and
nothing else. -/
def IsNSIDShape (s : String) : Prop :=
  ∃ a b : List Char, a ≠ [] ∧ b ≠ [] ∧ (∀ c ∈ a, c.isDigit = true) ∧
    (∀ c ∈ b, c.isDigit = true) ∧ s.toList = a ++ '@' :: 'N' :: b

/-- A primitive that already carries format annotations. -/
def sampleTagged (v : String) : Primitive :=
  { value := .string_value { type := 0, value := v }, type_hint := "",
    formats := [("email", true)], format_kind := "contact" }

/-- A primitive holding a 64-bit integer. -/
def sampleCount (n : Int) : Primitive :=
  { value := .int64_value n, type_hint := "", formats := [], format_kind := "" }

/-- A witness with NSID-shaped and other strings at several depths of Args and Responses. -/
def sampleNested : Method :=
  sampleMethod
    [("u", sampleQuery "user_id" "12345678@N01"),
      ("b", sampleBody
        [("owner", .optional (some (.primitive (sampleTagged "7@N2") none)) none),
          ("tags", .list [sampleField "hello@Nx", sampleField "abc@N12"] none)] 0)]
    [("r", sampleBody
      [("person", .oneof [("v1", .struct [("nsid", sampleField "66@N06")] none)] none),
        ("count", .primitive (sampleCount 3) none)] 200)]

/-- A REST witness addressed to another host, with a `method` parameter, an `api_key` and an
NSID-shaped value. -/
def sampleOtherHost : Method :=
  { id := some { name := "call", api_type := .HTTP_REST },
    args := [("q", sampleQuery "method" "flickr.test.echo"),
      ("k", sampleQuery "api_key" "secret"), ("u", sampleQuery "user_id" "12345678@N01")],
    responses := [("r", sampleBody [("stat", sampleField "fail")] 200)],
    mmeta := some
      (.http { method := "GET", path_template := "/v1/items", host := "api.example.com" }) }

/-- A witness declared REST-over-HTTP that has no method metadata at all. -/
def sampleNoMeta : Method :=
  { id := some { name := "call", api_type := .HTTP_REST },
    args := [("q", sampleQuery "method" "flickr.test.echo")],
    responses := [("r", sampleBody [] 200)],
    mmeta := none }

/-- Whether the fragment carries HTTP metadata whose location is multipart. -/
def isMultipartFragment (data : Data) : Bool :=
  match data.httpMeta with
  | some m => m.isMultipart
  | none => false

/-- The fragment that `PopMultipartElementByName (data.GetStruct(), name)` leaves behind. -/
def afterPopMultipart (data : Data) (name : String) : Data :=
  match (PopMultipartElementByName data.GetStruct name).1 with
  | some fields => data.setFields fields
  | none => data

/-- A plain body struct with `method = Y` enumerated before a multipart struct with
`method = X`. -/
def sampleBodyThenMultipart : Method :=
  sampleMethod
    [("b", sampleBody [("method", sampleField "Y")] 0),
      ("m", sampleMultipart [("method", sampleField "X")])]
    [("r", sampleBody [] 200)]

/-- The fragments of `sampleBodyThenMultipart` enumerated with the multipart struct first. -/
def sampleMultipartThenBody : Method :=
  sampleMethod
    [("m", sampleMultipart [("method", sampleField "X")]),
      ("b", sampleBody [("method", sampleField "Y")] 0)]
    [("r", sampleBody [] 200)]

/-- A query-string parameter `key=n` holding a number. -/
def sampleQueryNumber (key : String) (n : Int) : Data :=
  .primitive (sampleCount n) (some (.http { location := .query key, response_code := 0 }))

/-- Three query-string parameters `tags` (a number, then two strings) among other Args. -/
def sampleRepeatedQuery : Method :=
  sampleMethod
    [("a", sampleQueryNumber "tags" 7), ("u", sampleQuery "user_id" "12345678@N01"),
      ("b", sampleQuery "tags" "first"), ("c", sampleQuery "tags" "second"),
      ("d", sampleBody [("tags", sampleField "body")] 0)]
    [("r", sampleBody [] 200)]

/-- Two plain body structs, each with a string field `api_key` and a field `method`. -/
def sampleTwoBodies : Method :=
  sampleMethod
    [("b1", sampleBody [("method", sampleField "A"), ("api_key", sampleField "k1")] 0),
      ("b2", sampleBody [("method", sampleField "B"), ("api_key", sampleField "k2")] 0)]
    [("r", sampleBody [] 200)]

/-- Whether the fragment is an HTTP body struct that has a top-level field `stat`. -/
def hasStatField (data : Data) : Bool :=
  HTTPBodyFromData data &&
    (match data.GetStruct with
    | some fields => (mapLookup "stat" fields).isSome
    | none => false)

/-- The code a body fragment contributes to the scan: 400 when its `stat` says `fail`, its own
response code otherwise. -/
def effectiveCode (data : Data) : Int :=
  if isFailBody data then 400 else (responseCode data).getD 0

/-- The value of `respCode` after scanning the fragments in order, starting from `r`: each
body fragment overwrites it with its effective code, other fragments leave it. -/
def scanRespCode : List (String × Data) → Int → Int
  | [], r => r
  | kd :: rest, r => scanRespCode rest (if HTTPBodyFromData kd.2 then effectiveCode kd.2 else r)

/-- The final loop of `FixHTTPResponseCode`: the code `c` written into every fragment that
carries HTTP metadata. -/
def rewriteCodes (responses : List (String × Data)) (c : Int) : List (String × Data) :=
  responses.map (fun kd => (kd.1, kd.2.setResponseCode c))

/-- A response that has header fragments with code 200 and no body fragment. -/
def sampleHeadersOnly : Method :=
  sampleMethod [] [("h", sampleHeader "Content-Type" "text/xml" 200)]

/-- A response with a header and a body without `stat`, both observed with code 200. -/
def sampleOkResponse : Method :=
  sampleMethod []
    [("h", sampleHeader "Content-Type" "text/xml" 200),
      ("r", sampleBody [("photos", sampleField "none")] 200)]

/-- A response body with `stat = fail` observed with code 500, next to a header. -/
def sampleFail500 : Method :=
  sampleMethod []
    [("r", sampleBody [("stat", sampleField "fail")] 500),
      ("h", sampleHeader "Content-Type" "text/xml" 500)]

/-- Which alternative of the `oneof value` a node holds. -/
def Data.kind : Data → Nat
  | .unset _ => 0
  | .primitive _ _ => 1
  | .struct _ _ => 2
  | .list _ _ => 3
  | .optional _ _ => 5
  | .oneof _ _ => 6

/-- The map keys of a node: the field names of a Struct, the option names of a Oneof. -/
def Data.keys : Data → List String
  | .struct fields _ => fields.map Prod.fst
  | .oneof options _ => options.map Prod.fst
  | _ => []

/-- Neither a query-string parameter `name` nor a request-body struct with a string field
`name`: the two lookups for `name` find nothing in such a fragment. -/
def quiet (name : String) (data : Data) : Bool :=
  !isQueryParam name data && !hasBodyStringField name data

/-- A query-string parameter next to the only body struct, which has the fields `title` and
`lang`. -/
def sampleBodyTwoFields : Method :=
  sampleMethod
    [("u", sampleQuery "user_id" "12345678@N01"),
      ("b", sampleBody [("title", sampleField "hello"), ("lang", sampleField "en")] 0)]
    [("r", sampleBody [] 200)]

/-- A body struct whose field `api_key` holds a number. -/
def sampleBodyNumberField : Method :=
  sampleMethod
    [("b", sampleBody [("api_key", .primitive (sampleCount 42) none)] 0)]
    [("r", sampleBody [] 200)]

/-- A multipart fragment without parts enumerated before a body struct with a string field
`api_key`. -/
def sampleBareMultipartThenBody : Method :=
  sampleMethod
    [("m", sampleMultipart []), ("b", sampleBody [("api_key", sampleField "k1")] 0)]
    [("r", sampleBody [] 200)]

/-- A primitive located in the request body enumerated before the only body struct. -/
def samplePrimitiveBodyAndStruct : Method :=
  sampleMethod
    [("p", .primitive (sampleString "raw")
        (some (.http { location := .body 0 "", response_code := 0 }))),
      ("b", sampleBody [("title", sampleField "hello"), ("lang", sampleField "en")] 0)]
    [("r", sampleBody [] 200)]

/-! ## Lemmas about the helpers -/

theorem foldl_mapDelete {α : Type} (ks : List String) (m : List (String × α)) :
    ks.foldl mapDelete m = m.filter (fun kv => decide (kv.1 ∉ ks)) := by
  induction ks generalizing m with
  | nil => simp
  | cons k ks ih =>
    simp only [List.foldl_cons, ih, mapDelete, List.filter_filter]
    congr 1
    funext kv
    simp [List.mem_cons, not_or, Bool.and_comm]

theorem PopQS_foldl (name : String) (args : List (String × Data))
    (st : List String × Option PbString) :
    args.foldl (PopQueryStringParamByName.step name) st =
      (st.1 ++ (args.filter (fun kd => isQueryParam name kd.2)).map Prod.fst,
        match st.2 with
        | some v => some v
        | none => (args.filter (fun kd => isQueryParam name kd.2)).findSome?
            (fun kd => DataToString kd.2)) := by
  induction args generalizing st with
  | nil => obtain ⟨ks, q⟩ := st; cases q <;> simp
  | cons kd rest ih =>
    rw [List.foldl_cons, ih]
    obtain ⟨ks, q⟩ := st
    unfold PopQueryStringParamByName.step
    cases hq : HTTPQueryFromData kd.2 with
    | none =>
      have : isQueryParam name kd.2 = false := by simp [isQueryParam, hq]
      simp [List.filter_cons, this]
    | some key =>
      by_cases hk : key = name
      · have : isQueryParam name kd.2 = true := by simp [isQueryParam, hq, hk]
        simp only [hk, ne_eq, not_true_eq_false, if_false, List.filter_cons, this, if_true,
          List.map_cons, List.append_assoc, List.singleton_append, List.findSome?_cons]
        cases q <;> cases hd : DataToString kd.2 <;> simp
      · have : isQueryParam name kd.2 = false := by simp [isQueryParam, hq, hk]
        simp [hk, List.filter_cons, this]

theorem PopBody_scan_noop (name : String) (args : List (String × Data))
    (h : ∀ kd ∈ args, hasBodyStringField name kd.2 = false) :
    PopBodyElementByName.scan name args = (args, none) := by
  induction args with
  | nil => rfl
  | cons kd rest ih =>
    obtain ⟨k, data⟩ := kd
    have hrest := ih (fun kd hkd => h kd (List.mem_cons_of_mem _ hkd))
    have hd := h (k, data) (List.mem_cons_self _ _)
    simp only [hasBodyStringField, isRequestBody] at hd
    unfold PopBodyElementByName.scan
    simp only [hrest]
    cases hm : data.httpMeta with
    | none => rfl
    | some m =>
      simp only [hm] at hd
      simp only
      by_cases hmp : m.isMultipart = true
      · simp only [hmp, if_true]
        simp only [hmp, Bool.true_or, Bool.true_and] at hd
        unfold PopMultipartElementByName
        cases hs : data.GetStruct with
        | none => rfl
        | some fields =>
          simp only [hs] at hd
          simp only
          cases hl : mapLookup name fields with
          | none => 
            simp only
            cases data <;> simp_all [Data.GetStruct, Data.setFields]
          | some field =>
            simp only [hl] at hd
            cases hf : DataToString field with
            | some v => simp [hf] at hd
            | none =>
              simp only
              cases data <;> simp_all [Data.GetStruct, Data.setFields]
      · simp only [hmp, Bool.false_eq_true, if_false]
        by_cases hb : m.isBody = true
        · simp only [hb, Bool.not_true, Bool.false_eq_true, if_false]
          simp only [hb, Bool.or_true, Bool.true_and] at hd
          cases hs : data.GetStruct with
          | none => rfl
          | some fields =>
            simp only [hs] at hd
            simp only
            cases hl : mapLookup name fields with
            | none => rfl
            | some field =>
              simp only [hl] at hd
              cases hf : DataToString field with
              | some v => simp [hf] at hd
              | none => simp only [hf]
        · simp [hb]
theorem setPathTemplate_args (m : Method) (p : String) : (m.setPathTemplate p).args = m.args := by
  unfold Method.setPathTemplate
  split <;> rfl

theorem setPathTemplate_responses (m : Method) (p : String) :
    (m.setPathTemplate p).responses = m.responses := by
  unfold Method.setPathTemplate
  split <;> rfl

theorem pathTemplate_setPathTemplate (m : Method) (hmeta : HTTPMethodMeta) (p : String)
    (h : HTTPMetaFromMethod m = some hmeta) : pathTemplate (m.setPathTemplate p) = some p := by
  unfold HTTPMetaFromMethod at h
  unfold pathTemplate HTTPMetaFromMethod Method.setPathTemplate
  split at h <;> simp_all

theorem PopQS_args (m : Method) (name : String) :
    (PopQueryStringParamByName m name).1.args =
      m.args.filter (fun kv => decide (kv.1 ∉
        (m.args.filter (fun kd => isQueryParam name kd.2)).map Prod.fst)) := by
  simp [PopQueryStringParamByName, PopQS_foldl, foldl_mapDelete]

theorem PopQS_result (m : Method) (name : String) :
    (PopQueryStringParamByName m name).2 =
      (m.args.filter (fun kd => isQueryParam name kd.2)).findSome?
        (fun kd => DataToString kd.2) := by
  simp [PopQueryStringParamByName, PopQS_foldl]

theorem PopQS_mem (m : Method) (name : String) (kd : String × Data)
    (h : kd ∈ (PopQueryStringParamByName m name).1.args) : kd ∈ m.args := by
  rw [PopQS_args] at h
  exact (List.mem_filter.mp h).1

theorem FixResp_mmeta (m : Method) : (FixHTTPResponseCode m).1.mmeta = m.mmeta := by
  unfold FixHTTPResponseCode
  simp only
  split
  · rfl
  · split <;> rfl

theorem FixResp_args (m : Method) : (FixHTTPResponseCode m).1.args = m.args := by
  unfold FixHTTPResponseCode
  simp only
  split
  · rfl
  · split <;> rfl

theorem FixAuth_mmeta (hash : Data → String) (obfuscate : String → Primitive) (m : Method) :
    (FixHTTPAuthorization hash obfuscate m).1.mmeta = m.mmeta := by
  unfold FixHTTPAuthorization
  simp only
  split
  · rfl
  · split <;> rfl

/-- Past the two gates, `Transform` is path extraction followed by the three later passes. -/
theorem Transform_gates (hash : Data → String) (obfuscate : String → Primitive) (m : Method)
    (hmeta : HTTPMethodMeta) (hrest : m.GetApiType = .HTTP_REST)
    (hm : HTTPMetaFromMethod m = some hmeta) (hhost : IsFlickrAPICall hmeta = true) :
    Transform hash obfuscate m =
      match (FixHTTPResponseCode (Transform.extractPath m)).2 with
      | some err => ((FixHTTPResponseCode (Transform.extractPath m)).1, some err)
      | none =>
        match (FixHTTPAuthorization hash obfuscate
            (FixHTTPResponseCode (Transform.extractPath m)).1).2 with
        | some err =>
          ((FixHTTPAuthorization hash obfuscate
            (FixHTTPResponseCode (Transform.extractPath m)).1).1, some err)
        | none =>
          (DetectNSIDs (FixHTTPAuthorization hash obfuscate
            (FixHTTPResponseCode (Transform.extractPath m)).1).1, none) := by
  unfold Transform
  simp [hrest, hm, hhost]

theorem Transform_mmeta (hash : Data → String) (obfuscate : String → Primitive) (m : Method)
    (hmeta : HTTPMethodMeta) (hrest : m.GetApiType = .HTTP_REST)
    (hm : HTTPMetaFromMethod m = some hmeta) (hhost : IsFlickrAPICall hmeta = true) :
    (Transform hash obfuscate m).1.mmeta = (Transform.extractPath m).mmeta := by
  rw [Transform_gates hash obfuscate m hmeta hrest hm hhost]
  split
  · exact FixResp_mmeta _
  · split
    · simp only [FixAuth_mmeta, FixResp_mmeta]
    · simp only [DetectNSIDs, FixAuth_mmeta, FixResp_mmeta]

theorem pathTemplate_congr (m1 m2 : Method) (h : m1.mmeta = m2.mmeta) :
    pathTemplate m1 = pathTemplate m2 := by
  simp [pathTemplate, HTTPMetaFromMethod, h]

/-- Path extraction when the body lookup finds nothing: the query-string value decides. -/
theorem extractPath_query_only (m : Method) (hmeta : HTTPMethodMeta) (x : PbString)
    (hm : HTTPMetaFromMethod m = some hmeta)
    (hq : (PopQueryStringParamByName m "method").2 = some x)
    (hbody : ∀ kd ∈ m.args, hasBodyStringField "method" kd.2 = false) :
    pathTemplate (Transform.extractPath m) = some ("/services/awesome/" ++ x.value) := by
  have hscan : PopBodyElementByName.scan "method"
      (PopQueryStringParamByName m "method").1.args =
      ((PopQueryStringParamByName m "method").1.args, none) :=
    PopBody_scan_noop _ _ (fun kd hkd => hbody kd (PopQS_mem m _ kd hkd))
  unfold Transform.extractPath
  simp only [hq, PopBodyElementByName, setPathTemplate_args, hscan]
  have hm1 : HTTPMetaFromMethod (PopQueryStringParamByName m "method").1 = some hmeta := hm
  have := pathTemplate_setPathTemplate _ hmeta ("/services/awesome/" ++ x.value) hm1
  rw [← this]
  apply pathTemplate_congr
  rfl

theorem mapLookup_mapDelete_self {α : Type} (k : String) (m : List (String × α)) :
    mapLookup k (mapDelete m k) = none := by
  induction m with
  | nil => rfl
  | cons kv rest ih =>
    obtain ⟨k1, v⟩ := kv
    by_cases h : k1 = k
    · simpa [mapDelete, List.filter_cons, h] using ih
    · simpa [mapDelete, List.filter_cons, h, mapLookup] using ih

theorem mapLookup_mapDelete_ne {α : Type} (k k2 : String) (m : List (String × α))
    (hne : k ≠ k2) : mapLookup k (mapDelete m k2) = mapLookup k m := by
  induction m with
  | nil => rfl
  | cons kv rest ih =>
    obtain ⟨k1, v⟩ := kv
    unfold mapDelete at ih ⊢
    by_cases h : k1 = k2
    · have h1 : ¬ k2 = k := fun e => hne e.symm
      subst h
      simpa [List.filter_cons, mapLookup, h1] using ih
    · by_cases h1 : k1 = k
      · subst h1
        simp [List.filter_cons, h, mapLookup]
      · simpa [List.filter_cons, h, mapLookup, h1] using ih

theorem mapLookup_mapDelete_none {α : Type} (k k2 : String) (m : List (String × α))
    (h : mapLookup k m = none) : mapLookup k (mapDelete m k2) = none := by
  by_cases hk : k = k2
  · subst hk; exact mapLookup_mapDelete_self k m
  · rw [mapLookup_mapDelete_ne k k2 m hk]; exact h

theorem httpMeta_setFields (d : Data) (fs : List (String × Data)) :
    (d.setFields fs).httpMeta = d.httpMeta := by
  cases d <;> rfl

theorem GetStruct_setFields (d : Data) (body fs : List (String × Data))
    (h : d.GetStruct = some body) : (d.setFields fs).GetStruct = some fs := by
  cases d <;> simp_all [Data.GetStruct, Data.setFields]

theorem setFields_self (d : Data) (body : List (String × Data))
    (h : d.GetStruct = some body) : d.setFields body = d := by
  cases d <;> simp_all [Data.GetStruct, Data.setFields]

theorem isQueryParam_setFields (name : String) (d : Data) (fs : List (String × Data)) :
    isQueryParam name (d.setFields fs) = isQueryParam name d := by
  simp [isQueryParam, HTTPQueryFromData, httpMeta_setFields]

theorem isRequestBody_setFields (d : Data) (fs : List (String × Data)) :
    isRequestBody (d.setFields fs) = isRequestBody d := by
  simp [isRequestBody, httpMeta_setFields]

theorem carriesNo_setFields_mapDelete (name k2 : String) (d : Data)
    (body : List (String × Data)) (hs : d.GetStruct = some body)
    (h : carriesNo name d = true) : carriesNo name (d.setFields (mapDelete body k2)) = true := by
  simp only [carriesNo, hasBodyField, isQueryParam_setFields, isRequestBody_setFields,
    GetStruct_setFields d body _ hs, hs] at h ⊢
  cases hq : isQueryParam name d <;> cases hb : isRequestBody d <;> simp_all
  exact mapLookup_mapDelete_none name k2 body h

theorem scan_cons_skip (name k : String) (d : Data) (rest : List (String × Data))
    (h : isRequestBody d = false) :
    PopBodyElementByName.scan name ((k, d) :: rest) =
      ((k, d) :: (PopBodyElementByName.scan name rest).1,
        (PopBodyElementByName.scan name rest).2) := by
  unfold isRequestBody at h
  rw [PopBodyElementByName.scan]
  cases hm : d.httpMeta with
  | none => rfl
  | some m =>
    simp only [hm, Bool.or_eq_false_iff] at h
    simp [h.1, h.2]

theorem scan_cons_hit (name k : String) (d : Data) (rest body : List (String × Data))
    (f : Data) (y : PbString) (h : isRequestBody d = true) (hs : d.GetStruct = some body)
    (hl : mapLookup name body = some f) (hy : DataToString f = some y) :
    PopBodyElementByName.scan name ((k, d) :: rest) =
      ((k, d.setFields (mapDelete body name)) :: rest, some y) := by
  unfold isRequestBody at h
  rw [PopBodyElementByName.scan]
  cases hm : d.httpMeta with
  | none => simp [hm] at h
  | some m =>
    simp only [hm, Bool.or_eq_true] at h
    by_cases hmp : m.isMultipart = true
    · simp [hmp, PopMultipartElementByName, hs, hl, hy]
    · have hb : m.isBody = true := by
        rcases h with h | h
        · exact absurd h hmp
        · exact h
      simp [hmp, hb, hs, hl, hy]

theorem scan_cons_miss (name k : String) (d : Data) (rest : List (String × Data))
    (h : hasBodyStringField name d = false) :
    PopBodyElementByName.scan name ((k, d) :: rest) =
      (if (match d.httpMeta with
          | some m => m.isMultipart
          | none => false) then ((k, d) :: rest, none)
        else ((k, d) :: (PopBodyElementByName.scan name rest).1,
          (PopBodyElementByName.scan name rest).2)) := by
  simp only [hasBodyStringField, isRequestBody] at h
  rw [PopBodyElementByName.scan]
  cases hm : d.httpMeta with
  | none => rfl
  | some m =>
    simp only [hm] at h
    simp only
    by_cases hmp : m.isMultipart = true
    · simp only [hmp, if_true]
      simp only [hmp, Bool.true_or, Bool.true_and] at h
      unfold PopMultipartElementByName
      cases hs : d.GetStruct with
      | none => rfl
      | some fields =>
        simp only [hs] at h
        simp only
        cases hl : mapLookup name fields with
        | none =>
          simp only
          rw [setFields_self d fields hs]
        | some field =>
          simp only [hl] at h
          cases hf : DataToString field with
          | some v => simp [hf] at h
          | none =>
            simp only [hf]
            rw [setFields_self d fields hs]
    · simp only [hmp, Bool.false_eq_true, if_false]
      by_cases hb : m.isBody = true
      · simp only [hb, Bool.not_true, Bool.false_eq_true, if_false]
        simp only [hb, Bool.or_true, Bool.true_and] at h
        cases hs : d.GetStruct with
        | none => rfl
        | some fields =>
          simp only [hs] at h
          simp only
          cases hl : mapLookup name fields with
          | none => rfl
          | some field =>
            simp only [hl] at h
            cases hf : DataToString field with
            | some v => simp [hf] at h
            | none => simp only [hf]
      · simp [hb]

/-- The body lookup either leaves `Args` alone and finds nothing, or removes the field from
exactly one request-body struct and returns that field's string. -/
theorem scan_shape (name : String) (args : List (String × Data)) :
    PopBodyElementByName.scan name args = (args, none) ∨
    ∃ pre k d body post f y, args = pre ++ (k, d) :: post ∧ isRequestBody d = true ∧
      d.GetStruct = some body ∧ mapLookup name body = some f ∧ DataToString f = some y ∧
      PopBodyElementByName.scan name args =
        (pre ++ (k, d.setFields (mapDelete body name)) :: post, some y) := by
  induction args with
  | nil => exact Or.inl rfl
  | cons kd rest ih =>
    obtain ⟨k, d⟩ := kd
    cases hh : hasBodyStringField name d with
    | false =>
      rw [scan_cons_miss name k d rest hh]
      split
      · exact Or.inl rfl
      · rcases ih with ih | ⟨pre, k2, d2, body, post, f, y, e, hb, hs, hl, hy, hscan⟩
        · left; rw [ih]
        · right
          refine ⟨(k, d) :: pre, k2, d2, body, post, f, y, ?_, hb, hs, hl, hy, ?_⟩
          · rw [e]; rfl
          · rw [hscan]; rfl
    | true =>
      right
      simp only [hasBodyStringField, Bool.and_eq_true] at hh
      obtain ⟨hb, hfield⟩ := hh
      cases hs : d.GetStruct with
      | none => simp [hs] at hfield
      | some body =>
        simp only [hs] at hfield
        cases hl : mapLookup name body with
        | none => simp [hl] at hfield
        | some f =>
          simp only [hl] at hfield
          cases hy : DataToString f with
          | none => simp [hy] at hfield
          | some y =>
            exact ⟨[], k, d, body, rest, f, y, rfl, hb, hs, hl, hy,
              scan_cons_hit name k d rest body f y hb hs hl hy⟩

theorem detect_fields_eq_map (fs : List (String × Data)) :
    detectNSIDsData.fields fs = fs.map (fun kd => (kd.1, detectNSIDsData kd.2)) := by
  induction fs with
  | nil => rfl
  | cons kd rest ih =>
    obtain ⟨k, d⟩ := kd
    simp [detectNSIDsData.fields, ih]

theorem detect_elems_eq_map (es : List Data) :
    detectNSIDsData.elems es = es.map detectNSIDsData := by
  induction es with
  | nil => rfl
  | cons d rest ih => simp [detectNSIDsData.elems, ih]

theorem detect_GetMeta (d : Data) : (detectNSIDsData d).GetMeta = d.GetMeta := by
  cases d with
  | optional v m => cases v <;> simp [detectNSIDsData, Data.GetMeta]
  | _ => simp [detectNSIDsData, Data.GetMeta]

theorem detect_httpMeta (d : Data) : (detectNSIDsData d).httpMeta = d.httpMeta := by
  simp [Data.httpMeta, detect_GetMeta]

theorem detect_GetStruct (d : Data) :
    (detectNSIDsData d).GetStruct = d.GetStruct.map detectNSIDsData.fields := by
  cases d with
  | optional v m => cases v <;> simp [detectNSIDsData, Data.GetStruct]
  | _ => simp [detectNSIDsData, Data.GetStruct]

theorem mapLookup_detect_fields (name : String) (fs : List (String × Data)) :
    mapLookup name (detectNSIDsData.fields fs) = (mapLookup name fs).map detectNSIDsData := by
  induction fs with
  | nil => rfl
  | cons kd rest ih =>
    obtain ⟨k, d⟩ := kd
    by_cases h : k = name <;> simp [detectNSIDsData.fields, mapLookup, h, ih]

theorem carriesNo_detect (name : String) (d : Data) :
    carriesNo name (detectNSIDsData d) = carriesNo name d := by
  simp only [carriesNo, hasBodyField, isQueryParam, HTTPQueryFromData, isRequestBody,
    detect_httpMeta, detect_GetStruct]
  cases d.GetStruct with
  | none => rfl
  | some fs => simp [mapLookup_detect_fields]

theorem carriesNo_auth (name : String) (obfuscate : String → Primitive) (key : PbString) :
    carriesNo name (CreateAuthHeader obfuscate key) = true := by
  simp [carriesNo, hasBodyField, isQueryParam, HTTPQueryFromData, isRequestBody,
    CreateAuthHeader, Data.httpMeta, Data.GetMeta, HTTPMeta.isMultipart, HTTPMeta.isBody]

theorem mem_mapSet {α : Type} (k : String) (v : α) (m : List (String × α)) (kv : String × α)
    (h : kv ∈ mapSet k v m) : kv ∈ m ∨ kv = (k, v) := by
  induction m with
  | nil => simpa [mapSet] using h
  | cons kv1 rest ih =>
    obtain ⟨k1, v1⟩ := kv1
    unfold mapSet at h
    split at h
    · rcases List.mem_cons.mp h with h | h
      · exact Or.inr h
      · exact Or.inl (List.mem_cons_of_mem _ h)
    · rcases List.mem_cons.mp h with h | h
      · exact Or.inl (h ▸ List.mem_cons_self _ _)
      · rcases ih h with h | h
        · exact Or.inl (List.mem_cons_of_mem _ h)
        · exact Or.inr h

theorem mapSet_of_lookup_none {α : Type} (k : String) (v : α) (m : List (String × α))
    (h : mapLookup k m = none) : mapSet k v m = m ++ [(k, v)] := by
  induction m with
  | nil => rfl
  | cons kv1 rest ih =>
    obtain ⟨k1, v1⟩ := kv1
    unfold mapLookup at h
    split at h
    · cases h
    · rename_i hk
      simp [mapSet, hk, ih h]

theorem scan_carriesNo (name n : String) (args : List (String × Data))
    (h : ∀ kd ∈ args, carriesNo name kd.2 = true) :
    ∀ kd ∈ (PopBodyElementByName.scan n args).1, carriesNo name kd.2 = true := by
  rcases scan_shape n args with e | ⟨pre, k, d, body, post, f, y, e, _, hs, _, _, hscan⟩
  · rw [e]; exact h
  · rw [hscan]
    subst e
    intro kd hkd
    simp only [List.mem_append, List.mem_cons] at hkd h
    rcases hkd with hkd | hkd | hkd
    · exact h kd (Or.inl hkd)
    · subst hkd
      exact carriesNo_setFields_mapDelete name n d body hs (h (k, d) (Or.inr (Or.inl rfl)))
    · exact h kd (Or.inr (Or.inr hkd))

theorem popApiKey_mem_carriesNo (name : String) (m : Method)
    (h : ∀ kd ∈ m.args, carriesNo name kd.2 = true) :
    ∀ kd ∈ (FixHTTPAuthorization.popApiKey m).1.args, carriesNo name kd.2 = true :=
  scan_carriesNo name "api_key" _ (fun kd hkd => h kd (PopQS_mem m _ kd hkd))

theorem FixAuth_carriesNo (name : String) (hash : Data → String)
    (obfuscate : String → Primitive) (m : Method)
    (h : ∀ kd ∈ m.args, carriesNo name kd.2 = true) :
    ∀ kd ∈ (FixHTTPAuthorization hash obfuscate m).1.args, carriesNo name kd.2 = true := by
  have h2 := popApiKey_mem_carriesNo name m h
  unfold FixHTTPAuthorization
  simp only
  split
  · exact h2
  · split
    · exact h2
    · intro kd hkd
      rcases mem_mapSet _ _ _ kd hkd with hkd | hkd
      · exact h2 kd hkd
      · rw [hkd]; exact carriesNo_auth name obfuscate _

theorem DetectNSIDs_carriesNo (name : String) (m : Method)
    (h : ∀ kd ∈ m.args, carriesNo name kd.2 = true) :
    ∀ kd ∈ (DetectNSIDs m).args, carriesNo name kd.2 = true := by
  intro kd hkd
  simp only [DetectNSIDs, detect_fields_eq_map, List.mem_map] at hkd
  obtain ⟨kd0, hmem, e⟩ := hkd
  rw [← e, carriesNo_detect]
  exact h kd0 hmem

theorem Transform_carriesNo (name : String) (hash : Data → String)
    (obfuscate : String → Primitive) (m : Method) (hmeta : HTTPMethodMeta)
    (hrest : m.GetApiType = .HTTP_REST) (hm : HTTPMetaFromMethod m = some hmeta)
    (hhost : IsFlickrAPICall hmeta = true)
    (h : ∀ kd ∈ (Transform.extractPath m).args, carriesNo name kd.2 = true) :
    ∀ kd ∈ (Transform hash obfuscate m).1.args, carriesNo name kd.2 = true := by
  have h1 : ∀ kd ∈ (FixHTTPResponseCode (Transform.extractPath m)).1.args,
      carriesNo name kd.2 = true := by rw [FixResp_args]; exact h
  rw [Transform_gates hash obfuscate m hmeta hrest hm hhost]
  split
  · exact h1
  · split
    · exact FixAuth_carriesNo name hash obfuscate _ h1
    · exact DetectNSIDs_carriesNo name _ (FixAuth_carriesNo name hash obfuscate _ h1)

theorem scan_at (name : String) (pre post body : List (String × Data)) (k : String) (d f : Data)
    (y : PbString) (hpre : ∀ kd ∈ pre, isRequestBody kd.2 = false)
    (hd : isRequestBody d = true) (hs : d.GetStruct = some body)
    (hl : mapLookup name body = some f) (hy : DataToString f = some y) :
    PopBodyElementByName.scan name (pre ++ (k, d) :: post) =
      (pre ++ (k, d.setFields (mapDelete body name)) :: post, some y) := by
  induction pre with
  | nil => exact scan_cons_hit name k d post body f y hd hs hl hy
  | cons kd rest ih =>
    obtain ⟨k1, d1⟩ := kd
    have h1 : isRequestBody d1 = false := hpre (k1, d1) (List.mem_cons_self _ _)
    have ih1 := ih (fun kd hkd => hpre kd (List.mem_cons_of_mem _ hkd))
    rw [List.cons_append, scan_cons_skip name k1 d1 _ h1, ih1]
    rfl

theorem isSome_setPathTemplate (m : Method) (p : String)
    (h : (HTTPMetaFromMethod m).isSome = true) :
    (HTTPMetaFromMethod (m.setPathTemplate p)).isSome = true := by
  unfold HTTPMetaFromMethod at h
  unfold HTTPMetaFromMethod Method.setPathTemplate
  split at h <;> simp_all

theorem pathTemplate_setPathTemplate_isSome (m : Method) (p : String)
    (h : (HTTPMetaFromMethod m).isSome = true) : pathTemplate (m.setPathTemplate p) = some p := by
  cases hm : HTTPMetaFromMethod m with
  | none => simp [hm] at h
  | some hmeta => exact pathTemplate_setPathTemplate m hmeta p hm

/-- Path extraction when the body lookup reaches a request-body struct with a string field
`method`: the body value decides, and only that field is removed after the query pass. -/
theorem extractPath_body_hit (m : Method) (hmeta : HTTPMethodMeta)
    (pre post body : List (String × Data)) (kb : String) (db f : Data) (y : PbString)
    (hm : HTTPMetaFromMethod m = some hmeta)
    (hargs : (PopQueryStringParamByName m "method").1.args = pre ++ (kb, db) :: post)
    (hpre : ∀ kd ∈ pre, isRequestBody kd.2 = false)
    (hd : isRequestBody db = true) (hs : db.GetStruct = some body)
    (hl : mapLookup "method" body = some f) (hy : DataToString f = some y) :
    pathTemplate (Transform.extractPath m) = some ("/services/awesome/" ++ y.value) ∧
    (Transform.extractPath m).args =
      pre ++ (kb, db.setFields (mapDelete body "method")) :: post ∧
    (Transform.extractPath m).responses = m.responses := by
  have hsome : (HTTPMetaFromMethod (PopQueryStringParamByName m "method").1).isSome = true := by
    have : HTTPMetaFromMethod (PopQueryStringParamByName m "method").1 = some hmeta := hm
    simp [this]
  have hscan := scan_at "method" pre post body kb db f y hpre hd hs hl hy
  unfold Transform.extractPath
  simp only [PopBodyElementByName]
  cases hq : (PopQueryStringParamByName m "method").2 with
  | none =>
    simp only [hargs, hscan]
    refine ⟨?_, ?_, ?_⟩
    · exact pathTemplate_setPathTemplate_isSome _ _ hsome
    · rw [setPathTemplate_args]
    · rw [setPathTemplate_responses]; rfl
  | some x =>
    simp only [setPathTemplate_args, hargs, hscan]
    refine ⟨?_, ?_, ?_⟩
    · exact pathTemplate_setPathTemplate_isSome _ _ (isSome_setPathTemplate _ _ hsome)
    · trivial
    · rw [setPathTemplate_responses, setPathTemplate_responses]; rfl

theorem eq_of_nodup_keys {α : Type} (l : List (String × α)) (h : (l.map Prod.fst).Nodup)
    (k : String) (v1 v2 : α) (h1 : (k, v1) ∈ l) (h2 : (k, v2) ∈ l) : v1 = v2 := by
  induction l with
  | nil => cases h1
  | cons kv rest ih =>
    simp only [List.map_cons, List.nodup_cons, List.mem_map, not_exists, not_and] at h
    rcases List.mem_cons.mp h1 with e1 | m1 <;> rcases List.mem_cons.mp h2 with e2 | m2
    · rw [← e1] at e2; exact (Prod.mk.inj e2).2.symm
    · exact absurd (by rw [← e1]) (h.1 (k, v2) m2)
    · exact absurd (by rw [← e2]) (h.1 (k, v1) m1)
    · exact ih h.2 m1 m2

theorem isQueryParam_not_isRequestBody (name : String) (d : Data)
    (h : isQueryParam name d = true) : isRequestBody d = false := by
  simp only [isQueryParam, HTTPQueryFromData, decide_eq_true_eq] at h
  unfold isRequestBody
  cases hm : d.httpMeta with
  | none => rfl
  | some m =>
    simp only [hm] at h
    cases hl : m.location <;> simp_all [HTTPMeta.isMultipart, HTTPMeta.isBody]

/-- After the query-string pass no query-string parameter with that key is left. -/
theorem PopQS_no_query (m : Method) (name : String) :
    ∀ kd ∈ (PopQueryStringParamByName m name).1.args, isQueryParam name kd.2 = false := by
  intro kd hkd
  rw [PopQS_args] at hkd
  obtain ⟨hmem, hk⟩ := List.mem_filter.mp hkd
  cases hq : isQueryParam name kd.2 with
  | false => rfl
  | true =>
    exfalso
    simp only [List.mem_map, List.mem_filter, not_exists, not_and, decide_eq_true_eq] at hk
    exact hk kd ⟨hmem, hq⟩ rfl

/-- With distinct map keys, the query-string pass keeps the single request-body fragment. -/
theorem PopQS_args_single_body (m : Method) (name kb : String) (db : Data)
    (hkeys : (m.args.map Prod.fst).Nodup)
    (hb : m.args.filter (fun kd => isRequestBody kd.2) = [(kb, db)]) :
    ∃ pre post, (PopQueryStringParamByName m name).1.args = pre ++ (kb, db) :: post ∧
      (∀ kd ∈ pre, isRequestBody kd.2 = false) ∧ (∀ kd ∈ post, isRequestBody kd.2 = false) := by
  obtain ⟨l1, l2, hl, h1, hdb, h2⟩ := List.filter_eq_cons_iff.mp hb
  have hmem : (kb, db) ∈ m.args := by rw [hl]; simp
  have hkeep : kb ∉ (m.args.filter (fun kd => isQueryParam name kd.2)).map Prod.fst := by
    intro hin
    obtain ⟨kd, hkd, hk⟩ := List.mem_map.mp hin
    obtain ⟨hkdmem, hq⟩ := List.mem_filter.mp hkd
    obtain ⟨k, d⟩ := kd
    simp only at hk hq
    subst hk
    have := eq_of_nodup_keys m.args hkeys k d db hkdmem hmem
    subst this
    rw [isQueryParam_not_isRequestBody name d hq] at hdb
    cases hdb
  refine ⟨l1.filter (fun kv => decide (kv.1 ∉
      (m.args.filter (fun kd => isQueryParam name kd.2)).map Prod.fst)),
    l2.filter (fun kv => decide (kv.1 ∉
      (m.args.filter (fun kd => isQueryParam name kd.2)).map Prod.fst)), ?_, ?_, ?_⟩
  · rw [PopQS_args]
    generalize (m.args.filter (fun kd => isQueryParam name kd.2)).map Prod.fst = keys at hkeep
    rw [hl, List.filter_append, List.filter_cons]
    simp only [hkeep, not_false_eq_true, decide_True, if_true]
  · intro kd hkd
    have := h1 kd (List.mem_filter.mp hkd).1
    simpa using this
  · intro kd hkd
    have := List.filter_eq_nil_iff.mp h2 kd (List.mem_filter.mp hkd).1
    simpa using this

theorem statLoop_cons (st : FixHTTPResponseCode.State) (k : String) (v : Data)
    (rest : List (String × Data)) :
    FixHTTPResponseCode.statLoop st ((k, v) :: rest) =
      FixHTTPResponseCode.statLoop
        (if isStatFail k v then { st with replaceCodes := true, respCode := 400 } else st)
        rest := by
  rw [FixHTTPResponseCode.statLoop]
  unfold isStatFail
  by_cases hk : k = "stat"
  · cases hv : DataToString v with
    | none => simp [hk]
    | some s => by_cases hs : s.value = "fail" <;> simp [hk, hs]
  · simp [hk]

theorem statLoop_eq (st : FixHTTPResponseCode.State) (fields : List (String × Data)) :
    FixHTTPResponseCode.statLoop st fields =
      if hasStatFail fields then { st with replaceCodes := true, respCode := 400 } else st := by
  induction fields generalizing st with
  | nil => rfl
  | cons kv rest ih =>
    obtain ⟨k, v⟩ := kv
    have hc : hasStatFail ((k, v) :: rest) = (isStatFail k v || hasStatFail rest) := rfl
    rw [statLoop_cons, ih, hc]
    cases h1 : isStatFail k v <;> cases h2 : hasStatFail rest <;> simp

theorem step_not_body (st : FixHTTPResponseCode.State) (kd : String × Data)
    (h : HTTPBodyFromData kd.2 = false) :
    (FixHTTPResponseCode.step st kd).respCode = st.respCode ∧
    (FixHTTPResponseCode.step st kd).replaceCodes = st.replaceCodes := by
  unfold FixHTTPResponseCode.step
  cases hm : kd.2.httpMeta with
  | none => exact ⟨rfl, rfl⟩
  | some m =>
    simp only [h, Bool.not_false, if_true]
    split <;> exact ⟨rfl, rfl⟩

theorem step_body (st : FixHTTPResponseCode.State) (kd : String × Data) (m : HTTPMeta)
    (h : HTTPBodyFromData kd.2 = true) (hm : kd.2.httpMeta = some m) :
    (FixHTTPResponseCode.step st kd).respCode =
      (if isFailBody kd.2 then 400 else m.response_code) ∧
    (FixHTTPResponseCode.step st kd).replaceCodes =
      (isFailBody kd.2 || st.replaceCodes) := by
  unfold FixHTTPResponseCode.step
  simp only [hm, h, Bool.not_true, Bool.false_eq_true, if_false, isFailBody, Bool.true_and]
  by_cases hgt : m.response_code > st.maxCode
  · cases hs : kd.2.GetStruct with
    | none => simp [hgt]
    | some fields => cases hf : hasStatFail fields <;> simp [hgt, statLoop_eq, hf]
  · cases hs : kd.2.GetStruct with
    | none => simp [hgt]
    | some fields => cases hf : hasStatFail fields <;> simp [hgt, statLoop_eq, hf]

theorem foldl_step_not_body (st : FixHTTPResponseCode.State) (l : List (String × Data))
    (h : ∀ kd ∈ l, HTTPBodyFromData kd.2 = false) :
    (l.foldl FixHTTPResponseCode.step st).respCode = st.respCode ∧
    (l.foldl FixHTTPResponseCode.step st).replaceCodes = st.replaceCodes := by
  induction l generalizing st with
  | nil => exact ⟨rfl, rfl⟩
  | cons kd rest ih =>
    have h1 := step_not_body st kd (h kd (List.mem_cons_self _ _))
    have h2 := ih (FixHTTPResponseCode.step st kd)
      (fun x hx => h x (List.mem_cons_of_mem _ hx))
    rw [List.foldl_cons]
    exact ⟨h2.1.trans h1.1, h2.2.trans h1.2⟩

theorem HTTPBodyFromData_httpMeta (d : Data) (h : HTTPBodyFromData d = true) :
    ∃ m, d.httpMeta = some m := by
  unfold HTTPBodyFromData at h
  cases hm : d.httpMeta with
  | none => simp [hm] at h
  | some m => exact ⟨m, rfl⟩

/-- With all observed codes zero and no `stat = fail` body, the scan ends with code zero. -/
theorem foldl_step_zero (st : FixHTTPResponseCode.State) (l : List (String × Data))
    (hcodes : ∀ kd ∈ l, ∀ c, responseCode kd.2 = some c → c = 0)
    (hfail : ∀ kd ∈ l, isFailBody kd.2 = false) (hst : st.respCode = 0) :
    (l.foldl FixHTTPResponseCode.step st).respCode = 0 := by
  induction l generalizing st with
  | nil => exact hst
  | cons kd rest ih =>
    rw [List.foldl_cons]
    apply ih _ (fun x hx => hcodes x (List.mem_cons_of_mem _ hx))
      (fun x hx => hfail x (List.mem_cons_of_mem _ hx))
    cases hb : HTTPBodyFromData kd.2 with
    | false => rw [(step_not_body st kd hb).1]; exact hst
    | true =>
      obtain ⟨m, hm⟩ := HTTPBodyFromData_httpMeta kd.2 hb
      rw [(step_body st kd m hb hm).1, hfail kd (List.mem_cons_self _ _)]
      simp only [Bool.false_eq_true, if_false]
      exact hcodes kd (List.mem_cons_self _ _) _ (by simp [responseCode, hm])

/-- With a single response-body fragment, the scan ends with that fragment's code, or with
400 when its `stat` field says `fail`. -/
theorem foldl_step_single_body (l : List (String × Data)) (kr : String) (dr : Data)
    (hr : HTTPMeta) (hb : l.filter (fun kd => HTTPBodyFromData kd.2) = [(kr, dr)])
    (hm : dr.httpMeta = some hr) (st : FixHTTPResponseCode.State) :
    (l.foldl FixHTTPResponseCode.step st).respCode =
      (if isFailBody dr then 400 else hr.response_code) ∧
    (l.foldl FixHTTPResponseCode.step st).replaceCodes = (isFailBody dr || st.replaceCodes) := by
  obtain ⟨l1, l2, hl, h1, hdr, h2⟩ := List.filter_eq_cons_iff.mp hb
  have hpre := foldl_step_not_body st l1 (fun kd hkd => by simpa using h1 kd hkd)
  have hpost := foldl_step_not_body
    (FixHTTPResponseCode.step (l1.foldl FixHTTPResponseCode.step st) (kr, dr)) l2
    (fun kd hkd => by simpa using List.filter_eq_nil_iff.mp h2 kd hkd)
  have hmid := step_body (l1.foldl FixHTTPResponseCode.step st) (kr, dr) hr hdr hm
  rw [hl, List.foldl_append, List.foldl_cons]
  exact ⟨hpost.1.trans hmid.1, hpost.2.trans (hmid.2.trans (by rw [hpre.2]))⟩

theorem extractPath_responses (m : Method) : (Transform.extractPath m).responses = m.responses := by
  unfold Transform.extractPath
  simp only [PopBodyElementByName]
  split <;> split <;> simp [setPathTemplate_responses, PopQueryStringParamByName]

theorem FixResp_error (m : Method) :
    (FixHTTPResponseCode m).2 = none ∨
      ((FixHTTPResponseCode m).2 = some zeroStatusError ∧ (FixHTTPResponseCode m).1 = m) := by
  unfold FixHTTPResponseCode
  simp only
  split
  · exact Or.inr ⟨rfl, rfl⟩
  · split <;> exact Or.inl rfl

theorem FixAuth_error (hash : Data → String) (obfuscate : String → Primitive) (m : Method) :
    (FixHTTPAuthorization hash obfuscate m).2 = none ∨
      (FixHTTPAuthorization hash obfuscate m).2 = some collisionError := by
  unfold FixHTTPAuthorization
  simp only
  split
  · exact Or.inl rfl
  · split
    · exact Or.inr rfl
    · exact Or.inl rfl

theorem mapLookup_eq_none_iff {α : Type} (k : String) (m : List (String × α)) :
    mapLookup k m = none ↔ ∀ kv ∈ m, kv.1 ≠ k := by
  induction m with
  | nil => simp [mapLookup]
  | cons kv rest ih =>
    obtain ⟨k1, v⟩ := kv
    by_cases h : k1 = k <;> simp [mapLookup, h, ih]

theorem mapLookup_none_of_keys {α : Type} (k : String) (m1 m2 : List (String × α))
    (hsub : ∀ kv ∈ m2, ∃ kv1 ∈ m1, kv1.1 = kv.1) (h : mapLookup k m1 = none) :
    mapLookup k m2 = none := by
  rw [mapLookup_eq_none_iff] at h ⊢
  intro kv hkv
  obtain ⟨kv1, hmem, e⟩ := hsub kv hkv
  rw [← e]
  exact h kv1 hmem

theorem scan_keys (name : String) (args : List (String × Data)) :
    ∀ kv ∈ (PopBodyElementByName.scan name args).1, ∃ kv1 ∈ args, kv1.1 = kv.1 := by
  rcases scan_shape name args with e | ⟨pre, k, d, body, post, f, y, e, _, _, _, _, hscan⟩
  · rw [e]; exact fun kv hkv => ⟨kv, hkv, rfl⟩
  · rw [hscan, e]
    intro kv hkv
    simp only [List.mem_append, List.mem_cons] at hkv
    rcases hkv with hkv | hkv | hkv
    · exact ⟨kv, by simp [hkv], rfl⟩
    · exact ⟨(k, d), by simp, by rw [hkv]⟩
    · exact ⟨kv, by simp [hkv], rfl⟩

theorem popApiKey_keys (m : Method) :
    ∀ kv ∈ (FixHTTPAuthorization.popApiKey m).1.args, ∃ kv1 ∈ m.args, kv1.1 = kv.1 := by
  intro kv hkv
  obtain ⟨kv1, hmem, e⟩ := scan_keys "api_key" _ kv hkv
  exact ⟨kv1, PopQS_mem m _ kv1 hmem, e⟩

/-- An api key returned by the two lookups was carried by the witness. -/
theorem popApiKey_source (m : Method) (key : PbString)
    (h : (FixHTTPAuthorization.popApiKey m).2 = some key) :
    carriesStringParam "api_key" m.args key := by
  unfold FixHTTPAuthorization.popApiKey at h
  simp only [PopBodyElementByName] at h
  rcases scan_shape "api_key" (PopQueryStringParamByName m "api_key").1.args with
    e | ⟨pre, k, d, body, post, f, y, e, hb, hs, hl, hy, hscan⟩
  · rw [e] at h
    simp only at h
    rw [PopQS_result] at h
    obtain ⟨kd, hkd, hv⟩ := List.exists_of_findSome?_eq_some h
    obtain ⟨hmem, hq⟩ := List.mem_filter.mp hkd
    exact Or.inl ⟨kd, hmem, hq, hv⟩
  · rw [hscan] at h
    simp only [Option.some.injEq] at h
    subst h
    refine Or.inr ⟨(k, d), PopQS_mem m "api_key" _ (by rw [e]; simp), ?_⟩
    simp [bodyStringField, hb, hs, hl, hy]

theorem FixAuth_no_error (hash : Data → String) (obfuscate : String → Primitive) (m : Method)
    (hfree : ∀ key, carriesStringParam "api_key" m.args key →
      mapLookup (hash (CreateAuthHeader obfuscate key)) m.args = none) :
    (FixHTTPAuthorization hash obfuscate m).2 = none := by
  unfold FixHTTPAuthorization
  simp only
  cases hk : (FixHTTPAuthorization.popApiKey m).2 with
  | none => rfl
  | some key =>
    have := mapLookup_none_of_keys _ _ _ (popApiKey_keys m)
      (hfree key (popApiKey_source m key hk))
    simp [this]

theorem PopQS_args_of_none (m : Method) (name : String)
    (h : ∀ kd ∈ m.args, isQueryParam name kd.2 = false) :
    (PopQueryStringParamByName m name).1.args = m.args := by
  have : m.args.filter (fun kd => isQueryParam name kd.2) = [] := by
    rw [List.filter_eq_nil_iff]
    intro kd hkd
    simp [h kd hkd]
  rw [PopQS_args, this]
  simp

theorem FixResp_no_error (m : Method)
    (h : (m.responses.foldl FixHTTPResponseCode.step
      { replaceCodes := false, respCode := 0, maxCode := 0 }).respCode ≠ 0) :
    (FixHTTPResponseCode m).2 = none := by
  unfold FixHTTPResponseCode
  simp only [h, if_false]
  split <;> rfl

theorem bodyStringField_setFields_mapDelete (name k2 : String) (d : Data)
    (body : List (String × Data)) (hs : d.GetStruct = some body) (hne : name ≠ k2) :
    bodyStringField name (d.setFields (mapDelete body k2)) = bodyStringField name d := by
  simp [bodyStringField, isRequestBody_setFields, GetStruct_setFields d body _ hs, hs,
    mapLookup_mapDelete_ne name k2 body hne]

theorem carriesStringParam_of_setFields (name k2 : String) (pre post : List (String × Data))
    (k : String) (d : Data) (body : List (String × Data)) (hs : d.GetStruct = some body)
    (hne : name ≠ k2) (key : PbString)
    (h : carriesStringParam name (pre ++ (k, d.setFields (mapDelete body k2)) :: post) key) :
    carriesStringParam name (pre ++ (k, d) :: post) key := by
  rcases h with ⟨kd, hkd, hq, hv⟩ | ⟨kd, hkd, hv⟩
  · simp only [List.mem_append, List.mem_cons] at hkd
    rcases hkd with hkd | hkd | hkd
    · exact Or.inl ⟨kd, by simp [hkd], hq, hv⟩
    · subst hkd
      cases d <;> simp_all [Data.GetStruct, Data.setFields, DataToString, Data.GetPrimitive]
    · exact Or.inl ⟨kd, by simp [hkd], hq, hv⟩
  · simp only [List.mem_append, List.mem_cons] at hkd
    rcases hkd with hkd | hkd | hkd
    · exact Or.inr ⟨kd, by simp [hkd], hv⟩
    · subst hkd
      rw [bodyStringField_setFields_mapDelete name k2 d body hs hne] at hv
      exact Or.inr ⟨(k, d), by simp, hv⟩
    · exact Or.inr ⟨kd, by simp [hkd], hv⟩

theorem keys_of_setFields (pre post : List (String × Data)) (k : String) (d d2 : Data) :
    ∀ kv ∈ pre ++ (k, d2) :: post, ∃ kv1 ∈ pre ++ (k, d) :: post, kv1.1 = kv.1 := by
  intro kv hkv
  simp only [List.mem_append, List.mem_cons] at hkv
  rcases hkv with hkv | hkv | hkv
  · exact ⟨kv, by simp [hkv], rfl⟩
  · exact ⟨(k, d), by simp, by rw [hkv]⟩
  · exact ⟨kv, by simp [hkv], rfl⟩

theorem responseCode_setResponseCode (d : Data) (code : Int) :
    responseCode (d.setResponseCode code) = (responseCode d).map (fun _ => code) := by
  unfold responseCode Data.httpMeta Data.setResponseCode
  cases hm : d.GetMeta with
  | none => simp [hm]
  | some dm =>
    cases dm with
    | unset => simp [hm]
    | grpc => simp [hm]
    | http h => cases d <;> simp [Data.GetMeta]

/-- When the only response-body fragment says `stat = fail`, every fragment with HTTP
metadata ends with code 400 and no error is returned. -/
theorem FixResp_fail_single_body (m : Method) (kr : String) (dr : Data)
    (hb : m.responses.filter (fun kd => HTTPBodyFromData kd.2) = [(kr, dr)])
    (hfail : isFailBody dr = true) :
    (FixHTTPResponseCode m).2 = none ∧
    ∀ kd ∈ (FixHTTPResponseCode m).1.responses, ∀ c, responseCode kd.2 = some c → c = 400 := by
  have hdr : HTTPBodyFromData dr = true := by
    have : (kr, dr) ∈ m.responses.filter (fun kd => HTTPBodyFromData kd.2) := by rw [hb]; simp
    exact (List.mem_filter.mp this).2
  obtain ⟨hr, hm⟩ := HTTPBodyFromData_httpMeta dr hdr
  have h := foldl_step_single_body m.responses kr dr hr hb hm
    { replaceCodes := false, respCode := 0, maxCode := 0 }
  simp only [hfail, if_true, Bool.true_or] at h
  have h400 : ((400 : Int) = 0) = False := by decide
  unfold FixHTTPResponseCode
  simp only [h.1, h.2, if_true, h400, if_false]
  refine ⟨trivial, ?_⟩
  intro kd hkd c hc
  obtain ⟨kd0, _, e⟩ := List.mem_map.mp hkd
  rw [← e] at hc
  simp only [responseCode_setResponseCode] at hc
  cases hc0 : responseCode kd0.2 with
  | none => simp [hc0] at hc
  | some c0 => simpa [hc0] using hc.symm

theorem notFlickr_ne_zeroStatus (host : String) :
    "Discarding request not to Flickr API: " ++ host ++ "\n" ≠ zeroStatusError := by
  intro h
  have := congrArg (fun s => s.data.head?) h
  simp [String.data_append, zeroStatusError] at this

/-- What path extraction does to Args: each entry afterwards is an entry of the input, or an
input struct with its field `method` deleted. -/
theorem extractPath_args_mem (m : Method) :
    ∀ kd ∈ (Transform.extractPath m).args,
      kd ∈ m.args ∨ ∃ d body, (kd.1, d) ∈ m.args ∧ d.GetStruct = some body ∧
        kd.2 = d.setFields (mapDelete body "method") := by
  have key : ∀ kd ∈ (PopBodyElementByName.scan "method"
      (PopQueryStringParamByName m "method").1.args).1,
      kd ∈ m.args ∨ ∃ d body, (kd.1, d) ∈ m.args ∧ d.GetStruct = some body ∧
        kd.2 = d.setFields (mapDelete body "method") := by
    rcases scan_shape "method" (PopQueryStringParamByName m "method").1.args with
      e | ⟨pre, k, d, body, post, f, y, e, _, hs, _, _, hscan⟩
    · rw [e]; exact fun kd hkd => Or.inl (PopQS_mem m _ kd hkd)
    · rw [hscan]
      have hsub : ∀ kd ∈ pre ++ (k, d) :: post, kd ∈ m.args :=
        fun kd hkd => PopQS_mem m "method" kd (by rw [e]; exact hkd)
      intro kd hkd
      simp only [List.mem_append, List.mem_cons] at hkd
      rcases hkd with hkd | hkd | hkd
      · exact Or.inl (hsub kd (by simp [hkd]))
      · subst hkd
        exact Or.inr ⟨d, body, hsub (k, d) (by simp), hs, rfl⟩
      · exact Or.inl (hsub kd (by simp [hkd]))
  unfold Transform.extractPath
  simp only [PopBodyElementByName]
  split <;> split <;> simpa [setPathTemplate_args] using key

/-- With distinct map keys, path extraction keeps every query-string parameter whose key is
not `method`. -/
theorem extractPath_keeps_query (m : Method) (name : String) (hne : name ≠ "method")
    (hkeys : (m.args.map Prod.fst).Nodup) :
    ∀ kd ∈ m.args, isQueryParam name kd.2 = true → kd ∈ (Transform.extractPath m).args := by
  intro kd hkd hq
  have hnm : isQueryParam "method" kd.2 = false := by
    simp only [isQueryParam, decide_eq_true_eq] at hq
    simp [isQueryParam, hq, hne]
  have h1 : kd ∈ (PopQueryStringParamByName m "method").1.args := by
    rw [PopQS_args]
    refine List.mem_filter.mpr ⟨hkd, ?_⟩
    simp only [List.mem_map, List.mem_filter, not_exists, not_and, decide_eq_true_eq]
    rintro ⟨k2, d2⟩ ⟨hmem2, hq2⟩ e
    simp only at e hq2
    obtain ⟨k, d⟩ := kd
    simp only at e hnm
    subst e
    rw [eq_of_nodup_keys m.args hkeys k2 d d2 hkd hmem2, hq2] at hnm
    cases hnm
  have h2 : kd ∈ (PopBodyElementByName.scan "method"
      (PopQueryStringParamByName m "method").1.args).1 := by
    rcases scan_shape "method" (PopQueryStringParamByName m "method").1.args with
      e | ⟨pre, k, d, body, post, f, y, e, hb, _, _, _, hscan⟩
    · rw [e]; exact h1
    · rw [hscan]
      rw [e] at h1
      simp only [List.mem_append, List.mem_cons] at h1 ⊢
      rcases h1 with h1 | h1 | h1
      · exact Or.inl h1
      · subst h1
        rw [isQueryParam_not_isRequestBody name d hq] at hb
        cases hb
      · exact Or.inr (Or.inr h1)
  unfold Transform.extractPath
  simp only [PopBodyElementByName]
  split <;> split <;> simpa [setPathTemplate_args] using h2

theorem hasBodyStringField_of_hasBodyField (name : String) (d : Data)
    (h : hasBodyField name d = false) : hasBodyStringField name d = false := by
  unfold hasBodyField at h
  unfold hasBodyStringField
  cases hb : isRequestBody d with
  | false => rfl
  | true =>
    simp only [hb, Bool.true_and] at h ⊢
    cases hs : d.GetStruct with
    | none => rfl
    | some fields =>
      simp only [hs] at h ⊢
      cases hl : mapLookup name fields with
      | none => rfl
      | some f => simp [hl] at h

/-- With distinct map keys and a single query-string parameter `name`, the query pass removes
exactly that entry and returns its string. -/
theorem PopQS_single (m : Method) (name kq : String) (dq : Data) (v : PbString)
    (hkeys : (m.args.map Prod.fst).Nodup)
    (hq : m.args.filter (fun kd => isQueryParam name kd.2) = [(kq, dq)])
    (hv : DataToString dq = some v) :
    (PopQueryStringParamByName m name).2 = some v ∧
    (PopQueryStringParamByName m name).1.args =
      m.args.filter (fun kd => !isQueryParam name kd.2) := by
  constructor
  · rw [PopQS_result, hq]
    simp [hv]
  · have hmemq : (kq, dq) ∈ m.args.filter (fun kd => isQueryParam name kd.2) := by
      rw [hq]; simp
    obtain ⟨hmem, hqq⟩ := List.mem_filter.mp hmemq
    rw [PopQS_args, hq]
    apply List.filter_congr
    rintro ⟨k, d⟩ hkd
    simp only [List.map_cons, List.map_nil, List.mem_singleton]
    cases hqd : isQueryParam name d with
    | true =>
      have : (k, d) ∈ m.args.filter (fun kd => isQueryParam name kd.2) :=
        List.mem_filter.mpr ⟨hkd, hqd⟩
      rw [hq, List.mem_singleton] at this
      simp [(Prod.mk.inj this).1]
    | false =>
      have hne : k ≠ kq := by
        intro e
        subst e
        rw [eq_of_nodup_keys m.args hkeys k d dq hkd hmem] at hqd
        simp only at hqq
        rw [hqq] at hqd
        cases hqd
      simp [hne]

theorem isDigit_iff (c : Char) : c.isDigit = true ↔
    c = '0' ∨ c = '1' ∨ c = '2' ∨ c = '3' ∨ c = '4' ∨ c = '5' ∨ c = '6' ∨ c = '7' ∨
      c = '8' ∨ c = '9' := by
  constructor
  · intro h
    simp only [Char.isDigit, Bool.and_eq_true, decide_eq_true_eq, ge_iff_le] at h
    obtain ⟨h1, h2⟩ := h
    have h1n : 48 ≤ c.toNat := h1
    have h2n : c.toNat ≤ 57 := h2
    rw [← Char.ofNat_toNat c]
    interval_cases c.toNat <;> decide
  · rintro (h | h | h | h | h | h | h | h | h | h) <;> subst h <;> decide

theorem mem_char_lang (a : Char) (x : List Char) : x ∈ ({[a]} : Language Char) ↔ x = [a] :=
  Iff.rfl

theorem mem_nsid_digit (x : List Char) :
    x ∈ nsid_digit.matches' ↔ ∃ c, c.isDigit = true ∧ x = [c] := by
  simp only [nsid_digit, RegularExpression.matches'_add, RegularExpression.matches'_char,
    Language.mem_add, mem_char_lang]
  constructor
  · intro h
    rcases h with (((((((((h | h) | h) | h) | h) | h) | h) | h) | h) | h) <;>
      exact ⟨_, by decide, h⟩
  · rintro ⟨c, hc, rfl⟩
    rcases (isDigit_iff c).mp hc with h | h | h | h | h | h | h | h | h | h <;> subst h <;> simp

theorem mem_nsid_digit_star (x : List Char) :
    x ∈ (RegularExpression.star nsid_digit).matches' ↔ ∀ c ∈ x, c.isDigit = true := by
  rw [RegularExpression.matches'_star, Language.mem_kstar]
  constructor
  · rintro ⟨L, rfl, hL⟩ c hc
    obtain ⟨y, hy, hcy⟩ := List.mem_flatten.mp hc
    obtain ⟨c1, hd, rfl⟩ := (mem_nsid_digit y).mp (hL y hy)
    rw [List.mem_singleton.mp hcy]
    exact hd
  · intro h
    refine ⟨x.map (fun c => [c]), ?_, ?_⟩
    · induction x with
      | nil => rfl
      | cons c rest ih =>
        simp only [List.map_cons, List.flatten_cons, List.singleton_append, List.cons.injEq,
          true_and]
        exact ih (fun c hc => h c (List.mem_cons_of_mem _ hc))
    · intro y hy
      obtain ⟨c, hc, rfl⟩ := List.mem_map.mp hy
      exact (mem_nsid_digit [c]).mpr ⟨c, h c hc, rfl⟩

theorem mem_nsid_digit_plus (x : List Char) :
    x ∈ (nsid_digit * .star nsid_digit).matches' ↔ x ≠ [] ∧ ∀ c ∈ x, c.isDigit = true := by
  rw [RegularExpression.matches'_mul, Language.mem_mul]
  constructor
  · rintro ⟨a, ha, b, hb, rfl⟩
    obtain ⟨c, hc, rfl⟩ := (mem_nsid_digit a).mp ha
    refine ⟨by simp, ?_⟩
    intro c1 hc1
    rcases List.mem_append.mp hc1 with h | h
    · rw [List.mem_singleton.mp h]; exact hc
    · exact (mem_nsid_digit_star b).mp hb c1 h
  · rintro ⟨hne, h⟩
    cases x with
    | nil => exact absurd rfl hne
    | cons c rest =>
      exact ⟨[c], (mem_nsid_digit [c]).mpr ⟨c, h c (List.mem_cons_self _ _), rfl⟩, rest,
        (mem_nsid_digit_star rest).mpr (fun c1 hc1 => h c1 (List.mem_cons_of_mem _ hc1)), rfl⟩

/-- The pattern matches exactly the strings of the NSID shape. -/
theorem nsid_re_MatchString_iff (s : String) : nsid_re_MatchString s = true ↔ IsNSIDShape s := by
  unfold nsid_re_MatchString IsNSIDShape
  rw [RegularExpression.rmatch_iff_matches']
  unfold nsid_re
  simp only [RegularExpression.matches'_mul (_ * _), RegularExpression.matches'_char,
    Language.mem_mul]
  constructor
  · rintro ⟨p, ⟨q, ⟨a, ha, c1, hc1, rfl⟩, c2, hc2, rfl⟩, b, hb, e⟩
    obtain ⟨ha1, ha2⟩ := (mem_nsid_digit_plus a).mp ha
    obtain ⟨hb1, hb2⟩ := (mem_nsid_digit_plus b).mp hb
    have e1 : c1 = ['@'] := hc1
    have e2 : c2 = ['N'] := hc2
    subst e1 e2
    exact ⟨a, b, ha1, hb1, ha2, hb2, by rw [← e]; simp⟩
  · rintro ⟨a, b, ha1, hb1, ha2, hb2, e⟩
    exact ⟨a ++ ['@'] ++ ['N'], ⟨a ++ ['@'], ⟨a, (mem_nsid_digit_plus a).mpr ⟨ha1, ha2⟩,
      ['@'], rfl, rfl⟩, ['N'], rfl, rfl⟩, b, (mem_nsid_digit_plus b).mpr ⟨hb1, hb2⟩,
      by rw [e]; simp⟩

theorem mapLookup_mapSet_self {α : Type} (k : String) (v : α) (m : List (String × α)) :
    mapLookup k (mapSet k v m) = some v := by
  induction m with
  | nil => simp [mapSet, mapLookup]
  | cons kv rest ih =>
    obtain ⟨k1, v1⟩ := kv
    by_cases h : k1 = k <;> simp [mapSet, mapLookup, h, ih]

theorem mapSet_idem {α : Type} (k : String) (v : α) (m : List (String × α)) :
    mapSet k v (mapSet k v m) = mapSet k v m := by
  induction m with
  | nil => simp [mapSet]
  | cons kv rest ih =>
    obtain ⟨k1, v1⟩ := kv
    by_cases h : k1 = k <;> simp [mapSet, h, ih]

theorem detectNSIDsPrimitive_idem (prim : Primitive) :
    detectNSIDsPrimitive (detectNSIDsPrimitive prim) = detectNSIDsPrimitive prim := by
  unfold detectNSIDsPrimitive
  cases hs : prim.GetStringValue with
  | none => simp [hs]
  | some s =>
    by_cases hmatch : nsid_re_MatchString s.value = true
    · have hs2 : Primitive.GetStringValue
          { prim with format_kind := "flickr_data",
                      formats := mapSet "flickr_nsid" true prim.formats } = some s := hs
      simp only [hmatch, if_true, hs2, mapSet_idem]
    · simp [hmatch, hs]

theorem detect_children (d : Data) :
    (detectNSIDsData d).children = d.children.map detectNSIDsData := by
  cases d with
  | optional v m => cases v <;> simp [detectNSIDsData, Data.children]
  | struct fs m => simp [detectNSIDsData, Data.children, detect_fields_eq_map, Function.comp_def]
  | oneof fs m => simp [detectNSIDsData, Data.children, detect_fields_eq_map, Function.comp_def]
  | list es m => simp [detectNSIDsData, Data.children, detect_elems_eq_map]
  | _ => simp [detectNSIDsData, Data.children]

theorem detect_descend (d : Data) (path : List Nat) :
    (detectNSIDsData d).descend path = (d.descend path).map detectNSIDsData := by
  induction path generalizing d with
  | nil => rfl
  | cons i rest ih =>
    simp only [Data.descend, detect_children, List.getElem?_map]
    cases d.children[i]? with
    | none => rfl
    | some c => simpa using ih c

theorem DetectNSIDs_reach (m : Method) (r : Bool) (i : Nat) (path : List Nat) :
    (DetectNSIDs m).reach r i path = (m.reach r i path).map detectNSIDsData := by
  unfold Method.reach DetectNSIDs
  cases r <;> simp only [detect_fields_eq_map, List.getElem?_map, Bool.false_eq_true, if_false,
    if_true]
  · cases m.args[i]? with
    | none => rfl
    | some kd => simpa using detect_descend kd.2 path
  · cases m.responses[i]? with
    | none => rfl
    | some kd => simpa using detect_descend kd.2 path

mutual
theorem detect_idem : ∀ d : Data, detectNSIDsData (detectNSIDsData d) = detectNSIDsData d
  | .unset _ => rfl
  | .primitive prim _ => by simp [detectNSIDsData, detectNSIDsPrimitive_idem]
  | .struct fields _ => by simp [detectNSIDsData, detect_fields_idem fields]
  | .list elems _ => by simp [detectNSIDsData, detect_elems_idem elems]
  | .optional none _ => rfl
  | .optional (some d) _ => by simp [detectNSIDsData, detect_idem d]
  | .oneof options _ => by simp [detectNSIDsData, detect_fields_idem options]
theorem detect_fields_idem : ∀ fs : List (String × Data),
    detectNSIDsData.fields (detectNSIDsData.fields fs) = detectNSIDsData.fields fs
  | [] => rfl
  | (_, d) :: rest => by simp [detectNSIDsData.fields, detect_idem d, detect_fields_idem rest]
theorem detect_elems_idem : ∀ es : List Data,
    detectNSIDsData.elems (detectNSIDsData.elems es) = detectNSIDsData.elems es
  | [] => rfl
  | d :: rest => by simp [detectNSIDsData.elems, detect_idem d, detect_elems_idem rest]
end

/-- The call `strings.Contains` holds exactly when the second string occurs in the first. -/
theorem stringsContains_iff (s sub : String) :
    stringsContains s sub = true ↔ ∃ pre post, s.toList = pre ++ sub.toList ++ post := by
  unfold stringsContains
  rw [List.any_eq_true]
  constructor
  · rintro ⟨t, ht, hp⟩
    obtain ⟨pre, hpre⟩ := (List.mem_tails _ _).mp ht
    obtain ⟨post, hpost⟩ := List.isPrefixOf_iff_prefix.mp hp
    exact ⟨pre, post, by rw [← hpre, ← hpost, List.append_assoc]⟩
  · rintro ⟨pre, post, h⟩
    refine ⟨sub.toList ++ post, (List.mem_tails _ _).mpr ⟨pre, ?_⟩, ?_⟩
    · rw [h, List.append_assoc]
    · exact List.isPrefixOf_iff_prefix.mpr ⟨post, rfl⟩

theorem scan_cons_multipart (name k : String) (d : Data) (rest : List (String × Data))
    (h : isMultipartFragment d = true) :
    PopBodyElementByName.scan name ((k, d) :: rest) =
      ((k, afterPopMultipart d name) :: rest, (PopMultipartElementByName d.GetStruct name).2) := by
  unfold isMultipartFragment at h
  rw [PopBodyElementByName.scan]
  cases hm : d.httpMeta with
  | none => simp [hm] at h
  | some m =>
    simp only [hm] at h
    simp only [h, if_true, afterPopMultipart]
    split <;> rfl

theorem scan_pre_skip (name : String) (pre rest : List (String × Data))
    (hpre : ∀ kd ∈ pre, isMultipartFragment kd.2 = false ∧ hasBodyStringField name kd.2 = false) :
    PopBodyElementByName.scan name (pre ++ rest) =
      (pre ++ (PopBodyElementByName.scan name rest).1,
        (PopBodyElementByName.scan name rest).2) := by
  induction pre with
  | nil => rfl
  | cons kd pre ih =>
    obtain ⟨k, d⟩ := kd
    obtain ⟨h1, h2⟩ := hpre (k, d) (List.mem_cons_self _ _)
    have ih1 := ih (fun kd hkd => hpre kd (List.mem_cons_of_mem _ hkd))
    have hnm : (match d.httpMeta with
        | some m => m.isMultipart
        | none => false) = false := h1
    rw [List.cons_append, scan_cons_miss name k d _ h2, hnm, ih1]
    rfl

/-- With distinct map keys, the query pass removes exactly the matching entries. -/
theorem PopQS_args_nodup (m : Method) (name : String) (hkeys : (m.args.map Prod.fst).Nodup) :
    (PopQueryStringParamByName m name).1.args =
      m.args.filter (fun kd => !isQueryParam name kd.2) := by
  rw [PopQS_args]
  apply List.filter_congr
  rintro ⟨k, d⟩ hkd
  cases hq : isQueryParam name d with
  | true =>
    have : k ∈ (m.args.filter (fun kd => isQueryParam name kd.2)).map Prod.fst :=
      List.mem_map.mpr ⟨(k, d), List.mem_filter.mpr ⟨hkd, hq⟩, rfl⟩
    simp [this]
  | false =>
    have : k ∉ (m.args.filter (fun kd => isQueryParam name kd.2)).map Prod.fst := by
      intro hin
      obtain ⟨⟨k2, d2⟩, hmem2, e⟩ := List.mem_map.mp hin
      obtain ⟨hm2, hq2⟩ := List.mem_filter.mp hmem2
      simp only at e hq2
      subst e
      rw [eq_of_nodup_keys m.args hkeys k2 d2 d hm2 hkd, hq] at hq2
      cases hq2
    simp [this]

theorem hasBodyStringField_true (name : String) (d : Data)
    (h : hasBodyStringField name d = true) :
    isRequestBody d = true ∧ ∃ body f y, d.GetStruct = some body ∧
      mapLookup name body = some f ∧ DataToString f = some y := by
  simp only [hasBodyStringField, Bool.and_eq_true] at h
  obtain ⟨hb, hfield⟩ := h
  refine ⟨hb, ?_⟩
  cases hs : d.GetStruct with
  | none => simp [hs] at hfield
  | some body =>
    simp only [hs] at hfield
    cases hl : mapLookup name body with
    | none => simp [hl] at hfield
    | some f =>
      simp only [hl] at hfield
      cases hy : DataToString f with
      | none => simp [hy] at hfield
      | some y => exact ⟨body, f, y, rfl, hl, hy⟩

theorem hasBodyStringField_false_of_not_body (name : String) (d : Data)
    (h : isRequestBody d = false) : hasBodyStringField name d = false := by
  simp [hasBodyStringField, h]

/-- With at most one request-body fragment, the body lookup either finds no string field
`name` anywhere and changes nothing, or pops it from that single fragment. -/
theorem scan_atmost_one (name : String) (args : List (String × Data))
    (hlen : (args.filter (fun kd => isRequestBody kd.2)).length ≤ 1) :
    (PopBodyElementByName.scan name args = (args, none) ∧
      ∀ kd ∈ args, hasBodyStringField name kd.2 = false) ∨
    ∃ pre k d body post f y, args = pre ++ (k, d) :: post ∧
      (∀ kd ∈ pre, isRequestBody kd.2 = false) ∧ (∀ kd ∈ post, isRequestBody kd.2 = false) ∧
      isRequestBody d = true ∧ d.GetStruct = some body ∧ mapLookup name body = some f ∧
      DataToString f = some y ∧
      PopBodyElementByName.scan name args =
        (pre ++ (k, d.setFields (mapDelete body name)) :: post, some y) := by
  by_cases hall : ∀ kd ∈ args, hasBodyStringField name kd.2 = false
  · exact Or.inl ⟨PopBody_scan_noop name args hall, hall⟩
  · right
    simp only [not_forall, Bool.not_eq_false] at hall
    obtain ⟨⟨k0, d0⟩, hmem, htrue⟩ := hall
    obtain ⟨hb0, body, f, y, hs, hl, hy⟩ := hasBodyStringField_true name d0 htrue
    have hin : (k0, d0) ∈ args.filter (fun kd => isRequestBody kd.2) :=
      List.mem_filter.mpr ⟨hmem, hb0⟩
    cases hf : args.filter (fun kd => isRequestBody kd.2) with
    | nil => rw [hf] at hin; cases hin
    | cons x rest =>
      cases rest with
      | cons y2 rest2 => rw [hf] at hlen; simp at hlen
      | nil =>
        rw [hf, List.mem_singleton] at hin
        subst hin
        obtain ⟨pre, post, hargs, hpre, _, hpost⟩ := List.filter_eq_cons_iff.mp hf
        have hpre1 : ∀ kd ∈ pre, isRequestBody kd.2 = false :=
          fun kd hkd => by simpa using hpre kd hkd
        have hpost1 : ∀ kd ∈ post, isRequestBody kd.2 = false :=
          fun kd hkd => by simpa using List.filter_eq_nil_iff.mp hpost kd hkd
        exact ⟨pre, k0, d0, body, post, f, y, hargs, hpre1, hpost1, hb0, hs, hl, hy,
          by rw [hargs]; exact scan_at name pre post body k0 d0 f y hpre1 hb0 hs hl hy⟩

theorem hasBodyField_setFields_mapDelete_self (name : String) (d : Data)
    (body : List (String × Data)) (hs : d.GetStruct = some body) :
    hasBodyField name (d.setFields (mapDelete body name)) = false := by
  simp [hasBodyField, GetStruct_setFields d body _ hs, mapLookup_mapDelete_self]

theorem hasBodyStringField_setFields_mapDelete_self (name : String) (d : Data)
    (body : List (String × Data)) (hs : d.GetStruct = some body) :
    hasBodyStringField name (d.setFields (mapDelete body name)) = false := by
  simp [hasBodyStringField, GetStruct_setFields d body _ hs, mapLookup_mapDelete_self]

theorem isFailBody_of_not_body (d : Data) (h : HTTPBodyFromData d = false) :
    isFailBody d = false := by
  simp [isFailBody, h]

/-- The scan loop of `FixHTTPResponseCode` in closed form. -/
theorem foldl_step_eq (l : List (String × Data)) (st : FixHTTPResponseCode.State) :
    (l.foldl FixHTTPResponseCode.step st).respCode = scanRespCode l st.respCode ∧
    (l.foldl FixHTTPResponseCode.step st).replaceCodes =
      (st.replaceCodes || l.any (fun kd => isFailBody kd.2)) := by
  induction l generalizing st with
  | nil => simp [scanRespCode]
  | cons kd rest ih =>
    rw [List.foldl_cons]
    obtain ⟨ih1, ih2⟩ := ih (FixHTTPResponseCode.step st kd)
    cases hb : HTTPBodyFromData kd.2 with
    | false =>
      obtain ⟨h1, h2⟩ := step_not_body st kd hb
      rw [ih1, ih2, h1, h2]
      simp [scanRespCode, hb, isFailBody_of_not_body kd.2 hb]
    | true =>
      obtain ⟨hm0, hm⟩ := HTTPBodyFromData_httpMeta kd.2 hb
      obtain ⟨h1, h2⟩ := step_body st kd hm0 hb hm
      rw [ih1, ih2, h1, h2]
      constructor
      · simp [scanRespCode, hb, effectiveCode, responseCode, hm]
      · rw [List.any_cons]
        cases isFailBody kd.2 <;> cases st.replaceCodes <;> simp

/-- The function `FixHTTPResponseCode` in terms of the closed form of its scan. -/
theorem FixResp_eq (m : Method) :
    FixHTTPResponseCode m =
      if scanRespCode m.responses 0 = 0 then (m, some zeroStatusError)
      else if m.responses.any (fun kd => isFailBody kd.2) then
        ({ m with responses := rewriteCodes m.responses (scanRespCode m.responses 0) }, none)
      else (m, none) := by
  unfold FixHTTPResponseCode
  obtain ⟨h1, h2⟩ := foldl_step_eq m.responses { replaceCodes := false, respCode := 0, maxCode := 0 }
  simp only [h1, h2, Bool.false_or]
  rfl

theorem isFailBody_of_no_stat (d : Data) (h : hasStatField d = false) : isFailBody d = false := by
  unfold hasStatField at h
  unfold isFailBody
  cases hb : HTTPBodyFromData d with
  | false => rfl
  | true =>
    simp only [hb, Bool.true_and] at h ⊢
    cases hs : d.GetStruct with
    | none => rfl
    | some fields =>
      simp only [hs] at h ⊢
      have hnone : mapLookup "stat" fields = none := by
        cases hl : mapLookup "stat" fields with
        | none => rfl
        | some v => simp [hl] at h
      have hkeys := (mapLookup_eq_none_iff "stat" fields).mp hnone
      unfold hasStatFail
      rw [List.any_eq_false]
      intro kv hkv
      simp [isStatFail, hkeys kv hkv]

theorem scanRespCode_ne_zero (l : List (String × Data)) (r : Int)
    (hcodes : ∀ kd ∈ l, HTTPBodyFromData kd.2 = true → effectiveCode kd.2 ≠ 0)
    (h : r ≠ 0 ∨ ∃ kd ∈ l, HTTPBodyFromData kd.2 = true) : scanRespCode l r ≠ 0 := by
  induction l generalizing r with
  | nil =>
    rcases h with h | ⟨kd, hkd, _⟩
    · exact h
    · cases hkd
  | cons kd rest ih =>
    unfold scanRespCode
    apply ih _ (fun x hx => hcodes x (List.mem_cons_of_mem _ hx))
    cases hb : HTTPBodyFromData kd.2 with
    | true => exact Or.inl (by simpa using hcodes kd (List.mem_cons_self _ _) hb)
    | false =>
      rcases h with h | ⟨kd2, hkd2, hb2⟩
      · exact Or.inl (by simpa using h)
      · rcases List.mem_cons.mp hkd2 with e | hmem
        · subst e; rw [hb] at hb2; cases hb2
        · exact Or.inr ⟨kd2, hmem, hb2⟩

theorem mapLookup_mapSet_ne {α : Type} (k k0 : String) (v : α) (m : List (String × α))
    (hne : k ≠ k0) : mapLookup k (mapSet k0 v m) = mapLookup k m := by
  induction m with
  | nil =>
    have h : ¬ k0 = k := fun e => hne e.symm
    simp [mapSet, mapLookup, h]
  | cons kv rest ih =>
    obtain ⟨k1, v1⟩ := kv
    by_cases h : k1 = k0
    · subst h
      have h1 : ¬ k1 = k := fun e => hne e.symm
      simp [mapSet, mapLookup, h1]
    · by_cases h1 : k1 = k
      · subst h1
        simp [mapSet, mapLookup, h]
      · simp [mapSet, mapLookup, h, h1, ih]

/-- What the primitive branch changes: nothing but `FormatKind` and the flag `flickr_nsid`,
and nothing at all unless the primitive holds a string of the NSID shape. -/
theorem detectNSIDsPrimitive_frame (p : Primitive) :
    (detectNSIDsPrimitive p).value = p.value ∧
    (detectNSIDsPrimitive p).type_hint = p.type_hint ∧
    (∀ k, k ≠ "flickr_nsid" →
      mapLookup k (detectNSIDsPrimitive p).formats = mapLookup k p.formats) ∧
    ((∀ s, p.GetStringValue = some s → ¬ IsNSIDShape s.value) → detectNSIDsPrimitive p = p) := by
  unfold detectNSIDsPrimitive
  cases hs : p.GetStringValue with
  | none => simp
  | some s =>
    by_cases hmatch : nsid_re_MatchString s.value = true
    · simp only [hmatch, if_true]
      refine ⟨trivial, trivial, fun k hk => mapLookup_mapSet_ne k _ _ _ hk, ?_⟩
      intro h
      exact absurd ((nsid_re_MatchString_iff s.value).mp hmatch) (h s rfl)
    · simp [hmatch]

theorem detect_kind (d : Data) : (detectNSIDsData d).kind = d.kind := by
  cases d with
  | optional v m => cases v <;> simp [detectNSIDsData, Data.kind]
  | _ => simp [detectNSIDsData, Data.kind]

theorem detect_keys (d : Data) : (detectNSIDsData d).keys = d.keys := by
  cases d with
  | optional v m => cases v <;> simp [detectNSIDsData, Data.keys]
  | struct fs m => simp [detectNSIDsData, Data.keys, detect_fields_eq_map, Function.comp_def]
  | oneof fs m => simp [detectNSIDsData, Data.keys, detect_fields_eq_map, Function.comp_def]
  | _ => simp [detectNSIDsData, Data.keys]

theorem detect_GetPrimitive (d : Data) :
    (detectNSIDsData d).GetPrimitive = d.GetPrimitive.map detectNSIDsPrimitive := by
  cases d with
  | optional v m => cases v <;> simp [detectNSIDsData, Data.GetPrimitive]
  | _ => simp [detectNSIDsData, Data.GetPrimitive]

theorem detect_fields_keys (fs : List (String × Data)) :
    (detectNSIDsData.fields fs).map Prod.fst = fs.map Prod.fst := by
  simp [detect_fields_eq_map, Function.comp_def]

theorem hasBodyStringField_setFields_mapDelete (name k2 : String) (d : Data)
    (body : List (String × Data)) (hs : d.GetStruct = some body)
    (h : hasBodyStringField name d = false) :
    hasBodyStringField name (d.setFields (mapDelete body k2)) = false := by
  by_cases hk : name = k2
  · subst hk
    exact hasBodyStringField_setFields_mapDelete_self name d body hs
  · simp only [hasBodyStringField, isRequestBody_setFields, GetStruct_setFields d body _ hs, hs,
      mapLookup_mapDelete_ne name k2 body hk] at h ⊢
    exact h

theorem quiet_setFields_mapDelete (name k2 : String) (d : Data) (body : List (String × Data))
    (hs : d.GetStruct = some body) (h : quiet name d = true) :
    quiet name (d.setFields (mapDelete body k2)) = true := by
  simp only [quiet, Bool.and_eq_true, Bool.not_eq_true'] at h ⊢
  exact ⟨by rw [isQueryParam_setFields]; exact h.1,
    hasBodyStringField_setFields_mapDelete name k2 d body hs h.2⟩

theorem detectNSIDsPrimitive_GetStringValue (p : Primitive) :
    (detectNSIDsPrimitive p).GetStringValue = p.GetStringValue := by
  have h := (detectNSIDsPrimitive_frame p).1
  simp [Primitive.GetStringValue, h]

theorem DataToString_detect (d : Data) : DataToString (detectNSIDsData d) = DataToString d := by
  simp only [DataToString, detect_GetPrimitive]
  cases d.GetPrimitive with
  | none => rfl
  | some p => simpa using detectNSIDsPrimitive_GetStringValue p

theorem isQueryParam_detect (name : String) (d : Data) :
    isQueryParam name (detectNSIDsData d) = isQueryParam name d := by
  simp [isQueryParam, HTTPQueryFromData, detect_httpMeta]

theorem isRequestBody_detect (d : Data) :
    isRequestBody (detectNSIDsData d) = isRequestBody d := by
  simp [isRequestBody, detect_httpMeta]

theorem hasBodyStringField_detect (name : String) (d : Data) :
    hasBodyStringField name (detectNSIDsData d) = hasBodyStringField name d := by
  simp only [hasBodyStringField, isRequestBody_detect, detect_GetStruct]
  cases d.GetStruct with
  | none => rfl
  | some fs =>
    simp only [Option.map_some', mapLookup_detect_fields]
    cases mapLookup name fs with
    | none => rfl
    | some f => simp [DataToString_detect]

theorem quiet_detect (name : String) (d : Data) :
    quiet name (detectNSIDsData d) = quiet name d := by
  simp [quiet, isQueryParam_detect, hasBodyStringField_detect]

theorem quiet_auth (name : String) (obfuscate : String → Primitive) (key : PbString) :
    quiet name (CreateAuthHeader obfuscate key) = true := by
  simp [quiet, hasBodyStringField, isQueryParam, HTTPQueryFromData, isRequestBody,
    CreateAuthHeader, Data.httpMeta, Data.GetMeta, HTTPMeta.isMultipart, HTTPMeta.isBody]

theorem scan_quiet (name n : String) (args : List (String × Data))
    (h : ∀ kd ∈ args, quiet name kd.2 = true) :
    ∀ kd ∈ (PopBodyElementByName.scan n args).1, quiet name kd.2 = true := by
  rcases scan_shape n args with e | ⟨pre, k, d, body, post, f, y, e, _, hs, _, _, hscan⟩
  · rw [e]; exact h
  · rw [hscan]
    subst e
    intro kd hkd
    simp only [List.mem_append, List.mem_cons] at hkd h
    rcases hkd with hkd | hkd | hkd
    · exact h kd (Or.inl hkd)
    · subst hkd
      exact quiet_setFields_mapDelete name n d body hs (h (k, d) (Or.inr (Or.inl rfl)))
    · exact h kd (Or.inr (Or.inr hkd))

theorem popApiKey_quiet (name : String) (m : Method)
    (h : ∀ kd ∈ m.args, quiet name kd.2 = true) :
    ∀ kd ∈ (FixHTTPAuthorization.popApiKey m).1.args, quiet name kd.2 = true :=
  scan_quiet name "api_key" _ (fun kd hkd => h kd (PopQS_mem m _ kd hkd))

theorem DetectNSIDs_quiet (name : String) (m : Method)
    (h : ∀ kd ∈ m.args, quiet name kd.2 = true) :
    ∀ kd ∈ (DetectNSIDs m).args, quiet name kd.2 = true := by
  intro kd hkd
  simp only [DetectNSIDs, detect_fields_eq_map, List.mem_map] at hkd
  obtain ⟨kd0, hmem, e⟩ := hkd
  rw [← e, quiet_detect]
  exact h kd0 hmem

theorem one_body_filter (p : String × Data → Bool) (args : List (String × Data))
    (hlen : (args.filter (fun kd => isRequestBody kd.2)).length ≤ 1) :
    ((args.filter p).filter (fun kd => isRequestBody kd.2)).length ≤ 1 := by
  have h : (args.filter p).filter (fun kd => isRequestBody kd.2) =
      (args.filter (fun kd => isRequestBody kd.2)).filter p := by
    simp only [List.filter_filter]
    apply List.filter_congr
    intro x _
    exact Bool.and_comm _ _
  rw [h]
  exact le_trans (List.length_filter_le _ _) hlen

theorem PopQS_one_body (m : Method) (name : String)
    (hlen : (m.args.filter (fun kd => isRequestBody kd.2)).length ≤ 1) :
    ((PopQueryStringParamByName m name).1.args.filter
      (fun kd => isRequestBody kd.2)).length ≤ 1 := by
  rw [PopQS_args]
  exact one_body_filter _ _ hlen

theorem scan_one_body (name : String) (args : List (String × Data))
    (hlen : (args.filter (fun kd => isRequestBody kd.2)).length ≤ 1) :
    ((PopBodyElementByName.scan name args).1.filter
      (fun kd => isRequestBody kd.2)).length ≤ 1 := by
  rcases scan_shape name args with e | ⟨pre, k, d, body, post, f, y, e, hb, _, _, _, hscan⟩
  · rw [e]; exact hlen
  · rw [hscan]
    rw [e] at hlen
    simpa [List.filter_append, List.filter_cons, isRequestBody_setFields, hb] using hlen

/-- With at most one request-body fragment, after the query lookup and the body lookup for
`name` neither lookup finds anything more. -/
theorem pops_quiet (name : String) (m : Method)
    (hlen : (m.args.filter (fun kd => isRequestBody kd.2)).length ≤ 1) :
    ∀ kd ∈ (PopBodyElementByName.scan name (PopQueryStringParamByName m name).1.args).1,
      quiet name kd.2 = true := by
  have hq := PopQS_no_query m name
  rcases scan_atmost_one name _ (PopQS_one_body m name hlen) with
    ⟨hscan, hall⟩ | ⟨pre, k, d, body, post, f, y, hargs, hpre, hpost, hb, hs, hl, hy, hscan⟩
  · rw [hscan]
    intro kd hkd
    simp [quiet, hq kd hkd, hall kd hkd]
  · rw [hscan]
    rw [hargs] at hq
    intro kd hkd
    simp only [List.mem_append, List.mem_cons] at hkd hq
    rcases hkd with h | h | h
    · simp [quiet, hq kd (Or.inl h), hasBodyStringField_false_of_not_body name kd.2 (hpre kd h)]
    · subst h
      simp [quiet, isQueryParam_setFields, hq (k, d) (Or.inr (Or.inl rfl)),
        hasBodyStringField_setFields_mapDelete_self name d body hs]
    · simp [quiet, hq kd (Or.inr (Or.inr h)),
        hasBodyStringField_false_of_not_body name kd.2 (hpost kd h)]

theorem extractPath_args (m : Method) :
    (Transform.extractPath m).args =
      (PopBodyElementByName.scan "method" (PopQueryStringParamByName m "method").1.args).1 := by
  unfold Transform.extractPath
  simp only [PopBodyElementByName]
  split <;> split <;> simp [setPathTemplate_args]

theorem extractPath_id (m : Method) : (Transform.extractPath m).id = m.id := by
  unfold Transform.extractPath
  simp only [PopBodyElementByName]
  split <;> split <;>
    simp [Method.setPathTemplate, PopQueryStringParamByName] <;> (repeat' split) <;> rfl

theorem PopQS_noop (m : Method) (name : String)
    (h : ∀ kd ∈ m.args, isQueryParam name kd.2 = false) :
    PopQueryStringParamByName m name = (m, none) := by
  have hargs := PopQS_args_of_none m name h
  have hres : (PopQueryStringParamByName m name).2 = none := by
    rw [PopQS_result, List.findSome?_eq_none_iff]
    intro kd hkd
    have := (List.mem_filter.mp hkd).2
    rw [h kd (List.mem_filter.mp hkd).1] at this
    cases this
  have h1 : (PopQueryStringParamByName m name).1 =
      { m with args := (PopQueryStringParamByName m name).1.args } := rfl
  rw [hargs] at h1
  exact Prod.ext h1 hres

theorem quiet_parts (name : String) (args : List (String × Data))
    (h : ∀ kd ∈ args, quiet name kd.2 = true) :
    (∀ kd ∈ args, isQueryParam name kd.2 = false) ∧
    (∀ kd ∈ args, hasBodyStringField name kd.2 = false) := by
  constructor <;> intro kd hkd <;> have := h kd hkd <;>
    simp only [quiet, Bool.and_eq_true, Bool.not_eq_true'] at this
  · exact this.1
  · exact this.2

theorem PopBody_noop (m : Method) (name : String)
    (h : ∀ kd ∈ m.args, hasBodyStringField name kd.2 = false) :
    PopBodyElementByName m name = (m, none) := by
  unfold PopBodyElementByName
  simp only [PopBody_scan_noop name m.args h]

/-- Path extraction changes nothing when neither lookup for `method` finds anything. -/
theorem extractPath_noop (m : Method) (h : ∀ kd ∈ m.args, quiet "method" kd.2 = true) :
    Transform.extractPath m = m := by
  obtain ⟨hq, hb⟩ := quiet_parts "method" m.args h
  unfold Transform.extractPath
  simp only [PopQS_noop m "method" hq, PopBody_noop m "method" hb]

/-- The authorization pass changes nothing when neither lookup for `api_key` finds anything. -/
theorem FixAuth_noop (hash : Data → String) (obfuscate : String → Primitive) (m : Method)
    (h : ∀ kd ∈ m.args, quiet "api_key" kd.2 = true) :
    FixHTTPAuthorization hash obfuscate m = (m, none) := by
  obtain ⟨hq, hb⟩ := quiet_parts "api_key" m.args h
  unfold FixHTTPAuthorization FixHTTPAuthorization.popApiKey
  simp only [PopQS_noop m "api_key" hq, PopBody_noop m "api_key" hb]

theorem HTTPBodyFromData_detect (d : Data) :
    HTTPBodyFromData (detectNSIDsData d) = HTTPBodyFromData d := by
  simp [HTTPBodyFromData, detect_httpMeta]

theorem isStatFail_detect (k : String) (v : Data) :
    isStatFail k (detectNSIDsData v) = isStatFail k v := by
  simp [isStatFail, DataToString_detect]

theorem hasStatFail_detect (fs : List (String × Data)) :
    hasStatFail (detectNSIDsData.fields fs) = hasStatFail fs := by
  simp [hasStatFail, detect_fields_eq_map, List.any_map, Function.comp_def, isStatFail_detect]

theorem isFailBody_detect (d : Data) : isFailBody (detectNSIDsData d) = isFailBody d := by
  simp only [isFailBody, HTTPBodyFromData_detect, detect_GetStruct]
  cases d.GetStruct with
  | none => rfl
  | some fs => simp [hasStatFail_detect]

theorem responseCode_detect (d : Data) : responseCode (detectNSIDsData d) = responseCode d := by
  simp [responseCode, detect_httpMeta]

theorem effectiveCode_detect (d : Data) :
    effectiveCode (detectNSIDsData d) = effectiveCode d := by
  simp [effectiveCode, isFailBody_detect, responseCode_detect]

theorem scanRespCode_detect (l : List (String × Data)) (r : Int) :
    scanRespCode (detectNSIDsData.fields l) r = scanRespCode l r := by
  induction l generalizing r with
  | nil => rfl
  | cons kd rest ih =>
    obtain ⟨k, d⟩ := kd
    simp [detectNSIDsData.fields, scanRespCode, HTTPBodyFromData_detect, effectiveCode_detect, ih]

theorem any_isFailBody_detect (l : List (String × Data)) :
    (detectNSIDsData.fields l).any (fun kd => isFailBody kd.2) =
      l.any (fun kd => isFailBody kd.2) := by
  simp [detect_fields_eq_map, List.any_map, Function.comp_def, isFailBody_detect]

theorem httpMeta_setResponseCode (d : Data) (c : Int) :
    (d.setResponseCode c).httpMeta =
      d.httpMeta.map (fun h => { h with response_code := c }) := by
  unfold Data.httpMeta Data.setResponseCode
  cases hm : d.GetMeta with
  | none => simp [hm]
  | some dm =>
    cases dm with
    | unset => simp [hm]
    | grpc => simp [hm]
    | http h => cases d <;> simp [Data.GetMeta]

theorem GetStruct_setResponseCode (d : Data) (c : Int) :
    (d.setResponseCode c).GetStruct = d.GetStruct := by
  unfold Data.setResponseCode
  cases hm : d.GetMeta with
  | none => rfl
  | some dm =>
    cases dm with
    | unset => rfl
    | grpc => rfl
    | http h => cases d <;> rfl

theorem HTTPBodyFromData_setResponseCode (d : Data) (c : Int) :
    HTTPBodyFromData (d.setResponseCode c) = HTTPBodyFromData d := by
  simp only [HTTPBodyFromData, httpMeta_setResponseCode]
  cases d.httpMeta <;> rfl

theorem isFailBody_setResponseCode (d : Data) (c : Int) :
    isFailBody (d.setResponseCode c) = isFailBody d := by
  simp [isFailBody, HTTPBodyFromData_setResponseCode, GetStruct_setResponseCode]

theorem effectiveCode_setResponseCode (d : Data) (c : Int) (hb : HTTPBodyFromData d = true) :
    effectiveCode (d.setResponseCode c) = if isFailBody d then 400 else c := by
  obtain ⟨h, hm⟩ := HTTPBodyFromData_httpMeta d hb
  simp [effectiveCode, isFailBody_setResponseCode, responseCode, httpMeta_setResponseCode, hm]

theorem setResponseCode_idem (d : Data) (c : Int) :
    (d.setResponseCode c).setResponseCode c = d.setResponseCode c := by
  unfold Data.setResponseCode
  cases hm : d.GetMeta with
  | none => simp [hm]
  | some dm =>
    cases dm with
    | unset => simp [hm]
    | grpc => simp [hm]
    | http h => cases d <;> simp [Data.GetMeta]

theorem setResponseCode_detect (d : Data) (c : Int) :
    (detectNSIDsData d).setResponseCode c = detectNSIDsData (d.setResponseCode c) := by
  unfold Data.setResponseCode
  rw [detect_GetMeta]
  cases hm : d.GetMeta with
  | none => rfl
  | some dm =>
    cases dm with
    | unset => rfl
    | grpc => rfl
    | http h =>
      cases d with
      | optional v m => cases v <;> simp [detectNSIDsData]
      | _ => simp [detectNSIDsData]

theorem scanRespCode_no_body (l : List (String × Data)) (r : Int)
    (h : ∀ kd ∈ l, HTTPBodyFromData kd.2 = false) : scanRespCode l r = r := by
  induction l generalizing r with
  | nil => rfl
  | cons kd rest ih =>
    simp only [scanRespCode, h kd (List.mem_cons_self _ _), Bool.false_eq_true, if_false]
    exact ih r (fun x hx => h x (List.mem_cons_of_mem _ hx))

/-- Scanning the rewritten fragments gives back the code that was written into them. -/
theorem scanRespCode_rewrite (l : List (String × Data)) (r r2 : Int)
    (h : r2 = scanRespCode l r ∨ ∃ kd ∈ l, HTTPBodyFromData kd.2 = true) :
    scanRespCode (rewriteCodes l (scanRespCode l r)) r2 = scanRespCode l r := by
  induction l generalizing r r2 with
  | nil =>
    rcases h with h | ⟨kd, hkd, _⟩
    · simpa [rewriteCodes, scanRespCode] using h
    · cases hkd
  | cons kd rest ih =>
    have hstep : scanRespCode (kd :: rest) r =
        scanRespCode rest (if HTTPBodyFromData kd.2 then effectiveCode kd.2 else r) := rfl
    rw [hstep]
    generalize hr1 : (if HTTPBodyFromData kd.2 then effectiveCode kd.2 else r) = r1 at hstep ⊢
    have hcons : rewriteCodes (kd :: rest) (scanRespCode rest r1) =
        (kd.1, kd.2.setResponseCode (scanRespCode rest r1)) ::
          rewriteCodes rest (scanRespCode rest r1) := rfl
    rw [hcons, scanRespCode]
    apply ih
    by_cases hrest : ∃ x ∈ rest, HTTPBodyFromData x.2 = true
    · exact Or.inr hrest
    · left
      have hno : ∀ x ∈ rest, HTTPBodyFromData x.2 = false := by
        intro x hx
        cases hb : HTTPBodyFromData x.2 with
        | false => rfl
        | true => exact absurd ⟨x, hx, hb⟩ hrest
      have hc : scanRespCode rest r1 = r1 := scanRespCode_no_body rest r1 hno
      simp only [HTTPBodyFromData_setResponseCode]
      cases hb : HTTPBodyFromData kd.2 with
      | true =>
        simp only [hb, if_true] at hr1 ⊢
        rw [effectiveCode_setResponseCode kd.2 _ hb, hc]
        cases hf : isFailBody kd.2 with
        | false => simp
        | true => simp [← hr1, effectiveCode, hf]
      | false =>
        simp only [hb, Bool.false_eq_true, if_false] at hr1 ⊢
        rcases h with h | ⟨x, hx, hbx⟩
        · rw [h, hstep]
        · rcases List.mem_cons.mp hx with e | hmem
          · subst e; rw [hb] at hbx; cases hbx
          · rw [hno x hmem] at hbx; cases hbx

theorem rewriteCodes_detect (l : List (String × Data)) (c : Int) :
    rewriteCodes (detectNSIDsData.fields (rewriteCodes l c)) c =
      detectNSIDsData.fields (rewriteCodes l c) := by
  simp only [rewriteCodes, detect_fields_eq_map, List.map_map]
  apply List.map_congr_left
  intro kd _
  simp [setResponseCode_detect, setResponseCode_idem]

theorem any_isFailBody_rewrite (l : List (String × Data)) (c : Int) :
    (rewriteCodes l c).any (fun kd => isFailBody kd.2) = l.any (fun kd => isFailBody kd.2) := by
  simp [rewriteCodes, List.any_map, Function.comp_def, isFailBody_setResponseCode]

/-- The response-code pass changes nothing on a witness whose Responses are the format-tagged
Responses left by an earlier, successful run of the pass. -/
theorem FixResp_idem (m m2 : Method) (hok : (FixHTTPResponseCode m).2 = none)
    (hresp : m2.responses = detectNSIDsData.fields (FixHTTPResponseCode m).1.responses) :
    FixHTTPResponseCode m2 = (m2, none) := by
  rw [FixResp_eq] at hok hresp
  by_cases hz : scanRespCode m.responses 0 = 0
  · simp [hz] at hok
  · have hbody : ∃ kd ∈ m.responses, HTTPBodyFromData kd.2 = true := by
      by_contra hno
      apply hz
      apply scanRespCode_no_body
      intro x hx
      cases hb : HTTPBodyFromData x.2 with
      | false => rfl
      | true => exact absurd ⟨x, hx, hb⟩ hno
    simp only [hz, if_false] at hresp
    rw [FixResp_eq]
    cases hany : m.responses.any (fun kd => isFailBody kd.2) with
    | false =>
      simp only [hany, Bool.false_eq_true, if_false] at hresp
      have h1 : scanRespCode m2.responses 0 ≠ 0 := by rw [hresp, scanRespCode_detect]; exact hz
      have h2 : m2.responses.any (fun kd => isFailBody kd.2) = false := by
        rw [hresp, any_isFailBody_detect]; exact hany
      simp [h1, h2]
    | true =>
      simp only [hany, if_true] at hresp
      have h1 : scanRespCode m2.responses 0 = scanRespCode m.responses 0 := by
        rw [hresp, scanRespCode_detect]
        exact scanRespCode_rewrite m.responses 0 0 (Or.inr hbody)
      have h2 : m2.responses.any (fun kd => isFailBody kd.2) = true := by
        rw [hresp, any_isFailBody_detect, any_isFailBody_rewrite]; exact hany
      have h3 : rewriteCodes m2.responses (scanRespCode m.responses 0) = m2.responses := by
        rw [hresp]; exact rewriteCodes_detect _ _
      simp only [h1, hz, if_false, h2, if_true, h3]

theorem FixResp_id (m : Method) : (FixHTTPResponseCode m).1.id = m.id := by
  rw [FixResp_eq]
  split
  · rfl
  · split <;> rfl

theorem FixAuth_id (hash : Data → String) (obfuscate : String → Primitive) (m : Method) :
    (FixHTTPAuthorization hash obfuscate m).1.id = m.id := by
  unfold FixHTTPAuthorization
  simp only
  split
  · rfl
  · split <;> rfl

theorem FixAuth_responses (hash : Data → String) (obfuscate : String → Primitive) (m : Method) :
    (FixHTTPAuthorization hash obfuscate m).1.responses = m.responses := by
  unfold FixHTTPAuthorization
  simp only
  split
  · rfl
  · split <;> rfl

theorem FixAuth_quiet (name : String) (hash : Data → String) (obfuscate : String → Primitive)
    (m : Method) (h : ∀ kd ∈ (FixHTTPAuthorization.popApiKey m).1.args, quiet name kd.2 = true) :
    ∀ kd ∈ (FixHTTPAuthorization hash obfuscate m).1.args, quiet name kd.2 = true := by
  unfold FixHTTPAuthorization
  simp only
  split
  · exact h
  · split
    · exact h
    · intro kd hkd
      rcases mem_mapSet _ _ _ kd hkd with hkd | hkd
      · exact h kd hkd
      · rw [hkd]; exact quiet_auth name obfuscate _

theorem popApiKey_args (m : Method) :
    (FixHTTPAuthorization.popApiKey m).1.args =
      (PopBodyElementByName.scan "api_key" (PopQueryStringParamByName m "api_key").1.args).1 :=
  rfl

theorem host_setPathTemplate (x : Method) (p host : String)
    (h : ∃ h2, HTTPMetaFromMethod x = some h2 ∧ h2.host = host) :
    ∃ h2, HTTPMetaFromMethod (x.setPathTemplate p) = some h2 ∧ h2.host = host := by
  obtain ⟨h2, hx, hh⟩ := h
  unfold HTTPMetaFromMethod at hx
  unfold HTTPMetaFromMethod Method.setPathTemplate
  cases hmm : x.mmeta with
  | none => simp [hmm] at hx
  | some mm =>
    cases mm with
    | unset => simp [hmm] at hx
    | grpc => simp [hmm] at hx
    | http h0 =>
      simp only [hmm, Option.some.injEq] at hx
      subst hx
      exact ⟨_, rfl, hh⟩

theorem host_congr (x y : Method) (host : String) (hxy : x.mmeta = y.mmeta)
    (h : ∃ h2, HTTPMetaFromMethod x = some h2 ∧ h2.host = host) :
    ∃ h2, HTTPMetaFromMethod y = some h2 ∧ h2.host = host := by
  unfold HTTPMetaFromMethod at h ⊢
  rw [← hxy]
  exact h

theorem extractPath_host (m : Method) (hmeta : HTTPMethodMeta)
    (hm : HTTPMetaFromMethod m = some hmeta) :
    ∃ hmeta2, HTTPMetaFromMethod (Transform.extractPath m) = some hmeta2 ∧
      hmeta2.host = hmeta.host := by
  have h0 : ∃ h2, HTTPMetaFromMethod (PopQueryStringParamByName m "method").1 = some h2 ∧
      h2.host = hmeta.host := ⟨hmeta, hm, rfl⟩
  unfold Transform.extractPath
  simp only [PopBodyElementByName]
  split <;> split
  all_goals first
    | exact host_setPathTemplate _ _ _ (host_congr
        ((PopQueryStringParamByName m "method").1.setPathTemplate _) _ _ rfl
        (host_setPathTemplate _ _ _ h0))
    | exact host_setPathTemplate _ _ _ (host_congr
        (PopQueryStringParamByName m "method").1 _ _ rfl h0)
    | exact host_congr ((PopQueryStringParamByName m "method").1.setPathTemplate _) _ _ rfl
        (host_setPathTemplate _ _ _ h0)
    | exact host_congr (PopQueryStringParamByName m "method").1 _ _ rfl h0

/-- The parts of a successful run of `Transform` past the two gates. -/
theorem Transform_success (hash : Data → String) (obfuscate : String → Primitive) (m : Method)
    (hmeta : HTTPMethodMeta) (hrest : m.GetApiType = .HTTP_REST)
    (hm : HTTPMetaFromMethod m = some hmeta) (hhost : IsFlickrAPICall hmeta = true)
    (hok : (Transform hash obfuscate m).2 = none) :
    (FixHTTPResponseCode (Transform.extractPath m)).2 = none ∧
    (FixHTTPAuthorization hash obfuscate
      (FixHTTPResponseCode (Transform.extractPath m)).1).2 = none ∧
    (Transform hash obfuscate m).1 =
      DetectNSIDs (FixHTTPAuthorization hash obfuscate
        (FixHTTPResponseCode (Transform.extractPath m)).1).1 := by
  rw [Transform_gates hash obfuscate m hmeta hrest hm hhost] at hok ⊢
  cases h1 : (FixHTTPResponseCode (Transform.extractPath m)).2 with
  | some err => simp [h1] at hok
  | none =>
    simp only [h1] at hok ⊢
    cases h2 : (FixHTTPAuthorization hash obfuscate
        (FixHTTPResponseCode (Transform.extractPath m)).1).2 with
    | some err => simp [h2] at hok
    | none => simp

theorem scanRespCode_const (l : List (String × Data)) (c r : Int)
    (hall : ∀ kd ∈ l, HTTPBodyFromData kd.2 = true → effectiveCode kd.2 = c)
    (hex : r = c ∨ ∃ kd ∈ l, HTTPBodyFromData kd.2 = true) : scanRespCode l r = c := by
  induction l generalizing r with
  | nil =>
    rcases hex with h | ⟨kd, hkd, _⟩
    · exact h
    · cases hkd
  | cons kd rest ih =>
    unfold scanRespCode
    apply ih _ (fun x hx => hall x (List.mem_cons_of_mem _ hx))
    cases hb : HTTPBodyFromData kd.2 with
    | true => exact Or.inl (by simpa using hall kd (List.mem_cons_self _ _) hb)
    | false =>
      rcases hex with h | ⟨x, hx, hbx⟩
      · exact Or.inl (by simpa using h)
      · rcases List.mem_cons.mp hx with e | hmem
        · subst e; rw [hb] at hbx; cases hbx
        · exact Or.inr ⟨x, hmem, hbx⟩

theorem scanRespCode_append (l1 l2 : List (String × Data)) (r : Int) :
    scanRespCode (l1 ++ l2) r = scanRespCode l2 (scanRespCode l1 r) := by
  induction l1 generalizing r with
  | nil => rfl
  | cons kd rest ih =>
    rw [List.cons_append, scanRespCode, scanRespCode]
    exact ih _

/-- With at most one response-body fragment, the scan ends with that fragment's effective
code. -/
theorem scanRespCode_single (l : List (String × Data)) (r : Int)
    (hlen : (l.filter (fun kd => HTTPBodyFromData kd.2)).length ≤ 1) :
    ∀ kd ∈ l, HTTPBodyFromData kd.2 = true → effectiveCode kd.2 = scanRespCode l r := by
  intro kd hkd hb
  have hin : kd ∈ l.filter (fun kd => HTTPBodyFromData kd.2) := List.mem_filter.mpr ⟨hkd, hb⟩
  cases hf : l.filter (fun kd => HTTPBodyFromData kd.2) with
  | nil => rw [hf] at hin; cases hin
  | cons x rest =>
    cases rest with
    | cons y rest2 => rw [hf] at hlen; simp at hlen
    | nil =>
      rw [hf, List.mem_singleton] at hin
      subst hin
      obtain ⟨pre, post, hl, _, _, hpost⟩ := List.filter_eq_cons_iff.mp hf
      have hpost1 : ∀ x ∈ post, HTTPBodyFromData x.2 = false :=
        fun x hx => by simpa using List.filter_eq_nil_iff.mp hpost x hx
      rw [hl, scanRespCode_append, scanRespCode, scanRespCode_no_body post _ hpost1]
      simp [hb]

theorem map_eq_self_of_fixed {α : Type} (f : α → α) (l : List α) (h : ∀ x ∈ l, f x = x) :
    l.map f = l := by
  induction l with
  | nil => rfl
  | cons x rest ih =>
    rw [List.map_cons, h x (List.mem_cons_self _ _),
      ih (fun y hy => h y (List.mem_cons_of_mem _ hy))]

theorem detect_fields_fixed (l : List (String × Data))
    (h : ∀ kd ∈ l, detectNSIDsData kd.2 = kd.2) : detectNSIDsData.fields l = l := by
  rw [detect_fields_eq_map]
  apply map_eq_self_of_fixed
  intro kd hkd
  rw [h kd hkd]

theorem isFailBody_isBody (d : Data) (h : isFailBody d = true) : HTTPBodyFromData d = true := by
  simp only [isFailBody, Bool.and_eq_true] at h
  exact h.1

/-- The response-code pass changes nothing on any enumeration of the format-tagged Responses
left by an earlier, successful run over at most one response-body fragment. -/
theorem FixResp_idem_perm (e m2 : Method) (hok : (FixHTTPResponseCode e).2 = none)
    (hlen : (e.responses.filter (fun kd => HTTPBodyFromData kd.2)).length ≤ 1)
    (hperm : m2.responses.Perm (detectNSIDsData.fields (FixHTTPResponseCode e).1.responses)) :
    FixHTTPResponseCode m2 = (m2, none) := by
  rw [FixResp_eq] at hok hperm
  by_cases hz : scanRespCode e.responses 0 = 0
  · simp [hz] at hok
  · have hbody : ∃ kd ∈ e.responses, HTTPBodyFromData kd.2 = true := by
      by_contra hno
      apply hz
      apply scanRespCode_no_body
      intro x hx
      cases hb : HTTPBodyFromData x.2 with
      | false => rfl
      | true => exact absurd ⟨x, hx, hb⟩ hno
    have hsingle := scanRespCode_single e.responses 0 hlen
    simp only [hz, if_false] at hperm
    rw [FixResp_eq]
    cases hany : e.responses.any (fun kd => isFailBody kd.2) with
    | false =>
      simp only [hany, Bool.false_eq_true, if_false] at hperm
      have hmem : ∀ kd ∈ m2.responses, ∃ kd0 ∈ e.responses,
          kd = (kd0.1, detectNSIDsData kd0.2) := by
        intro kd hkd
        have := hperm.mem_iff.mp hkd
        rw [detect_fields_eq_map] at this
        obtain ⟨kd0, h0, e0⟩ := List.mem_map.mp this
        exact ⟨kd0, h0, e0.symm⟩
      have h1 : scanRespCode m2.responses 0 = scanRespCode e.responses 0 := by
        apply scanRespCode_const
        · intro kd hkd hb
          obtain ⟨kd0, h0, rfl⟩ := hmem kd hkd
          simp only [HTTPBodyFromData_detect] at hb
          simp only [effectiveCode_detect]
          exact hsingle kd0 h0 hb
        · right
          obtain ⟨kd0, h0, hb0⟩ := hbody
          refine ⟨(kd0.1, detectNSIDsData kd0.2), hperm.mem_iff.mpr ?_, ?_⟩
          · rw [detect_fields_eq_map]
            exact List.mem_map.mpr ⟨kd0, h0, rfl⟩
          · simpa [HTTPBodyFromData_detect] using hb0
      have h2 : m2.responses.any (fun kd => isFailBody kd.2) = false := by
        rw [List.any_eq_false]
        intro kd hkd
        obtain ⟨kd0, h0, rfl⟩ := hmem kd hkd
        have := (List.any_eq_false.mp hany) kd0 h0
        simpa [isFailBody_detect] using this
      simp [h1, hz, h2]
    | true =>
      simp only [hany, if_true] at hperm
      obtain ⟨kf, hkf, hfail⟩ := List.any_eq_true.mp hany
      have hc : scanRespCode e.responses 0 = 400 := by
        rw [← hsingle kf hkf (isFailBody_isBody kf.2 hfail)]
        simp [effectiveCode, hfail]
      have hmem : ∀ kd ∈ m2.responses, ∃ kd0 ∈ e.responses,
          kd = (kd0.1, detectNSIDsData (kd0.2.setResponseCode 400)) := by
        intro kd hkd
        have := hperm.mem_iff.mp hkd
        rw [detect_fields_eq_map, hc] at this
        obtain ⟨kd1, h1, e1⟩ := List.mem_map.mp this
        obtain ⟨kd0, h0, e0⟩ := List.mem_map.mp h1
        exact ⟨kd0, h0, by rw [← e1, ← e0]⟩
      have hmem2 : ∀ kd0 ∈ e.responses,
          (kd0.1, detectNSIDsData (kd0.2.setResponseCode 400)) ∈ m2.responses := by
        intro kd0 h0
        apply hperm.mem_iff.mpr
        rw [detect_fields_eq_map, hc]
        exact List.mem_map.mpr ⟨(kd0.1, kd0.2.setResponseCode 400),
          List.mem_map.mpr ⟨kd0, h0, rfl⟩, rfl⟩
      have h1 : scanRespCode m2.responses 0 = 400 := by
        apply scanRespCode_const
        · intro kd hkd hb
          obtain ⟨kd0, h0, rfl⟩ := hmem kd hkd
          simp only [HTTPBodyFromData_detect, HTTPBodyFromData_setResponseCode] at hb
          simp only [effectiveCode_detect]
          rw [effectiveCode_setResponseCode _ _ hb]
          split <;> rfl
        · right
          obtain ⟨kd0, h0, hb0⟩ := hbody
          exact ⟨_, hmem2 kd0 h0,
            by simpa [HTTPBodyFromData_detect, HTTPBodyFromData_setResponseCode] using hb0⟩
      have h2 : m2.responses.any (fun kd => isFailBody kd.2) = true := by
        rw [List.any_eq_true]
        exact ⟨_, hmem2 kf hkf,
          by simpa [isFailBody_detect, isFailBody_setResponseCode] using hfail⟩
      have h3 : rewriteCodes m2.responses 400 = m2.responses := by
        unfold rewriteCodes
        apply map_eq_self_of_fixed
        intro kd hkd
        obtain ⟨kd0, h0, rfl⟩ := hmem kd hkd
        simp [setResponseCode_detect, setResponseCode_idem]
      have h400 : ((400 : Int) = 0) = False := by decide
      simp only [h1, h400, if_false, h2, if_true, h3]

/-- A witness on which no pass finds anything to do is returned unchanged. -/
theorem Transform_fixed (hash : Data → String) (obfuscate : String → Primitive) (m : Method)
    (hmeta : HTTPMethodMeta) (hrest : m.GetApiType = .HTTP_REST)
    (hm : HTTPMetaFromMethod m = some hmeta) (hhost : IsFlickrAPICall hmeta = true)
    (hqm : ∀ kd ∈ m.args, quiet "method" kd.2 = true)
    (hqa : ∀ kd ∈ m.args, quiet "api_key" kd.2 = true)
    (hresp : FixHTTPResponseCode m = (m, none))
    (hdet : DetectNSIDs m = m) :
    Transform hash obfuscate m = (m, none) := by
  rw [Transform_gates hash obfuscate m hmeta hrest hm hhost]
  simp only [extractPath_noop _ hqm, hresp, FixAuth_noop hash obfuscate _ hqa, hdet]

/-- When every response fragment with HTTP metadata reports a non-zero code, some response
fragment is an HTTP body fragment, and no response fragment is a body struct with a `stat`
field, `FixHTTPResponseCode` returns no error and leaves the witness unchanged. -/
theorem FixResp_noop_of_body_without_stat (m : Method)
    (hcodes : ∀ kd ∈ m.responses, ∀ c, responseCode kd.2 = some c → c ≠ 0)
    (hbody : ∃ kd ∈ m.responses, HTTPBodyFromData kd.2 = true)
    (hstat : ∀ kd ∈ m.responses, hasStatField kd.2 = false) :
    FixHTTPResponseCode m = (m, none) := by
  have hfail : ∀ kd ∈ m.responses, isFailBody kd.2 = false :=
    fun kd hkd => isFailBody_of_no_stat kd.2 (hstat kd hkd)
  have hne : scanRespCode m.responses 0 ≠ 0 := by
    apply scanRespCode_ne_zero _ _ _ (Or.inr hbody)
    intro kd hkd hb
    obtain ⟨hm0, hm⟩ := HTTPBodyFromData_httpMeta kd.2 hb
    simp only [effectiveCode, hfail kd hkd, Bool.false_eq_true, if_false, responseCode, hm,
      Option.map_some', Option.getD_some]
    exact hcodes kd hkd _ (by simp [responseCode, hm])
  have hany : m.responses.any (fun kd => isFailBody kd.2) = false := by
    rw [List.any_eq_false]
    intro kd hkd
    simp [hfail kd hkd]
  rw [FixResp_eq]
  simp [hne, hany]

/-- A header and a body without `stat`, both with code 200, are left as they are. -/
theorem FixResp_noop_of_body_without_stat_example :
    FixHTTPResponseCode sampleOkResponse = (sampleOkResponse, none) :=
  FixResp_noop_of_body_without_stat sampleOkResponse
    (by simp [sampleOkResponse, sampleMethod, responseCode, sampleHeader, sampleBody,
      Data.httpMeta, Data.GetMeta])
    ⟨("r", sampleBody [("photos", sampleField "none")] 200),
      by simp [sampleOkResponse, sampleMethod], rfl⟩
    (by decide)

/-! ## The claims -/

/-- C1 fails as stated: with query `method=X` and a body field `method=Y` the path template
after `Transform` is `/services/awesome/Y`, not `/services/awesome/X`. -/
theorem C1_counterexample :
    sampleQueryAndBody.GetApiType = .HTTP_REST ∧
    (∃ hmeta, HTTPMetaFromMethod sampleQueryAndBody = some hmeta ∧
      stringsContains hmeta.host "api.flickr.com" = true) ∧
    sampleQueryAndBody.args.filter (fun kd => isQueryParam "method" kd.2) =
      [("q", sampleQuery "method" "X")] ∧
    DataToString (sampleQuery "method" "X") = some { type := 0, value := "X" } ∧
    pathTemplate (Transform sampleHash sampleObfuscate sampleQueryAndBody).1 =
      some "/services/awesome/Y" ∧
    pathTemplate (Transform sampleHash sampleObfuscate sampleQueryAndBody).1 ≠
      some ("/services/awesome/" ++ "X") :=
  ⟨by decide, ⟨_, rfl, by decide⟩, rfl, rfl, by decide, by decide⟩

/-- C1 (amended): for a REST-over-HTTP witness with HTTP metadata whose host contains
`api.flickr.com`, whose Args hold exactly one query-string parameter `method`, with string
value X, and in which no request-body struct has a string field `method`, the path template
after `Transform` is `/services/awesome/` followed by X. -/
theorem C1_query_method_becomes_path (hash : Data → String) (obfuscate : String → Primitive)
    (m : Method) (hmeta : HTTPMethodMeta) (k : String) (d : Data) (x : PbString)
    (hrest : m.GetApiType = .HTTP_REST)
    (hm : HTTPMetaFromMethod m = some hmeta)
    (hhost : stringsContains hmeta.host "api.flickr.com" = true)
    (hq : m.args.filter (fun kd => isQueryParam "method" kd.2) = [(k, d)])
    (hx : DataToString d = some x)
    (hbody : ∀ kd ∈ m.args, hasBodyStringField "method" kd.2 = false) :
    pathTemplate (Transform hash obfuscate m).1 = some ("/services/awesome/" ++ x.value) := by
  have hpop : (PopQueryStringParamByName m "method").2 = some x := by
    rw [PopQS_result, hq]
    simp [hx]
  rw [pathTemplate_congr _ _ (Transform_mmeta hash obfuscate m hmeta hrest hm hhost)]
  exact extractPath_query_only m hmeta x hm hpop hbody

/-- C1 at a concrete witness: query `method=flickr.test.echo` and no request body. -/
theorem C1_query_method_becomes_path_witness :
    pathTemplate (Transform sampleHash sampleObfuscate sampleQueryOnly).1 =
      some ("/services/awesome/" ++ "flickr.test.echo") :=
  C1_query_method_becomes_path sampleHash sampleObfuscate sampleQueryOnly
    { method := "GET", path_template := "/services/rest", host := "api.flickr.com" }
    "q" (sampleQuery "method" "flickr.test.echo") { type := 0, value := "flickr.test.echo" }
    (by decide) rfl (by decide) rfl rfl (by decide)

/-- C2: for a witness that passes both gates of `Transform` (REST-over-HTTP, host contains
`api.flickr.com`), that carries `method` as a query-string parameter with string value X and
as a string field with value Y of its single request-body struct, the path template after
`Transform` is `/services/awesome/` followed by Y (the body wins), and afterwards no
query-string parameter `method` and no request-body field `method` is left in Args. -/
theorem C2_body_method_wins (hash : Data → String) (obfuscate : String → Primitive)
    (m : Method) (hmeta : HTTPMethodMeta) (kq kb : String) (dq db f : Data)
    (body : List (String × Data)) (x y : PbString)
    (hrest : m.GetApiType = .HTTP_REST)
    (hm : HTTPMetaFromMethod m = some hmeta)
    (hhost : stringsContains hmeta.host "api.flickr.com" = true)
    (hkeys : (m.args.map Prod.fst).Nodup)
    (_hq : (kq, dq) ∈ m.args) (_hqk : isQueryParam "method" dq = true)
    (_hx : DataToString dq = some x)
    (hb : m.args.filter (fun kd => isRequestBody kd.2) = [(kb, db)])
    (hs : db.GetStruct = some body) (hf : mapLookup "method" body = some f)
    (hy : DataToString f = some y) :
    pathTemplate (Transform hash obfuscate m).1 = some ("/services/awesome/" ++ y.value) ∧
    (∀ kd ∈ (Transform hash obfuscate m).1.args, isQueryParam "method" kd.2 = false) ∧
    (∀ kd ∈ (Transform hash obfuscate m).1.args, hasBodyField "method" kd.2 = false) := by
  obtain ⟨pre, post, hargs, hpre, hpost⟩ := PopQS_args_single_body m "method" kb db hkeys hb
  have hdb : isRequestBody db = true := by
    have : (kb, db) ∈ m.args.filter (fun kd => isRequestBody kd.2) := by rw [hb]; simp
    exact (List.mem_filter.mp this).2
  obtain ⟨hpath, hargs2, _⟩ :=
    extractPath_body_hit m hmeta pre post body kb db f y hm hargs hpre hdb hs hf hy
  have hnoq := PopQS_no_query m "method"
  rw [hargs] at hnoq
  have hclean : ∀ kd ∈ (Transform.extractPath m).args, carriesNo "method" kd.2 = true := by
    rw [hargs2]
    intro kd hkd
    simp only [List.mem_append, List.mem_cons] at hkd hnoq
    rcases hkd with hkd | hkd | hkd
    · simp [carriesNo, hasBodyField, hnoq kd (Or.inl hkd), hpre kd hkd]
    · subst hkd
      simp [carriesNo, hasBodyField, isQueryParam_setFields, isRequestBody_setFields,
        hnoq (kb, db) (Or.inr (Or.inl rfl)), GetStruct_setFields db body _ hs,
        mapLookup_mapDelete_self]
    · simp [carriesNo, hasBodyField, hnoq kd (Or.inr (Or.inr hkd)), hpost kd hkd]
  have hfinal := Transform_carriesNo "method" hash obfuscate m hmeta hrest hm hhost hclean
  refine ⟨?_, ?_, ?_⟩
  · rw [pathTemplate_congr _ _ (Transform_mmeta hash obfuscate m hmeta hrest hm hhost)]
    exact hpath
  · intro kd hkd
    have := hfinal kd hkd
    simp only [carriesNo, Bool.and_eq_true, Bool.not_eq_true'] at this
    exact this.1
  · intro kd hkd
    have := hfinal kd hkd
    simp only [carriesNo, Bool.and_eq_true, Bool.not_eq_true'] at this
    exact this.2

/-- C2 at a concrete witness: query `method=X`, multipart part `method=Y`, an `api_key`. -/
theorem C2_body_method_wins_witness :
    pathTemplate (Transform sampleHash sampleObfuscate sampleQueryAndMultipart).1 =
      some ("/services/awesome/" ++ "Y") ∧
    (∀ kd ∈ (Transform sampleHash sampleObfuscate sampleQueryAndMultipart).1.args,
      isQueryParam "method" kd.2 = false) ∧
    (∀ kd ∈ (Transform sampleHash sampleObfuscate sampleQueryAndMultipart).1.args,
      hasBodyField "method" kd.2 = false) :=
  C2_body_method_wins sampleHash sampleObfuscate sampleQueryAndMultipart
    { method := "GET", path_template := "/services/rest", host := "api.flickr.com" }
    "q" "b" (sampleQuery "method" "X")
    (sampleMultipart [("method", sampleField "Y"), ("title", sampleField "12@N3")])
    (sampleField "Y") [("method", sampleField "Y"), ("title", sampleField "12@N3")]
    { type := 0, value := "X" } { type := 0, value := "Y" }
    (by decide) rfl (by decide) (by decide) (by simp [sampleQueryAndMultipart, sampleMethod])
    (by decide) rfl rfl rfl rfl rfl

/-- C3 fails as stated: a multipart witness with part `method=my_method`, no `method` query
parameter and a response body with code 200, which also carries an `api_key` part while Args
already hold an entry under the key of the synthesized auth node, makes `Transform` return
the collision error. -/
theorem C3_counterexample :
    sampleMultipartCollision.GetApiType = .HTTP_REST ∧
    (∃ hmeta, HTTPMetaFromMethod sampleMultipartCollision = some hmeta ∧
      stringsContains hmeta.host "api.flickr.com" = true) ∧
    (∀ kd ∈ sampleMultipartCollision.args, isQueryParam "method" kd.2 = false) ∧
    sampleMultipartCollision.args.filter (fun kd => isRequestBody kd.2) =
      [("b", sampleMultipart
        [("method", sampleField "my_method"), ("api_key", sampleField "k1")])] ∧
    bodyStringField "method" (sampleMultipart
        [("method", sampleField "my_method"), ("api_key", sampleField "k1")]) =
      some { type := 0, value := "my_method" } ∧
    sampleMultipartCollision.responses.filter (fun kd => HTTPBodyFromData kd.2) =
      [("r", sampleBody [] 200)] ∧
    responseCode (sampleBody [] 200) = some 200 ∧
    (Transform sampleHash sampleObfuscate sampleMultipartCollision).2 = some collisionError :=
  ⟨by decide, ⟨_, rfl, by decide⟩, by decide, rfl, rfl, rfl, rfl, by decide⟩

/-- C3 (amended): for a witness that passes both gates of `Transform`, has no `method` query
parameter, whose only request-body fragment is a multipart struct with a string field
`method` = X, whose response body fragment has a non-zero code, and in which no `api_key`
carried by the witness has the key of its synthesized auth node already among the keys of
Args, `Transform` returns no error and the path template afterwards is `/services/awesome/`
followed by X. -/
theorem C3_multipart_method_becomes_path (hash : Data → String)
    (obfuscate : String → Primitive) (m : Method) (hmeta : HTTPMethodMeta) (kb kr : String)
    (db dr f : Data) (hmb : HTTPMeta) (body : List (String × Data)) (x : PbString) (c : Int)
    (hrest : m.GetApiType = .HTTP_REST)
    (hm : HTTPMetaFromMethod m = some hmeta)
    (hhost : stringsContains hmeta.host "api.flickr.com" = true)
    (hnoq : ∀ kd ∈ m.args, isQueryParam "method" kd.2 = false)
    (hb : m.args.filter (fun kd => isRequestBody kd.2) = [(kb, db)])
    (hdm : db.httpMeta = some hmb) (hmp : hmb.isMultipart = true)
    (hs : db.GetStruct = some body) (hf : mapLookup "method" body = some f)
    (hx : DataToString f = some x)
    (hr : m.responses.filter (fun kd => HTTPBodyFromData kd.2) = [(kr, dr)])
    (hc : responseCode dr = some c) (hc0 : c ≠ 0)
    (hfree : ∀ key, carriesStringParam "api_key" m.args key →
      mapLookup (hash (CreateAuthHeader obfuscate key)) m.args = none) :
    (Transform hash obfuscate m).2 = none ∧
    pathTemplate (Transform hash obfuscate m).1 =
      some ("/services/awesome/" ++ x.value) := by
  obtain ⟨pre, post, hl, hpre, _, _⟩ := List.filter_eq_cons_iff.mp hb
  have hdb : isRequestBody db = true := by simp [isRequestBody, hdm, hmp]
  have hargs : (PopQueryStringParamByName m "method").1.args = pre ++ (kb, db) :: post := by
    rw [PopQS_args_of_none m "method" hnoq, hl]
  obtain ⟨hpath, hargs2, hresp⟩ :=
    extractPath_body_hit m hmeta pre post body kb db f x hm hargs
      (fun kd hkd => by simpa using hpre kd hkd) hdb hs hf hx
  have hpt : pathTemplate (Transform hash obfuscate m).1 =
      some ("/services/awesome/" ++ x.value) := by
    rw [pathTemplate_congr _ _ (Transform_mmeta hash obfuscate m hmeta hrest hm hhost)]
    exact hpath
  refine ⟨?_, hpt⟩
  obtain ⟨hr0, hcm⟩ : ∃ hr0, dr.httpMeta = some hr0 ∧ hr0.response_code = c := by
    unfold responseCode at hc
    cases hdr : dr.httpMeta with
    | none => simp [hdr] at hc
    | some hr0 => exact ⟨hr0, rfl, by simpa [hdr] using hc⟩
  have hresp0 : (FixHTTPResponseCode (Transform.extractPath m)).2 = none := by
    apply FixResp_no_error
    rw [hresp, (foldl_step_single_body m.responses kr dr hr0 hr hcm.1 _).1, hcm.2]
    split
    · decide
    · exact hc0
  have hauth : (FixHTTPAuthorization hash obfuscate
      (FixHTTPResponseCode (Transform.extractPath m)).1).2 = none := by
    apply FixAuth_no_error
    rw [FixResp_args, hargs2]
    intro key hkey
    have h1 := carriesStringParam_of_setFields "api_key" "method" pre post kb db body hs
      (by decide) key hkey
    rw [← hl] at h1
    refine mapLookup_none_of_keys _ m.args _ ?_ (hfree key h1)
    rw [hl]
    exact keys_of_setFields pre post kb db _
  rw [Transform_gates hash obfuscate m hmeta hrest hm hhost]
  simp only [hresp0, hauth]

/-- C3 at the test's witness: a multipart part `method=my_method` gives the path
`/services/awesome/my_method` without error. -/
theorem C3_multipart_method_becomes_path_witness :
    (Transform sampleHash sampleObfuscate sampleMultipartOnly).2 = none ∧
    pathTemplate (Transform sampleHash sampleObfuscate sampleMultipartOnly).1 =
      some ("/services/awesome/" ++ "my_method") :=
  C3_multipart_method_becomes_path sampleHash sampleObfuscate sampleMultipartOnly
    { method := "GET", path_template := "/services/rest", host := "api.flickr.com" }
    "b" "r"
    (sampleMultipart [("method", sampleField "my_method"), ("photo", sampleField "raw")])
    (sampleBody [] 200) (sampleField "my_method")
    { location := .multipart "form-data", response_code := 0 }
    [("method", sampleField "my_method"), ("photo", sampleField "raw")]
    { type := 0, value := "my_method" } 200
    (by decide) rfl (by decide) (by decide) rfl rfl rfl rfl rfl rfl rfl rfl (by decide)
    (by
      intro key hkey
      rcases hkey with ⟨kd, hkd, hq, _⟩ | ⟨kd, hkd, hv⟩
      · simp only [sampleMultipartOnly, sampleMethod, List.mem_singleton] at hkd
        subst hkd
        exact absurd hq (by decide)
      · simp only [sampleMultipartOnly, sampleMethod, List.mem_singleton] at hkd
        subst hkd
        exact absurd (show (none : Option PbString) = some key from hv) (by simp))

/-- C4 is broken by the code at a witness with two response bodies: when the body with
`stat = fail` is enumerated before another body observed with code 200, the override is
triggered but `FixHTTPResponseCode` writes 200, not 400, into every fragment; enumerated the
other way round the same fragments all get 400. -/
theorem C4_fail_body_then_other_body_keeps_200 :
    (∃ kd ∈ sampleFailThenOk.responses, isFailBody kd.2 = true) ∧
    (FixHTTPResponseCode sampleFailThenOk).2 = none ∧
    (FixHTTPResponseCode sampleFailThenOk).1.responses.map (fun kd => responseCode kd.2) =
      [some 200, some 200, some 200] ∧
    (FixHTTPResponseCode sampleOkThenFail).1.responses.map (fun kd => responseCode kd.2) =
      [some 400, some 400, some 400] :=
  ⟨⟨("a", sampleBody [("stat", sampleField "fail")] 200), by simp [sampleFailThenOk, sampleMethod],
    by decide⟩, by decide, by decide, by decide⟩

/-- C5 fails as stated: every response fragment reports code 0, but the response body says
`stat = fail`, so the effective code is 400 and `Transform` returns no error. -/
theorem C5_counterexample :
    sampleZeroFail.GetApiType = .HTTP_REST ∧
    (∃ hmeta, HTTPMetaFromMethod sampleZeroFail = some hmeta ∧
      stringsContains hmeta.host "api.flickr.com" = true) ∧
    (∀ kd ∈ sampleZeroFail.responses, responseCode kd.2 = some 0) ∧
    (Transform sampleHash sampleObfuscate sampleZeroFail).2 = none :=
  ⟨by decide, ⟨_, rfl, by decide⟩, by decide, by decide⟩

/-- C5 (amended): for a witness that passes both gates of `Transform`, in which every
response fragment with HTTP metadata reports response code 0 and no response fragment is an
HTTP body struct whose field `stat` holds `fail`, `Transform` returns the zero-status
error. -/
theorem C5_zero_status_fails (hash : Data → String) (obfuscate : String → Primitive)
    (m : Method) (hmeta : HTTPMethodMeta)
    (hrest : m.GetApiType = .HTTP_REST)
    (hm : HTTPMetaFromMethod m = some hmeta)
    (hhost : stringsContains hmeta.host "api.flickr.com" = true)
    (hcodes : ∀ kd ∈ m.responses, ∀ c, responseCode kd.2 = some c → c = 0)
    (hfail : ∀ kd ∈ m.responses, isFailBody kd.2 = false) :
    (Transform hash obfuscate m).2 = some zeroStatusError := by
  have hz : ((Transform.extractPath m).responses.foldl FixHTTPResponseCode.step
      { replaceCodes := false, respCode := 0, maxCode := 0 }).respCode = 0 := by
    rw [extractPath_responses]
    exact foldl_step_zero _ m.responses hcodes hfail rfl
  have hfix : (FixHTTPResponseCode (Transform.extractPath m)).2 = some zeroStatusError := by
    unfold FixHTTPResponseCode
    simp only [hz, if_true]
    rfl
  rw [Transform_gates hash obfuscate m hmeta hrest hm hhost]
  simp only [hfix]

/-- C5 at a concrete capture whose fragments all report code 0. -/
theorem C5_zero_status_fails_witness :
    (Transform sampleHash sampleObfuscate sampleZero).2 = some zeroStatusError :=
  C5_zero_status_fails sampleHash sampleObfuscate sampleZero
    { method := "GET", path_template := "/services/rest", host := "api.flickr.com" }
    (by decide) rfl (by decide) (by decide) (by decide)

/-- C6: whenever `FixHTTPResponseCode` returns an error it leaves the witness exactly as it
received it; and whenever `Transform` fails with the zero-status error, the witness it leaves
equals the input after path extraction alone: Responses are those of the input, every Args
entry is an input entry or an input struct with its field `method` deleted (no auth entry
inserted, nothing format-tagged), and (map keys being distinct) every `api_key` query
parameter of the input is still there. -/
theorem C6_zero_status_atomic (hash : Data → String) (obfuscate : String → Primitive)
    (m : Method) :
    ((FixHTTPResponseCode m).2 ≠ none → (FixHTTPResponseCode m).1 = m) ∧
    ((Transform hash obfuscate m).2 = some zeroStatusError →
      (Transform hash obfuscate m).1 = Transform.extractPath m ∧
      (Transform hash obfuscate m).1.responses = m.responses ∧
      (∀ kd ∈ (Transform hash obfuscate m).1.args,
        kd ∈ m.args ∨ ∃ d body, (kd.1, d) ∈ m.args ∧ d.GetStruct = some body ∧
          kd.2 = d.setFields (mapDelete body "method")) ∧
      ((m.args.map Prod.fst).Nodup →
        ∀ kd ∈ m.args, isQueryParam "api_key" kd.2 = true →
          kd ∈ (Transform hash obfuscate m).1.args)) := by
  constructor
  · intro h
    rcases FixResp_error m with h0 | ⟨_, h1⟩
    · exact absurd h0 h
    · exact h1
  · intro h
    have heq : (Transform hash obfuscate m).1 = Transform.extractPath m := by
      by_cases hrest : m.GetApiType = .HTTP_REST
      · cases hm : HTTPMetaFromMethod m with
        | none => simp [Transform, hrest, hm] at h
        | some hmeta =>
          by_cases hhost : IsFlickrAPICall hmeta = true
          · rw [Transform_gates hash obfuscate m hmeta hrest hm hhost] at h ⊢
            rcases FixResp_error (Transform.extractPath m) with h0 | ⟨h0, h1⟩
            · simp only [h0] at h ⊢
              rcases FixAuth_error hash obfuscate
                (FixHTTPResponseCode (Transform.extractPath m)).1 with h2 | h2
              · simp [h2] at h
              · simp only [h2, Option.some.injEq] at h
                exact absurd h (by decide)
            · simp only [h0]
              exact h1
          · simp only [Transform, hrest, hm, hhost, ne_eq, not_true_eq_false, if_false,
              Bool.not_false, if_true, Option.some.injEq, Bool.not_eq_true] at h
            exact absurd h (notFlickr_ne_zeroStatus hmeta.host)
      · simp [Transform, hrest] at h
    rw [heq]
    exact ⟨rfl, extractPath_responses m, extractPath_args_mem m,
      fun hkeys => extractPath_keeps_query m "api_key" (by decide) hkeys⟩

/-- C6 at a concrete capture whose fragments all report code 0: nothing but the `method`
parameter is gone. -/
theorem C6_zero_status_atomic_witness :
    (FixHTTPResponseCode sampleZero).1 = sampleZero ∧
    (Transform sampleHash sampleObfuscate sampleZero).1 = Transform.extractPath sampleZero ∧
    (Transform sampleHash sampleObfuscate sampleZero).1.args =
      [("k", sampleQuery "api_key" "secret"), ("u", sampleQuery "user_id" "12345678@N01")] :=
  ⟨(C6_zero_status_atomic sampleHash sampleObfuscate sampleZero).1 (by decide),
    ((C6_zero_status_atomic sampleHash sampleObfuscate sampleZero).2 (by decide)).1, rfl⟩

/-- C7: for a witness (map keys distinct) whose Args hold exactly one query-string parameter
`api_key`, with string value K, no request-body field `api_key`, and no entry under the key
h = hash (CreateAuthHeader K), `FixHTTPAuthorization` returns no error and the resulting Args
are the original Args without the `api_key` query entry, followed by exactly one new entry at
key h: a primitive holding the obfuscated form of K, located in Auth with type BEARER. Every
other entry is unchanged, and so are Responses. -/
theorem C7_query_api_key_relocated (hash : Data → String) (obfuscate : String → Primitive)
    (m : Method) (kq : String) (dq : Data) (K : PbString)
    (hkeys : (m.args.map Prod.fst).Nodup)
    (hq : m.args.filter (fun kd => isQueryParam "api_key" kd.2) = [(kq, dq)])
    (hK : DataToString dq = some K)
    (hbody : ∀ kd ∈ m.args, hasBodyField "api_key" kd.2 = false)
    (hfree : mapLookup (hash (CreateAuthHeader obfuscate K)) m.args = none) :
    (FixHTTPAuthorization hash obfuscate m).2 = none ∧
    (FixHTTPAuthorization hash obfuscate m).1.args =
      m.args.filter (fun kd => !isQueryParam "api_key" kd.2) ++
        [(hash (CreateAuthHeader obfuscate K), CreateAuthHeader obfuscate K)] ∧
    CreateAuthHeader obfuscate K =
      .primitive (obfuscate K.value)
        (some (.http { location := .auth .BEARER, response_code := 0 })) ∧
    (FixHTTPAuthorization hash obfuscate m).1.responses = m.responses := by
  obtain ⟨hres, hargs⟩ := PopQS_single m "api_key" kq dq K hkeys hq hK
  have hscan : PopBodyElementByName.scan "api_key"
      (PopQueryStringParamByName m "api_key").1.args =
      ((PopQueryStringParamByName m "api_key").1.args, none) :=
    PopBody_scan_noop _ _ (fun kd hkd =>
      hasBodyStringField_of_hasBodyField _ _ (hbody kd (PopQS_mem m _ kd hkd)))
  have hpop : FixHTTPAuthorization.popApiKey m =
      ({ (PopQueryStringParamByName m "api_key").1 with
          args := m.args.filter (fun kd => !isQueryParam "api_key" kd.2) }, some K) := by
    rw [hargs] at hscan
    unfold FixHTTPAuthorization.popApiKey
    simp only [PopBodyElementByName, hres, hargs, hscan]
  have hnone : mapLookup (hash (CreateAuthHeader obfuscate K))
      (m.args.filter (fun kd => !isQueryParam "api_key" kd.2)) = none :=
    mapLookup_none_of_keys _ m.args _
      (fun kv hkv => ⟨kv, (List.mem_filter.mp hkv).1, rfl⟩) hfree
  unfold FixHTTPAuthorization
  simp only [hpop, hnone, mapSet_of_lookup_none _ _ _ hnone]
  refine ⟨trivial, trivial, rfl, rfl⟩

/-- C7 at a concrete witness: the `api_key` query entry is replaced by one bearer entry. -/
theorem C7_query_api_key_relocated_witness :
    (FixHTTPAuthorization sampleHash sampleObfuscate sampleApiKeyQuery).2 = none ∧
    (FixHTTPAuthorization sampleHash sampleObfuscate sampleApiKeyQuery).1.args =
      [("u", sampleQuery "user_id" "12345678@N01"),
        ("b", sampleBody [("title", sampleField "hello")] 0),
        ("auth-key", .primitive (sampleString "REDACTED")
          (some (.http { location := .auth .BEARER, response_code := 0 })))] :=
  ⟨(C7_query_api_key_relocated sampleHash sampleObfuscate sampleApiKeyQuery "k"
      (sampleQuery "api_key" "secret") { type := 0, value := "secret" }
      (by decide) rfl rfl (by decide) rfl).1,
    (C7_query_api_key_relocated sampleHash sampleObfuscate sampleApiKeyQuery "k"
      (sampleQuery "api_key" "secret") { type := 0, value := "secret" }
      (by decide) rfl rfl (by decide) rfl).2.1⟩

/-- C8: when an api key is found and the key computed for the synthesized auth node is
already a key of Args once the `api_key` occurrences have been removed,
`FixHTTPAuthorization` returns the collision error, the entry stored under that key is the
one that was there, Args are exactly the Args left by the removal (nothing is added), and
every key of the result is a key of the input. -/
theorem C8_collision_is_an_error (hash : Data → String) (obfuscate : String → Primitive)
    (m : Method) (key : PbString) (d : Data)
    (hfound : (FixHTTPAuthorization.popApiKey m).2 = some key)
    (hcoll : mapLookup (hash (CreateAuthHeader obfuscate key))
      (FixHTTPAuthorization.popApiKey m).1.args = some d) :
    (FixHTTPAuthorization hash obfuscate m).2 = some collisionError ∧
    mapLookup (hash (CreateAuthHeader obfuscate key))
      (FixHTTPAuthorization hash obfuscate m).1.args = some d ∧
    (FixHTTPAuthorization hash obfuscate m).1.args =
      (FixHTTPAuthorization.popApiKey m).1.args ∧
    (∀ kv ∈ (FixHTTPAuthorization hash obfuscate m).1.args, ∃ kv1 ∈ m.args, kv1.1 = kv.1) := by
  have hfix : FixHTTPAuthorization hash obfuscate m =
      ((FixHTTPAuthorization.popApiKey m).1, some collisionError) := by
    unfold FixHTTPAuthorization
    simp only [hfound, hcoll]
    rfl
  rw [hfix]
  exact ⟨rfl, hcoll, rfl, popApiKey_keys m⟩

/-- C8 at a concrete witness: the entry under `auth-key` survives and nothing is added. -/
theorem C8_collision_is_an_error_witness :
    (FixHTTPAuthorization sampleHash sampleObfuscate sampleApiKeyCollision).2 =
      some collisionError ∧
    (FixHTTPAuthorization sampleHash sampleObfuscate sampleApiKeyCollision).1.args =
      [("auth-key", sampleHeader "X-Trace" "abc" 0)] :=
  ⟨(C8_collision_is_an_error sampleHash sampleObfuscate sampleApiKeyCollision
      { type := 0, value := "secret" } (sampleHeader "X-Trace" "abc" 0) rfl rfl).1,
    (C8_collision_is_an_error sampleHash sampleObfuscate sampleApiKeyCollision
      { type := 0, value := "secret" } (sampleHeader "X-Trace" "abc" 0) rfl rfl).2.2.1⟩

/-- C9: for every witness and every string primitive reached from an entry of Args or of
Responses at any depth through Struct fields, List elements, present Optional values and
Oneof options, `DetectNSIDs` leaves a primitive with the same value and metadata at the same
place; if the string has the NSID shape (digits, `@N`, digits, nothing else) its FormatKind
is `flickr_data` and its Formats map has `flickr_nsid` = true, and if it does not have that
shape the primitive is exactly what it was before. `12345678@N01` has the shape; `hello@Nx`,
`abc@N12`, the empty string and `1@N` do not. -/
theorem C9_nsid_strings_are_tagged (m : Method) (inResponses : Bool) (i : Nat)
    (path : List Nat) (prim : Primitive) (dm : Option DataMeta) (s : PbString)
    (hreach : m.reach inResponses i path = some (.primitive prim dm))
    (hs : prim.GetStringValue = some s) :
    (∃ tagged, (DetectNSIDs m).reach inResponses i path = some (.primitive tagged dm) ∧
      tagged.value = prim.value ∧
      (IsNSIDShape s.value →
        tagged.format_kind = "flickr_data" ∧
        mapLookup "flickr_nsid" tagged.formats = some true) ∧
      (¬ IsNSIDShape s.value →
        tagged.format_kind = prim.format_kind ∧ tagged.formats = prim.formats ∧
        tagged = prim)) ∧
    IsNSIDShape "12345678@N01" ∧ ¬ IsNSIDShape "hello@Nx" ∧ ¬ IsNSIDShape "abc@N12" ∧
    ¬ IsNSIDShape "" ∧ ¬ IsNSIDShape "1@N" := by
  refine ⟨⟨detectNSIDsPrimitive prim, ?_, ?_, ?_, ?_⟩, ?_, ?_, ?_, ?_, ?_⟩
  · rw [DetectNSIDs_reach, hreach]
    rfl
  · unfold detectNSIDsPrimitive
    simp only [hs]
    split <;> rfl
  · intro hshape
    have hmatch := (nsid_re_MatchString_iff s.value).mpr hshape
    have e : detectNSIDsPrimitive prim =
        { prim with format_kind := "flickr_data",
                    formats := mapSet "flickr_nsid" true prim.formats } := by
      unfold detectNSIDsPrimitive
      simp only [hs, hmatch, if_true]
    rw [e]
    exact ⟨rfl, mapLookup_mapSet_self _ _ _⟩
  · intro hshape
    have hmatch : ¬ nsid_re_MatchString s.value = true :=
      fun h => hshape ((nsid_re_MatchString_iff s.value).mp h)
    have e : detectNSIDsPrimitive prim = prim := by
      unfold detectNSIDsPrimitive
      simp [hs, hmatch]
    rw [e]
    exact ⟨rfl, rfl, rfl⟩
  · exact (nsid_re_MatchString_iff _).mp (by decide)
  · exact fun h => absurd ((nsid_re_MatchString_iff _).mpr h) (by decide)
  · exact fun h => absurd ((nsid_re_MatchString_iff _).mpr h) (by decide)
  · exact fun h => absurd ((nsid_re_MatchString_iff _).mpr h) (by decide)
  · exact fun h => absurd ((nsid_re_MatchString_iff _).mpr h) (by decide)

/-- C9 at a concrete witness: the string `7@N2` sits in Args below a struct field and a
present optional, and already carries other format annotations. -/
theorem C9_nsid_strings_are_tagged_witness :
    ∃ tagged, (DetectNSIDs sampleNested).reach false 1 [0, 0] = some (.primitive tagged none) ∧
      tagged.value = (sampleTagged "7@N2").value ∧
      (IsNSIDShape "7@N2" →
        tagged.format_kind = "flickr_data" ∧
        mapLookup "flickr_nsid" tagged.formats = some true) ∧
      (¬ IsNSIDShape "7@N2" →
        tagged.format_kind = (sampleTagged "7@N2").format_kind ∧
        tagged.formats = (sampleTagged "7@N2").formats ∧
        tagged = sampleTagged "7@N2") :=
  (C9_nsid_strings_are_tagged sampleNested false 1 [0, 0] (sampleTagged "7@N2") none
    { type := 0, value := "7@N2" } rfl rfl).1

/-- C10: format tagging is idempotent: for every witness, `DetectNSIDs` applied twice yields
exactly the witness that `DetectNSIDs` applied once yields. -/
theorem C10_detect_idempotent (m : Method) : DetectNSIDs (DetectNSIDs m) = DetectNSIDs m := by
  unfold DetectNSIDs
  simp only [detect_fields_idem]

/-- C11: for a REST-over-HTTP witness with HTTP metadata whose host does not contain
`api.flickr.com`, `Transform` returns the discard error and leaves the witness identical to
the input; and `IsFlickrAPICall` is true exactly when `api.flickr.com` occurs in the host. -/
theorem C11_other_host_rejected_untouched (hash : Data → String)
    (obfuscate : String → Primitive) (m : Method) (hmeta : HTTPMethodMeta)
    (hrest : m.GetApiType = .HTTP_REST)
    (hm : HTTPMetaFromMethod m = some hmeta)
    (hhost : ¬ ∃ pre post, hmeta.host.toList = pre ++ "api.flickr.com".toList ++ post) :
    (Transform hash obfuscate m).2 =
      some ("Discarding request not to Flickr API: " ++ hmeta.host ++ "\n") ∧
    (Transform hash obfuscate m).1 = m ∧
    (∀ h : HTTPMethodMeta, IsFlickrAPICall h = true ↔
      ∃ pre post, h.host.toList = pre ++ "api.flickr.com".toList ++ post) := by
  have hcall : IsFlickrAPICall hmeta = false := by
    cases hc : IsFlickrAPICall hmeta with
    | false => rfl
    | true => exact absurd ((stringsContains_iff _ _).mp hc) hhost
  refine ⟨?_, ?_, fun h => stringsContains_iff _ _⟩
  · simp [Transform, hrest, hm, hcall]
  · simp [Transform, hrest, hm, hcall]

/-- C11 at a concrete witness addressed to `api.example.com`. -/
theorem C11_other_host_rejected_untouched_witness :
    (Transform sampleHash sampleObfuscate sampleOtherHost).2 =
      some ("Discarding request not to Flickr API: " ++ "api.example.com" ++ "\n") ∧
    (Transform sampleHash sampleObfuscate sampleOtherHost).1 = sampleOtherHost :=
  ⟨(C11_other_host_rejected_untouched sampleHash sampleObfuscate sampleOtherHost
      { method := "GET", path_template := "/v1/items", host := "api.example.com" }
      (by decide) rfl
      (fun h => absurd ((stringsContains_iff "api.example.com" "api.flickr.com").mpr h)
        (by decide))).1,
    (C11_other_host_rejected_untouched sampleHash sampleObfuscate sampleOtherHost
      { method := "GET", path_template := "/v1/items", host := "api.example.com" }
      (by decide) rfl
      (fun h => absurd ((stringsContains_iff "api.example.com" "api.flickr.com").mpr h)
        (by decide))).2.1⟩

/-- C12 fails as stated: a witness declared REST-over-HTTP without method metadata makes
`Transform` return success, not the discard error. -/
theorem C12_counterexample :
    sampleNoMeta.GetApiType = .HTTP_REST ∧
    HTTPMetaFromMethod sampleNoMeta = none ∧
    (Transform sampleHash sampleObfuscate sampleNoMeta).2 = none :=
  ⟨by decide, rfl, by decide⟩

/-- C12 (amended): for a witness declared REST-over-HTTP from which no HTTP metadata can be
extracted, `Transform` returns success and leaves the witness unchanged. -/
theorem C12_no_metadata_is_skipped (hash : Data → String) (obfuscate : String → Primitive)
    (m : Method) (hrest : m.GetApiType = .HTTP_REST) (hm : HTTPMetaFromMethod m = none) :
    Transform hash obfuscate m = (m, none) := by
  simp [Transform, hrest, hm]

/-- C12 at a concrete witness without method metadata. -/
theorem C12_no_metadata_is_skipped_witness :
    Transform sampleHash sampleObfuscate sampleNoMeta = (sampleNoMeta, none) :=
  C12_no_metadata_is_skipped sampleHash sampleObfuscate sampleNoMeta (by decide) rfl

/-- C13 fails as stated: when a plain body struct with a string field `method` is enumerated
before the multipart fragment, `PopBodyElementByName` returns the plain body's value and
removes that field, instead of what `PopMultipartElementByName` returns on the multipart
struct. -/
theorem C13_counterexample :
    isMultipartFragment (sampleMultipart [("method", sampleField "X")]) = true ∧
    HTTPBodyFromData (sampleBody [("method", sampleField "Y")] 0) = true ∧
    (PopMultipartElementByName
      (sampleMultipart [("method", sampleField "X")]).GetStruct "method").2 =
      some { type := 0, value := "X" } ∧
    (PopBodyElementByName sampleBodyThenMultipart "method").2 =
      some { type := 0, value := "Y" } ∧
    (PopBodyElementByName sampleBodyThenMultipart "method").1.args =
      [("b", sampleBody [] 0), ("m", sampleMultipart [("method", sampleField "X")])] :=
  ⟨rfl, rfl, rfl, rfl, rfl⟩

/-- C13 (amended): for a witness whose Args hold a multipart fragment and a plain
request-body struct fragment, for every name, and for every enumeration of Args in which no
fragment met before the first multipart fragment is a request-body struct with a string field
`name`, `PopBodyElementByName` returns exactly what `PopMultipartElementByName` returns on
the multipart fragment's struct, only the multipart fragment is touched, and every plain body
fragment is left unchanged (even when it has a string field `name`). -/
theorem C13_multipart_first_wins (m : Method) (name : String)
    (pre post : List (String × Data)) (km : String) (dm : Data)
    (hargs : m.args = pre ++ (km, dm) :: post)
    (hdm : isMultipartFragment dm = true)
    (hpre : ∀ kd ∈ pre, isMultipartFragment kd.2 = false ∧ hasBodyStringField name kd.2 = false) :
    (PopBodyElementByName m name).2 = (PopMultipartElementByName dm.GetStruct name).2 ∧
    (PopBodyElementByName m name).1.args = pre ++ (km, afterPopMultipart dm name) :: post ∧
    (∀ kd ∈ m.args, HTTPBodyFromData kd.2 = true → kd ∈ (PopBodyElementByName m name).1.args) := by
  have hscan : PopBodyElementByName.scan name m.args =
      (pre ++ (km, afterPopMultipart dm name) :: post,
        (PopMultipartElementByName dm.GetStruct name).2) := by
    rw [hargs, scan_pre_skip name pre _ hpre, scan_cons_multipart name km dm post hdm]
  refine ⟨?_, ?_, ?_⟩
  · simp [PopBodyElementByName, hscan]
  · simp [PopBodyElementByName, hscan]
  · intro kd hkd hbody
    simp only [PopBodyElementByName, hscan]
    rw [hargs] at hkd
    simp only [List.mem_append, List.mem_cons] at hkd ⊢
    rcases hkd with h | h | h
    · exact Or.inl h
    · subst h
      exfalso
      simp only [isMultipartFragment, HTTPBodyFromData] at hdm hbody
      cases hmeta : dm.httpMeta with
      | none => simp [hmeta] at hdm
      | some h0 =>
        simp only [hmeta, HTTPMeta.isMultipart] at hdm hbody
        cases hl : h0.location <;> simp [hl] at hdm hbody
    · exact Or.inr (Or.inr h)

/-- C13 at a concrete witness: the multipart struct is enumerated first and the plain body
with `method = Y` stays as it was. -/
theorem C13_multipart_first_wins_witness :
    (PopBodyElementByName sampleMultipartThenBody "method").2 =
      (PopMultipartElementByName
        (sampleMultipart [("method", sampleField "X")]).GetStruct "method").2 ∧
    (PopBodyElementByName sampleMultipartThenBody "method").1.args =
      [] ++ ("m", afterPopMultipart (sampleMultipart [("method", sampleField "X")]) "method") ::
        [("b", sampleBody [("method", sampleField "Y")] 0)] :=
  ⟨(C13_multipart_first_wins sampleMultipartThenBody "method" []
      [("b", sampleBody [("method", sampleField "Y")] 0)] "m"
      (sampleMultipart [("method", sampleField "X")]) rfl rfl (by simp)).1,
    (C13_multipart_first_wins sampleMultipartThenBody "method" []
      [("b", sampleBody [("method", sampleField "Y")] 0)] "m"
      (sampleMultipart [("method", sampleField "X")]) rfl rfl (by simp)).2.1⟩

/-- C14: for every witness (map keys distinct) and name, after `PopQueryStringParamByName`
Args are exactly the original Args without the query-string parameters whose declared key is
`name` (string-valued or not; every other entry stays, unchanged, under its key, and nothing
else of the witness changes); the result is the string of the first string-valued matching
entry in scan order, and it is nil exactly when no matching entry holds a string. -/
theorem C14_query_pop (m : Method) (name : String) (hkeys : (m.args.map Prod.fst).Nodup) :
    (PopQueryStringParamByName m name).1 =
      { m with args := m.args.filter (fun kd => !isQueryParam name kd.2) } ∧
    (PopQueryStringParamByName m name).2 =
      (m.args.filter (fun kd => isQueryParam name kd.2)).findSome?
        (fun kd => DataToString kd.2) ∧
    ((PopQueryStringParamByName m name).2 = none ↔
      ∀ kd ∈ m.args, isQueryParam name kd.2 = true → DataToString kd.2 = none) := by
  have hargs := PopQS_args_nodup m name hkeys
  have hres := PopQS_result m name
  refine ⟨?_, hres, ?_⟩
  · have : (PopQueryStringParamByName m name).1 =
        { m with args := (PopQueryStringParamByName m name).1.args } := rfl
    rw [this, hargs]
  · rw [hres, List.findSome?_eq_none_iff]
    constructor
    · intro h kd hkd hq
      exact h kd (List.mem_filter.mpr ⟨hkd, hq⟩)
    · intro h kd hkd
      exact h kd (List.mem_filter.mp hkd).1 (List.mem_filter.mp hkd).2

/-- C14 at a concrete witness: three parameters `tags`, the first one a number; all three are
removed, the first string is returned, the body field `tags` stays. -/
theorem C14_query_pop_witness :
    (PopQueryStringParamByName sampleRepeatedQuery "tags").1.args =
      [("u", sampleQuery "user_id" "12345678@N01"),
        ("d", sampleBody [("tags", sampleField "body")] 0)] ∧
    (PopQueryStringParamByName sampleRepeatedQuery "tags").2 =
      some { type := 0, value := "first" } :=
  ⟨congrArg Method.args (C14_query_pop sampleRepeatedQuery "tags" (by decide)).1,
    (C14_query_pop sampleRepeatedQuery "tags" (by decide)).2.1⟩

/-- C15: for a witness whose only request-body fragment is a plain (non-multipart) struct
with fields `body`: if the struct has a field `name` holding the string v,
`PopBodyElementByName` returns v and the witness it leaves differs from the input only in
that this fragment is now the struct whose fields are those of `body` other than `name`
(same metadata, same key; a lookup of `name` in it finds nothing, every other field is as
before, and every other Args entry is as before); if the struct has no field `name`, it
returns nil and the witness is unchanged. -/
theorem C15_plain_body_pop (m : Method) (name kb : String) (body : List (String × Data))
    (dm : Option DataMeta)
    (hb : m.args.filter (fun kd => isRequestBody kd.2) = [(kb, .struct body dm)])
    (_hplain : HTTPBodyFromData (.struct body dm) = true) :
    (∀ f v, mapLookup name body = some f → DataToString f = some v →
      ∃ pre post, m.args = pre ++ (kb, .struct body dm) :: post ∧
        (PopBodyElementByName m name).2 = some v ∧
        (PopBodyElementByName m name).1.args =
          pre ++ (kb, .struct (body.filter (fun kv => decide (kv.1 ≠ name))) dm) :: post ∧
        (PopBodyElementByName m name).1.id = m.id ∧
        (PopBodyElementByName m name).1.responses = m.responses ∧
        (PopBodyElementByName m name).1.mmeta = m.mmeta ∧
        mapLookup name (body.filter (fun kv => decide (kv.1 ≠ name))) = none ∧
        ∀ k, k ≠ name →
          mapLookup k (body.filter (fun kv => decide (kv.1 ≠ name))) = mapLookup k body) ∧
    (mapLookup name body = none → PopBodyElementByName m name = (m, none)) := by
  obtain ⟨pre, post, hl, hpre, hdb, hpost⟩ := List.filter_eq_cons_iff.mp hb
  have hpre1 : ∀ kd ∈ pre, isRequestBody kd.2 = false := fun kd hkd => by simpa using hpre kd hkd
  have hpost1 : ∀ kd ∈ post, isRequestBody kd.2 = false :=
    fun kd hkd => by simpa using List.filter_eq_nil_iff.mp hpost kd hkd
  constructor
  · intro f v hf hv
    have hscan : PopBodyElementByName.scan name m.args =
        (pre ++ (kb, .struct (body.filter (fun kv => decide (kv.1 ≠ name))) dm) :: post,
          some v) := by
      rw [hl]
      exact scan_at name pre post body kb (.struct body dm) f v hpre1 hdb rfl hf hv
    refine ⟨pre, post, hl, ?_, ?_, rfl, rfl, rfl, mapLookup_mapDelete_self name body,
      fun k hk => mapLookup_mapDelete_ne k name body hk⟩
    · unfold PopBodyElementByName
      simp only [hscan]
    · unfold PopBodyElementByName
      simp only [hscan]
  · intro hnone
    have hnoop : PopBodyElementByName.scan name m.args = (m.args, none) := by
      apply PopBody_scan_noop
      intro kd hkd
      rw [hl] at hkd
      simp only [List.mem_append, List.mem_cons] at hkd
      rcases hkd with h | h | h
      · simp [hasBodyStringField, hpre1 kd h]
      · subst h
        simp [hasBodyStringField, Data.GetStruct, hnone]
      · simp [hasBodyStringField, hpost1 kd h]
    unfold PopBodyElementByName
    simp only [hnoop]

/-- C15 at a concrete witness: the field `title` is popped from the only body struct, which
is left with the field `lang` alone, and a lookup of the absent field `method` changes
nothing. -/
theorem C15_plain_body_pop_witness :
    (PopBodyElementByName sampleBodyTwoFields "title").2 = some { type := 0, value := "hello" } ∧
    (PopBodyElementByName sampleBodyTwoFields "title").1.args =
      [("u", sampleQuery "user_id" "12345678@N01"),
        ("b", sampleBody [("lang", sampleField "en")] 0)] ∧
    PopBodyElementByName sampleBodyTwoFields "method" = (sampleBodyTwoFields, none) :=
  ⟨(C15_plain_body_pop sampleBodyTwoFields "title" "b"
      [("title", sampleField "hello"), ("lang", sampleField "en")]
      (some (.http { location := .body 0 "", response_code := 0 })) rfl rfl).1
      (sampleField "hello") { type := 0, value := "hello" } rfl rfl
      |>.elim (fun _ h => h.elim (fun _ h2 => h2.2.1)),
    rfl,
    (C15_plain_body_pop sampleBodyTwoFields "method" "b"
      [("title", sampleField "hello"), ("lang", sampleField "en")]
      (some (.http { location := .body 0 "", response_code := 0 })) rfl rfl).2 rfl⟩

/-- C16 fails as stated, in three ways. With two plain body structs that both have a field
`api_key`, `PopBodyElementByName` stops at the first hit and the other struct keeps its
field. With a field `api_key` that holds a number, nothing is removed. With a multipart
fragment enumerated before the body struct, the search ends at the multipart fragment and the
body struct keeps its field. -/
theorem C16_counterexample :
    ((PopBodyElementByName sampleTwoBodies "api_key").2 = some { type := 0, value := "k1" } ∧
      (PopBodyElementByName sampleTwoBodies "api_key").1.args.any
        (fun kd => hasBodyField "api_key" kd.2) = true) ∧
    ((PopBodyElementByName sampleBodyNumberField "api_key").2 = none ∧
      (PopBodyElementByName sampleBodyNumberField "api_key").1.args.any
        (fun kd => hasBodyField "api_key" kd.2) = true) ∧
    ((PopBodyElementByName sampleBareMultipartThenBody "api_key").2 = none ∧
      (PopBodyElementByName sampleBareMultipartThenBody "api_key").1.args.any
        (fun kd => hasBodyField "api_key" kd.2) = true) :=
  ⟨⟨rfl, by decide⟩, ⟨rfl, by decide⟩, ⟨rfl, by decide⟩⟩

/-- C16 (amended): for every witness and name such that at most one fragment of Args is a
multipart fragment or a request-body struct with a field `name`, and such that a field `name`
of a request-body struct, when present, holds a string: after `PopBodyElementByName` no
request-body struct fragment in Args (plain or multipart) still has a field named `name`. -/
theorem C16_single_body_field_removed (m : Method) (name : String)
    (hlen : (m.args.filter
      (fun kd => isMultipartFragment kd.2 || hasBodyField name kd.2)).length ≤ 1)
    (hstr : ∀ kd ∈ m.args, hasBodyField name kd.2 = true → hasBodyStringField name kd.2 = true) :
    ∀ kd ∈ (PopBodyElementByName m name).1.args, hasBodyField name kd.2 = false := by
  have hclean : ∀ kd ∈ m.args, hasBodyStringField name kd.2 = false →
      hasBodyField name kd.2 = false := by
    intro kd hkd hfalse
    cases hbf : hasBodyField name kd.2 with
    | false => rfl
    | true => rw [hstr kd hkd hbf] at hfalse; cases hfalse
  have hstring : ∀ d : Data, hasBodyField name d = false → hasBodyStringField name d = false :=
    fun d h => hasBodyStringField_of_hasBodyField name d h
  unfold PopBodyElementByName
  simp only
  cases hf : m.args.filter (fun kd => isMultipartFragment kd.2 || hasBodyField name kd.2) with
  | nil =>
    have hall : ∀ kd ∈ m.args, hasBodyField name kd.2 = false := by
      intro kd hkd
      have := List.filter_eq_nil_iff.mp hf kd hkd
      simp only [Bool.or_eq_true, not_or, Bool.not_eq_true] at this
      exact this.2
    rw [PopBody_scan_noop name m.args (fun kd hkd => hstring kd.2 (hall kd hkd))]
    exact hall
  | cons x rest =>
    cases rest with
    | cons y rest2 => rw [hf] at hlen; simp at hlen
    | nil =>
      obtain ⟨pre, post, hargs, hpre, _, hpost⟩ := List.filter_eq_cons_iff.mp hf
      obtain ⟨k, d⟩ := x
      have hpre1 : ∀ kd ∈ pre, isMultipartFragment kd.2 = false ∧ hasBodyField name kd.2 = false := by
        intro kd hkd
        have := hpre kd hkd
        simp only [Bool.or_eq_true, not_or, Bool.not_eq_true] at this
        exact this
      have hpost1 : ∀ kd ∈ post, hasBodyField name kd.2 = false := by
        intro kd hkd
        have := List.filter_eq_nil_iff.mp hpost kd hkd
        simp only [Bool.or_eq_true, not_or, Bool.not_eq_true] at this
        exact this.2
      have hmem : (k, d) ∈ m.args := by rw [hargs]; simp
      rw [hargs, scan_pre_skip name pre _
        (fun kd hkd => ⟨(hpre1 kd hkd).1, hstring kd.2 (hpre1 kd hkd).2⟩)]
      cases hsf : hasBodyStringField name d with
      | true =>
        obtain ⟨hb0, body, f, y, hs, hl, hy⟩ := hasBodyStringField_true name d hsf
        rw [scan_cons_hit name k d post body f y hb0 hs hl hy]
        intro kd hkd
        simp only [List.mem_append, List.mem_cons] at hkd
        rcases hkd with h | h | h
        · exact (hpre1 kd h).2
        · subst h
          exact hasBodyField_setFields_mapDelete_self name d body hs
        · exact hpost1 kd h
      | false =>
        have hscan : (PopBodyElementByName.scan name ((k, d) :: post)).1 =
            (k, d) :: (if isMultipartFragment d then post
              else (PopBodyElementByName.scan name post).1) := by
          rw [scan_cons_miss name k d post hsf]
          unfold isMultipartFragment
          split <;> rfl
        rw [hscan]
        have hpostscan : ∀ kd ∈ (PopBodyElementByName.scan name post).1,
            hasBodyField name kd.2 = false := by
          rw [PopBody_scan_noop name post (fun kd hkd => hstring kd.2 (hpost1 kd hkd))]
          exact hpost1
        intro kd hkd
        simp only [List.mem_append, List.mem_cons] at hkd
        rcases hkd with h | h | h
        · exact (hpre1 kd h).2
        · subst h
          exact hclean (k, d) hmem hsf
        · split at h
          · exact hpost1 kd h
          · exact hpostscan kd h

/-- C16 at a concrete witness: a primitive body fragment next to the only body struct, which
loses its field `title`. -/
theorem C16_single_body_field_removed_witness :
    (PopBodyElementByName samplePrimitiveBodyAndStruct "title").1.args.all
      (fun kd => !hasBodyField "title" kd.2) = true ∧
    (PopBodyElementByName samplePrimitiveBodyAndStruct "title").1.args =
      [("p", .primitive (sampleString "raw")
          (some (.http { location := .body 0 "", response_code := 0 }))),
        ("b", sampleBody [("lang", sampleField "en")] 0)] :=
  ⟨List.all_eq_true.mpr (fun kd hkd => by
    rw [C16_single_body_field_removed samplePrimitiveBodyAndStruct "title" (by decide)
      (by decide) kd hkd]
    rfl), rfl⟩

/-- C17 is broken by the code at a response without a body fragment: its only fragment is a
header observed with code 200 (every code non-zero, no `stat` field), the scan tracks
`maxCode = 200` but leaves `respCode = 0`, and `FixHTTPResponseCode` returns the zero-status
error instead of tolerating the absence of a response body. -/
theorem C17_headers_only_discarded :
    (∀ kd ∈ sampleHeadersOnly.responses, responseCode kd.2 = some 200) ∧
    (∀ kd ∈ sampleHeadersOnly.responses, hasStatField kd.2 = false) ∧
    (∀ kd ∈ sampleHeadersOnly.responses, HTTPBodyFromData kd.2 = false) ∧
    sampleHeadersOnly.responses.foldl FixHTTPResponseCode.step
      { replaceCodes := false, respCode := 0, maxCode := 0 } =
      { replaceCodes := false, respCode := 0, maxCode := 200 } ∧
    (FixHTTPResponseCode sampleHeadersOnly).2 = some zeroStatusError :=
  ⟨by decide, by decide, by decide, by decide, by decide⟩

/-- C19: `DetectNSIDs` changes only the FormatKind and the `flickr_nsid` flag of string
primitives of the NSID shape. The witness's id, method metadata and the keys of Args and
Responses are as before; the node found after the call at any position is the image of the
node found there before (same tree shape); and for every node the kind of value, the
metadata, the map keys and the number of children are unchanged, a primitive keeps its value,
its type hint and every format flag other than `flickr_nsid`, and a primitive that holds no
string, or a string not of the NSID shape, is exactly what it was. -/
theorem C19_detect_frame (m : Method) :
    (DetectNSIDs m).id = m.id ∧ (DetectNSIDs m).mmeta = m.mmeta ∧
    (DetectNSIDs m).args.map Prod.fst = m.args.map Prod.fst ∧
    (DetectNSIDs m).responses.map Prod.fst = m.responses.map Prod.fst ∧
    (∀ r i path, (DetectNSIDs m).reach r i path = (m.reach r i path).map detectNSIDsData) ∧
    (∀ d : Data,
      (detectNSIDsData d).kind = d.kind ∧ (detectNSIDsData d).GetMeta = d.GetMeta ∧
      (detectNSIDsData d).keys = d.keys ∧
      (detectNSIDsData d).children.length = d.children.length ∧
      ∀ p, d.GetPrimitive = some p →
        ∃ tagged, (detectNSIDsData d).GetPrimitive = some tagged ∧
          tagged.value = p.value ∧ tagged.type_hint = p.type_hint ∧
          (∀ k, k ≠ "flickr_nsid" → mapLookup k tagged.formats = mapLookup k p.formats) ∧
          ((∀ s, p.GetStringValue = some s → ¬ IsNSIDShape s.value) → tagged = p)) := by
  refine ⟨rfl, rfl, detect_fields_keys _, detect_fields_keys _, DetectNSIDs_reach m, ?_⟩
  intro d
  refine ⟨detect_kind d, detect_GetMeta d, detect_keys d, ?_, ?_⟩
  · rw [detect_children, List.length_map]
  · intro p hp
    obtain ⟨h1, h2, h3, h4⟩ := detectNSIDsPrimitive_frame p
    exact ⟨detectNSIDsPrimitive p, by rw [detect_GetPrimitive, hp]; rfl, h1, h2, h3, h4⟩

/-- C19 at a concrete witness: the tagged string `7@N2` keeps its flag `email`, and the
number in Responses is exactly what it was. -/
theorem C19_detect_frame_witness :
    (∃ tagged, (detectNSIDsData (.primitive (sampleTagged "7@N2") none)).GetPrimitive =
        some tagged ∧ mapLookup "email" tagged.formats = some true) ∧
    (∃ tagged, (detectNSIDsData (.primitive (sampleCount 3) none)).GetPrimitive = some tagged ∧
      tagged = sampleCount 3) :=
  ⟨(((C19_detect_frame sampleNested).2.2.2.2.2 (.primitive (sampleTagged "7@N2") none)).2.2.2.2
      (sampleTagged "7@N2") rfl).imp
      (fun _ h => ⟨h.1, (h.2.2.2.1 "email" (by decide)).trans rfl⟩),
    (((C19_detect_frame sampleNested).2.2.2.2.2 (.primitive (sampleCount 3) none)).2.2.2.2
      (sampleCount 3) rfl).imp
      (fun _ h => ⟨h.1, h.2.2.2.2
        (fun s hs => absurd (show (none : Option PbString) = some s from hs) (by simp))⟩)⟩

/-- C20 is broken by the code: a response body with `stat = fail` observed with code 500 is
rewritten, together with its header fragment, from 500 down to 400. -/
theorem C20_fail_500_rewritten_to_400 :
    (∃ kd ∈ sampleFail500.responses, isFailBody kd.2 = true) ∧
    sampleFail500.responses.map (fun kd => responseCode kd.2) = [some 500, some 500] ∧
    (FixHTTPResponseCode sampleFail500).2 = none ∧
    (FixHTTPResponseCode sampleFail500).1.responses.map (fun kd => responseCode kd.2) =
      [some 400, some 400] :=
  ⟨⟨("r", sampleBody [("stat", sampleField "fail")] 500),
    by simp [sampleFail500, sampleMethod], by decide⟩, by decide, by decide, by decide⟩

/-- C18 fails as stated, in two ways. With two body structs that both carry `method` and
`api_key`, the first `Transform` succeeds with the path of the first struct, and a second
`Transform` of the result moves the path template to the second struct's value and ends in
the collision error. With two response bodies, one of them `stat = fail`, the first
`Transform` succeeds and leaves the codes at 200, and a second `Transform` that enumerates
the same Responses in another order rewrites them to 400. -/
theorem C18_counterexample :
    ((Transform sampleHash sampleObfuscate sampleTwoBodies).2 = none ∧
      pathTemplate (Transform sampleHash sampleObfuscate sampleTwoBodies).1 =
        some "/services/awesome/A" ∧
      pathTemplate (Transform sampleHash sampleObfuscate
        (Transform sampleHash sampleObfuscate sampleTwoBodies).1).1 =
        some "/services/awesome/B" ∧
      (Transform sampleHash sampleObfuscate
        (Transform sampleHash sampleObfuscate sampleTwoBodies).1).2 = some collisionError) ∧
    ((Transform sampleHash sampleObfuscate sampleFailThenOk).2 = none ∧
      (Transform sampleHash sampleObfuscate sampleFailThenOk).1.responses.map
        (fun kd => responseCode kd.2) = [some 200, some 200, some 200] ∧
      sampleOkThenFail.id = (Transform sampleHash sampleObfuscate sampleFailThenOk).1.id ∧
      sampleOkThenFail.mmeta = (Transform sampleHash sampleObfuscate sampleFailThenOk).1.mmeta ∧
      sampleOkThenFail.args = (Transform sampleHash sampleObfuscate sampleFailThenOk).1.args ∧
      sampleOkThenFail.responses.Perm
        (Transform sampleHash sampleObfuscate sampleFailThenOk).1.responses ∧
      (Transform sampleHash sampleObfuscate sampleOkThenFail).1.responses.map
        (fun kd => responseCode kd.2) = [some 400, some 400, some 400]) :=
  ⟨⟨by decide, by decide, by decide, by decide⟩,
    ⟨by decide, by decide, rfl, rfl, rfl,
      (show List.Perm
        ([("b", sampleBody [("stat", sampleField "ok")] 200),
            ("h", sampleHeader "Content-Type" "text/xml" 200)] ++
          [("a", sampleBody [("stat", sampleField "fail")] 200)])
        ([("a", sampleBody [("stat", sampleField "fail")] 200)] ++
          [("b", sampleBody [("stat", sampleField "ok")] 200),
            ("h", sampleHeader "Content-Type" "text/xml" 200)])
        from List.perm_append_comm),
      by decide⟩⟩

/-- C18 (amended): for every witness with at most one request-body fragment in Args (plain or
multipart) and at most one response-body fragment in Responses on which `Transform` returns
no error, applying `Transform` a second time to the result returns no error and leaves the
witness (path template, Args, Responses, response codes, tags) exactly as the first
application left it; and so it does on `m2`, the result with its Args and Responses
enumerated in any other order. -/
theorem C18_transform_idempotent (hash : Data → String) (obfuscate : String → Primitive)
    (m m2 : Method)
    (hlen : (m.args.filter (fun kd => isRequestBody kd.2)).length ≤ 1)
    (hlenR : (m.responses.filter (fun kd => HTTPBodyFromData kd.2)).length ≤ 1)
    (hok : (Transform hash obfuscate m).2 = none)
    (hid : m2.id = (Transform hash obfuscate m).1.id)
    (hmm : m2.mmeta = (Transform hash obfuscate m).1.mmeta)
    (hargs : m2.args.Perm (Transform hash obfuscate m).1.args)
    (hresp : m2.responses.Perm (Transform hash obfuscate m).1.responses) :
    Transform hash obfuscate (Transform hash obfuscate m).1 =
      ((Transform hash obfuscate m).1, none) ∧
    Transform hash obfuscate m2 = (m2, none) := by
  have key : ∀ x : Method, x.id = (Transform hash obfuscate m).1.id →
      x.mmeta = (Transform hash obfuscate m).1.mmeta →
      x.args.Perm (Transform hash obfuscate m).1.args →
      x.responses.Perm (Transform hash obfuscate m).1.responses →
      Transform hash obfuscate x = (x, none) := by
    intro x hxid hxmm hxargs hxresp
    by_cases hrest : m.GetApiType = .HTTP_REST
    · cases hm : HTTPMetaFromMethod m with
      | none =>
        have h : Transform hash obfuscate m = (m, none) := by simp [Transform, hrest, hm]
        rw [h] at hxid hxmm
        have hx1 : x.GetApiType = .HTTP_REST := by
          unfold Method.GetApiType at hrest ⊢
          rw [hxid]; exact hrest
        have hx2 : HTTPMetaFromMethod x = none := by
          unfold HTTPMetaFromMethod at hm ⊢
          rw [hxmm]; exact hm
        simp [Transform, hx1, hx2]
      | some hmeta =>
        by_cases hhost : IsFlickrAPICall hmeta = true
        · obtain ⟨hr, _, hT⟩ := Transform_success hash obfuscate m hmeta hrest hm hhost hok
          rw [hT] at hxid hxmm hxargs hxresp
          rw [← extractPath_responses m] at hlenR
          generalize he : Transform.extractPath m = e at hr hxid hxmm hxargs hxresp hlenR
          have hargs_e : e.args = (PopBodyElementByName.scan "method"
              (PopQueryStringParamByName m "method").1.args).1 := by
            rw [← he]; exact extractPath_args m
          have hperm_r : x.responses.Perm
              (detectNSIDsData.fields (FixHTTPResponseCode e).1.responses) := by
            have : (DetectNSIDs (FixHTTPAuthorization hash obfuscate
                (FixHTTPResponseCode e).1).1).responses =
                detectNSIDsData.fields (FixHTTPResponseCode e).1.responses := by
              show detectNSIDsData.fields _ = _
              rw [FixAuth_responses]
            rw [← this]; exact hxresp
          generalize hrdef : (FixHTTPResponseCode e).1 = r at hxid hxmm hxargs hxresp
          have hargs_r : r.args = e.args := by rw [← hrdef]; exact FixResp_args e
          generalize hadef : (FixHTTPAuthorization hash obfuscate r).1 = a
            at hxid hxmm hxargs hxresp
          have hx1 : x.GetApiType = .HTTP_REST := by
            have : x.id = m.id := by
              rw [hxid]
              show a.id = m.id
              rw [← hadef, FixAuth_id, ← hrdef, FixResp_id, ← he, extractPath_id]
            unfold Method.GetApiType at hrest ⊢
            rw [this]
            exact hrest
          obtain ⟨h2, hm2, hh2⟩ : ∃ h2, HTTPMetaFromMethod x = some h2 ∧
              h2.host = hmeta.host := by
            apply host_congr e x hmeta.host
            · rw [hxmm]
              show e.mmeta = a.mmeta
              rw [← hadef, FixAuth_mmeta, ← hrdef, FixResp_mmeta]
            · rw [← he]; exact extractPath_host m hmeta hm
          have hflickr : IsFlickrAPICall h2 = true := by
            unfold IsFlickrAPICall at hhost ⊢
            rw [hh2]
            exact hhost
          have hqm_e : ∀ kd ∈ e.args, quiet "method" kd.2 = true := by
            rw [hargs_e]; exact pops_quiet "method" m hlen
          have hone_r : (r.args.filter (fun kd => isRequestBody kd.2)).length ≤ 1 := by
            rw [hargs_r, hargs_e]
            exact scan_one_body _ _ (PopQS_one_body m "method" hlen)
          have hqm : ∀ kd ∈ (DetectNSIDs a).args, quiet "method" kd.2 = true := by
            apply DetectNSIDs_quiet
            rw [← hadef]
            apply FixAuth_quiet
            apply popApiKey_quiet
            rw [hargs_r]
            exact hqm_e
          have hqa : ∀ kd ∈ (DetectNSIDs a).args, quiet "api_key" kd.2 = true := by
            apply DetectNSIDs_quiet
            rw [← hadef]
            apply FixAuth_quiet
            rw [popApiKey_args]
            exact pops_quiet "api_key" r hone_r
          have hfixA : ∀ kd ∈ x.args, detectNSIDsData kd.2 = kd.2 := by
            intro kd hkd
            have := hxargs.mem_iff.mp hkd
            simp only [DetectNSIDs, detect_fields_eq_map, List.mem_map] at this
            obtain ⟨kd0, _, e0⟩ := this
            rw [← e0]
            exact detect_idem kd0.2
          have hfixR : ∀ kd ∈ x.responses, detectNSIDsData kd.2 = kd.2 := by
            intro kd hkd
            have := hxresp.mem_iff.mp hkd
            simp only [DetectNSIDs, detect_fields_eq_map, List.mem_map] at this
            obtain ⟨kd0, _, e0⟩ := this
            rw [← e0]
            exact detect_idem kd0.2
          have hdet : DetectNSIDs x = x := by
            unfold DetectNSIDs
            rw [detect_fields_fixed _ hfixA, detect_fields_fixed _ hfixR]
          exact Transform_fixed hash obfuscate x h2 hx1 hm2 hflickr
            (fun kd hkd => hqm kd (hxargs.mem_iff.mp hkd))
            (fun kd hkd => hqa kd (hxargs.mem_iff.mp hkd))
            (FixResp_idem_perm e x hr hlenR hperm_r) hdet
        · simp [Transform, hrest, hm, hhost] at hok
    · have h : Transform hash obfuscate m = (m, none) := by simp [Transform, hrest]
      rw [h] at hxid
      have hx1 : ¬ x.GetApiType = .HTTP_REST := by
        unfold Method.GetApiType at hrest ⊢
        rw [hxid]; exact hrest
      simp [Transform, hx1]
  exact ⟨key _ rfl rfl (List.Perm.refl _) (List.Perm.refl _), key m2 hid hmm hargs hresp⟩

/-- C18 at a concrete witness: query `method=X`, an `api_key`, one multipart body with
`method=Y` and an NSID-shaped title. -/
theorem C18_transform_idempotent_witness :
    Transform sampleHash sampleObfuscate
        (Transform sampleHash sampleObfuscate sampleQueryAndMultipart).1 =
      ((Transform sampleHash sampleObfuscate sampleQueryAndMultipart).1, none) ∧
    Transform sampleHash sampleObfuscate
        { (Transform sampleHash sampleObfuscate sampleQueryAndMultipart).1 with
          responses :=
            (Transform sampleHash sampleObfuscate sampleQueryAndMultipart).1.responses.reverse } =
      ({ (Transform sampleHash sampleObfuscate sampleQueryAndMultipart).1 with
          responses :=
            (Transform sampleHash sampleObfuscate sampleQueryAndMultipart).1.responses.reverse },
        none) :=
  C18_transform_idempotent sampleHash sampleObfuscate sampleQueryAndMultipart
    { (Transform sampleHash sampleObfuscate sampleQueryAndMultipart).1 with
      responses :=
        (Transform sampleHash sampleObfuscate sampleQueryAndMultipart).1.responses.reverse }
    (by decide) (by decide) (by decide) rfl rfl (List.Perm.refl _) (List.reverse_perm _)

end PluginFlickr
